import Mathlib

/-!
# License-checker bot: shallow embedding and verified properties

The Go sources under `internal/` are embedded as pure Lean functions.
Go strings are Lean `String`s; the standard-library string functions the
program calls (`strings.Split`, `strings.Contains`, `strings.ToUpper`,
`strings.ToLower`) are given as structural recursions over the character
list so that every definition evaluates on concrete inputs.
-/

namespace LicenseChecker

/-! ## Go standard-library string functions -/

/-- Pieces of a character list cut at every occurrence of `sep`
(`strings.Split` with a one-character separator): the result always has one
more element than there are separators, so it is never empty. -/
def splitChars (sep : Char) : List Char → List (List Char)
  | [] => [[]]
  | c :: cs =>
    if c = sep then [] :: splitChars sep cs
    else
      match splitChars sep cs with
      | [] => [[c]]
      | p :: ps => (c :: p) :: ps

/-- Model of `strings.Split(s, ":")`. -/
def strings_Split_colon (s : String) : List String :=
  (splitChars ':' s.data).map String.mk

/-- Boolean prefix test on character lists. -/
def hasPrefixChars : List Char → List Char → Bool
  | [], _ => true
  | _ :: _, [] => false
  | p :: ps, c :: cs => p = c && hasPrefixChars ps cs

/-- Boolean substring test on character lists. -/
def containsChars (sub : List Char) : List Char → Bool
  | [] => hasPrefixChars sub []
  | c :: cs => hasPrefixChars sub (c :: cs) || containsChars sub cs

/-- Model of `strings.Contains(s, substr)`. -/
def strings_Contains (s substr : String) : Bool :=
  containsChars substr.data s.data

/-- Upper-case mapping of one rune (`unicode.ToUpper`).  The ASCII letters
`a`..`z` go to `A`..`Z`, and the two other runes whose upper case is an ASCII
letter go there too: the dotless i (U+0131) to `I` and the long s (U+017F) to
`S`.  Every other rune is kept, so the result has an ASCII character exactly
where the result of `unicode.ToUpper` has it, and the same one. -/
def upperChar (c : Char) : Char :=
  if c = '\u0131' then 'I'
  else if c = '\u017f' then 'S'
  else c.toUpper

/-- Lower-case mapping of one rune (`unicode.ToLower`).  The ASCII letters
`A`..`Z` go to `a`..`z`, and the two other runes whose lower case is an ASCII
letter go there too: the dotted capital I (U+0130) to `i` and the Kelvin sign
(U+212A) to `k`.  Every other rune is kept, so the result has an ASCII
character exactly where the result of `unicode.ToLower` has it, and the same
one. -/
def lowerChar (c : Char) : Char :=
  if c = '\u0130' then 'i'
  else if c = '\u212a' then 'k'
  else c.toLower

/-- Model of `strings.ToUpper`: the rune-wise image under `upperChar`.  Tests
of the result against an ASCII text (equality, `strings.Contains`) have the
value they have in the program; a rune whose upper case is not ASCII is shown
unchanged. -/
def strings_ToUpper (s : String) : String := String.mk (s.data.map upperChar)

/-- Model of `strings.ToLower`: the rune-wise image under `lowerChar`.  Tests
of the result against an ASCII text (equality, `strings.Contains`) have the
value they have in the program; a rune whose lower case is not ASCII is shown
unchanged. -/
def strings_ToLower (s : String) : String := String.mk (s.data.map lowerChar)

/-- Decimal numeral of an integer, as printed by the verb `%d`. -/
def fmtInt (n : Int) : String := toString n

/-! ## `internal/dto` -/

/-- Instant read on the UTC calendar (`time.Time` after `.UTC()`). -/
structure Time where
  Year : Nat
  Month : Nat
  Day : Nat
  Hour : Nat
  Minute : Nat
  Second : Nat

/-- Record `dto.NFTImageMetadata`. -/
structure NFTImageMetadata where
  OriginalUrl : String

/-- Record `dto.NFTAnimationMetadata`. -/
structure NFTAnimationMetadata where
  OriginalUrl : String

/-- Record `dto.LicenseTerms`. -/
structure LicenseTerms where
  Transferable : Bool
  CommercialUse : Bool
  DerivativesAllowed : Bool
  DerivativesApproval : Bool
  CommercialRevShare : Int
  AttributionRequired : Bool
  DerivativesAttribution : Bool
  CommercialAttribution : Bool

/-- Record `dto.LicenseTermsWrapper`. -/
structure LicenseTermsWrapper where
  TemplateName : String
  TemplateMetadataUri : String
  LicenseTemplateId : String
  Terms : Option LicenseTerms

/-- Record `dto.InfringementStatus`. -/
structure InfringementStatus where
  Status : String
  IsInfringing : Bool
  ProviderName : String
  ProviderURL : String
  InfringementDetails : String
  ResponseTime : Option Time
  CreatedAt : Option Time
  UpdatedAt : Option Time

/-- Record `dto.ModerationStatus`. -/
structure ModerationStatus where
  Adult : String
  Spoof : String
  Medical : String
  Violence : String
  Racy : String

/-- Record `dto.NFTMint`; a `json.Number` is kept as its text. -/
structure NFTMint where
  MintAddress : String
  BlockNumber : Option String
  Timestamp : Option Time
  TransactionHash : String
  OwnerAddress : String
  LastUpdatedAt : Option Time
  TimeLastUpdated : Option Time

/-- Record `dto.ContractInfo`. -/
structure ContractInfo where
  Name : String
  Symbol : String
  Address : String
  TotalSupply : Option String

/-- Record `dto.CollectionInfo`. -/
structure CollectionInfo where
  Name : String
  BannerImageUrl : String
  Slug : String
  ExternalUrl : String
  Description : String
  TwitterUsername : String
  DiscordUrl : String

/-- Record `dto.NFTMetadata`. -/
structure NFTMetadata where
  MediaType : String
  Image : Option NFTImageMetadata
  Animation : Option NFTAnimationMetadata
  Contract : Option ContractInfo
  Collection : Option CollectionInfo
  OriginalURL : String
  ExternalURL : String
  Mint : Option NFTMint
  TimeLastUpdated : Option Time

/-- Record `dto.IPAsset`. -/
structure IPAsset where
  IPIDs : List String
  IpId : String
  Title : String
  Description : String
  OwnerAddress : String
  CreatedAt : Option Time
  UpdatedAt : Option Time
  NFTMetadata : Option NFTMetadata
  LicenseTemplate : Option LicenseTermsWrapper
  Licenses : List LicenseTermsWrapper
  Infringement : List InfringementStatus
  Moderation : Option ModerationStatus
  Mint : Option NFTMint
  Contract : Option ContractInfo
  Collection : Option CollectionInfo
  TokenContract : String
  TokenId : String

/-- Record `dto.CollectionMetadata`. -/
structure CollectionMetadata where
  Address : String
  Name : String
  Symbol : String
  TotalSupply : Option String
  TokenType : String
  CreatedAt : Option Time
  UpdatedAt : Option Time
  BannerImageUrl : String
  Slug : String
  ExternalUrl : String
  Description : String
  TwitterUsername : String
  DiscordUrl : String

/-- Record `dto.CollectionItem`. -/
structure CollectionItem where
  CollectionMetadata : CollectionMetadata
  CancelledDisputeCount : Int
  ResolvedDisputeCount : Int
  RaisedDisputeCount : Int
  JudgedDisputeCount : Int

/-! ## `internal/configs` -/

/-- Levels of `logrus.Level`. -/
inductive LogLevel
  | PanicLevel
  | FatalLevel
  | ErrorLevel
  | WarnLevel
  | InfoLevel
  | DebugLevel
  | TraceLevel
  deriving DecidableEq

/-- Record `configs.Config`. -/
structure Config where
  LogLevel : LogLevel
  LOCALE : String
  DB_DRIVER : String
  DB_NAME : String
  DB_USER : String
  DB_PASSWORD : String
  BOT_TOKEN : String
  STORY_API_KEY : String
  STORY_API_BASE_URL : String
  STORY_BUTTON_TIMEOUT_SEC : Int

/-- Rule `validation.Required` on a string: the value is not empty. -/
def ruleRequired (value : String) : Bool := value ≠ ""

/-- Rule `validation.In(..)` on a string: an empty value passes, any other
value must be one of the listed values. -/
def ruleIn (allowed : List String) (value : String) : Bool :=
  value = "" || allowed.contains value

/-- Rule `validation.Length(min, max)` on a string: an empty value passes; the
length in bytes must be at least `min` when `min > 0` and at most `max` when
`max > 0`. -/
def ruleLength (min max : Nat) (value : String) : Bool :=
  value = "" ||
    (!(decide (0 < min) && decide (value.utf8ByteSize < min)) &&
     !(decide (0 < max) && decide (max < value.utf8ByteSize)))

/-- The call `validation.ValidateStruct(config, ..)` of `GetEnvConfig`: whether
every field passes its rules. -/
def validateConfig (config : Config) : Bool :=
  (ruleRequired config.LOCALE && ruleIn ["en", "ru"] config.LOCALE) &&
  (ruleRequired config.DB_DRIVER && ruleIn ["sqlite3", "mysql"] config.DB_DRIVER) &&
  (ruleRequired config.DB_NAME && ruleLength 4 64 config.DB_NAME) &&
  ruleLength 0 64 config.DB_USER &&
  ruleLength 0 64 config.DB_PASSWORD &&
  (ruleRequired config.BOT_TOKEN && ruleLength 1 256 config.BOT_TOKEN) &&
  (ruleRequired config.STORY_API_KEY && ruleLength 1 256 config.STORY_API_KEY) &&
  (ruleRequired config.STORY_API_BASE_URL && ruleLength 1 256 config.STORY_API_BASE_URL)

/-- Function `GetEnvConfig` on its first call, with `getenv` the function
`os.Getenv`: the configuration, or nothing when validation fails and the
process exits (`logrus.Fatalf`). -/
def GetEnvConfig (getenv : String → String) : Option Config :=
  let level := getenv "LOG_LEVEL"
  let config : Config :=
    { LogLevel :=
        if level = "debug" then .DebugLevel
        else if level = "info" then .InfoLevel
        else if level = "warn" then .WarnLevel
        else if level = "error" then .ErrorLevel
        else if level = "fatal" then .FatalLevel
        else if level = "panic" then .PanicLevel
        else .InfoLevel
      LOCALE := getenv "LOCALE"
      DB_DRIVER := getenv "DB_DRIVER"
      DB_NAME := getenv "DB_NAME"
      DB_USER := getenv "DB_USER"
      DB_PASSWORD := getenv "DB_PASSWORD"
      BOT_TOKEN := getenv "BOT_TOKEN"
      STORY_API_KEY := getenv "STORY_API_KEY"
      STORY_API_BASE_URL := getenv "STORY_API_BASE_URL"
      STORY_BUTTON_TIMEOUT_SEC := 300 }
  if validateConfig config then some config else none

/-! ## `internal/i18n` -/

/-- The loaded `locales` map: locale code to (key to text). -/
abbrev Locales := String → Option (String → Option String)

/-- Function `T` of `i18n.go`, over the loaded locale table. -/
def T (locales : Locales) (locale key : String) : String :=
  let fallback : String :=
    match locales "en" with
    | some m =>
      match m key with
      | some v => v
      | none => key
    | none => key
  if locale ≠ "" then
    match locales locale with
    | some m =>
      match m key with
      | some v => v
      | none => fallback
    | none => fallback
  else fallback

/-- Function `DetectLocale` of `i18n.go`.  The source cuts after two bytes
(`raw[:2]`), the model after two characters: the same text whenever the first
two characters are ASCII, as in every locale code and language name. -/
def DetectLocale (raw : String) : String :=
  if raw = "" then ""
  else if raw.data.length ≥ 2 then String.mk (raw.data.take 2)
  else raw

/-! ## `internal/story`: the API client -/

/-- Record `story.APIError`. -/
structure APIError where
  Status : Int
  Title : String
  Detail : String
  Raw : String

/-- Method `(*APIError).Error` (receiver not nil). -/
def APIError.Error (e : APIError) : String :=
  if e.Title ≠ "" ∨ e.Detail ≠ "" then
    "story api error: status=" ++ fmtInt e.Status ++ " title=" ++ e.Title ++ " detail=" ++ e.Detail
  else
    "story api error: status=" ++ fmtInt e.Status

/-- Go `error` values the client hands to its callers: a `*story.APIError`,
or any other error, known by its text. -/
inductive GoError
  | api (e : APIError)
  | other (text : String)

/-- Method `Error()` of an error value. -/
def GoError.Error : GoError → String
  | .api e => e.Error
  | .other text => text

/-- Request body built by the lookup methods:
`{orderBy, orderDirection, pagination:{offset}, includeLicenses?, where:{key: values}}`. -/
structure RequestBody where
  orderBy : String
  orderDirection : String
  offset : Nat
  includeLicenses : Option Bool
  whereKey : String
  whereValues : List String

/-- Status code and body of an HTTP response, after `io.ReadAll`. -/
structure HttpResponse where
  StatusCode : Int
  Body : String

/-- What lies outside the client: the HTTP round trip (request construction,
`httpClient.Do` and `io.ReadAll`, failing with an error text) and the JSON
decoders of `encoding/json` for the three shapes that are decoded. -/
structure Remote where
  send : (url : String) → (apiKey : String) → RequestBody → Except String HttpResponse
  unmarshalAPIError : String → Except String APIError
  unmarshalAssets : String → Except String (List IPAsset)
  unmarshalCollections : String → Except String (List CollectionItem)

/-- Record `story.Client`. -/
structure Client where
  baseURL : String
  apiKey : String
  remote : Remote

/-- Function `NewClient`. -/
def NewClient (config : Config) (remote : Remote) : Client :=
  { baseURL := config.STORY_API_BASE_URL, apiKey := config.STORY_API_KEY, remote := remote }

/-- Method `(*Client).doPost`; `unmarshal` decodes a success body into `out`. -/
def Client.doPost {α : Type} (c : Client) (path : String) (body : RequestBody)
    (unmarshal : String → Except String α) : Except GoError α :=
  let url := c.baseURL ++ path
  match c.remote.send url c.apiKey body with
  | .error err => .error (.other err)
  | .ok resp =>
    let data := resp.Body
    if resp.StatusCode < 200 ∨ resp.StatusCode ≥ 300 then
      match c.remote.unmarshalAPIError data with
      | .ok se =>
        if se.Status ≠ 0 then .error (.api { se with Raw := data })
        else .error (.other ("story api error: status=" ++ fmtInt resp.StatusCode ++ " body=" ++ data))
      | .error _ =>
        .error (.other ("story api error: status=" ++ fmtInt resp.StatusCode ++ " body=" ++ data))
    else
      match unmarshal data with
      | .error err => .error (.other err)
      | .ok out => .ok out

/-- Method `(*Client).GetAssetByID`: the first matching asset, or none. -/
def Client.GetAssetByID (c : Client) (ipID : String) : Except GoError (Option IPAsset) :=
  let reqBody : RequestBody :=
    { orderBy := "blockNumber", orderDirection := "desc", offset := 0,
      includeLicenses := some true, whereKey := "ipIds", whereValues := [ipID] }
  match c.doPost "/assets" reqBody c.remote.unmarshalAssets with
  | .error err => .error err
  | .ok data =>
    match data with
    | [] => .ok none
    | a :: _ => .ok (some a)

/-- Method `(*Client).GetCollectionByAddress`. -/
def Client.GetCollectionByAddress (c : Client) (address : String) :
    Except GoError (Option CollectionMetadata) :=
  let reqBody : RequestBody :=
    { orderBy := "updatedAt", orderDirection := "desc", offset := 0,
      includeLicenses := none, whereKey := "collectionAddresses", whereValues := [address] }
  match c.doPost "/collections" reqBody c.remote.unmarshalCollections with
  | .error err => .error err
  | .ok data =>
    match data with
    | [] => .ok none
    | item :: _ => .ok (some item.CollectionMetadata)

/-- Method `(*Client).GetCollectionDisputes`. -/
def Client.GetCollectionDisputes (c : Client) (address : String) :
    Except GoError (Option CollectionItem) :=
  let reqBody : RequestBody :=
    { orderBy := "updatedAt", orderDirection := "desc", offset := 0,
      includeLicenses := none, whereKey := "collectionAddresses", whereValues := [address] }
  match c.doPost "/collections" reqBody c.remote.unmarshalCollections with
  | .error err => .error err
  | .ok data =>
    match data with
    | [] => .ok none
    | item :: _ => .ok (some item)

/-- Method `(*Client).GetAssetTerms`. -/
def Client.GetAssetTerms (c : Client) (ipID : String) :
    Except GoError (Option LicenseTermsWrapper) :=
  match c.GetAssetByID ipID with
  | .error err => .error err
  | .ok none => .ok none
  | .ok (some asset) =>
    let lt : Option LicenseTermsWrapper :=
      match asset.LicenseTemplate with
      | some t => some t
      | none =>
        match asset.Licenses with
        | l :: _ => some l
        | [] => none
    match lt with
    | none => .ok none
    | some lt =>
      match lt.Terms with
      | some terms =>
        .ok (some { lt with Terms := some { terms with
          AttributionRequired := terms.DerivativesAttribution || terms.CommercialAttribution } })
      | none => .ok (some lt)

/-- Method `(*Client).GetAssetInfringement`. -/
def Client.GetAssetInfringement (c : Client) (ipID : String) :
    Except GoError (List InfringementStatus) :=
  match c.GetAssetByID ipID with
  | .error err => .error err
  | .ok none => .ok []
  | .ok (some asset) => .ok asset.Infringement

/-- Method `(*Client).GetAssetModeration`. -/
def Client.GetAssetModeration (c : Client) (ipID : String) :
    Except GoError (Option ModerationStatus) :=
  match c.GetAssetByID ipID with
  | .error err => .error err
  | .ok none => .ok none
  | .ok (some asset) => .ok asset.Moderation

/-- Method `(*Client).GetAssetMint`. -/
def Client.GetAssetMint (c : Client) (ipID : String) : Except GoError (Option NFTMint) :=
  match c.GetAssetByID ipID with
  | .error err => .error err
  | .ok none => .ok none
  | .ok (some asset) =>
    match asset.NFTMetadata with
    | some md =>
      match md.Mint with
      | some mint => .ok (some mint)
      | none => .ok asset.Mint
    | none => .ok asset.Mint

/-- Method `(*Client).GetAssetCollection`. -/
def Client.GetAssetCollection (c : Client) (ipID : String) :
    Except GoError (Option CollectionInfo) :=
  match c.GetAssetByID ipID with
  | .error err => .error err
  | .ok none => .ok none
  | .ok (some asset) => .ok asset.Collection

/-! ## IEEE-754 binary64 arithmetic used by the formatters

Only positive finite values in the normal range occur: the quotient of a
positive machine integer by `1000000`.  A value is kept as an exact fraction
`num / 2 ^ k`. -/

/-- Positive finite binary64 value `num / 2 ^ k`. -/
structure F64 where
  num : Nat
  k : Nat

/-- Number of binary digits of `n`, with `fuel` bounding the recursion. -/
def bitLenAux : Nat → Nat → Nat
  | 0, _ => 0
  | fuel + 1, n => if n = 0 then 0 else bitLenAux fuel (n / 2) + 1

/-- Number of binary digits of `n` (`0` for `0`): `2 ^ (bitLen n - 1) ≤ n < 2 ^ bitLen n`. -/
def bitLen (n : Nat) : Nat := bitLenAux n n

/-- The integer nearest to `p / q`, ties going to the even neighbour. -/
def roundNearestEven (p q : Nat) : Nat :=
  let f := p / q
  let r := p % q
  if 2 * r < q then f
  else if q < 2 * r then f + 1
  else if f % 2 = 0 then f
  else f + 1

/-- The exponent `e` with `2 ^ e ≤ a / b < 2 ^ (e + 1)`, for positive `a`, `b`. -/
def binaryExponent (a b : Nat) : Int :=
  let la := bitLen a
  let lb := bitLen b
  if lb ≤ la then
    if b * 2 ^ (la - lb) ≤ a then ((la - lb : Nat) : Int) else ((la - lb : Nat) : Int) - 1
  else
    if b ≤ a * 2 ^ (lb - la) then -((lb - la : Nat) : Int) else -((lb - la : Nat) : Int) - 1

/-- The binary64 value nearest to the positive fraction `a / b` (53 significant
bits, round to nearest, ties to even). -/
def round53 (a b : Nat) : F64 :=
  let e := binaryExponent a b
  if e ≤ 52 then
    let s := (52 - e).toNat
    { num := roundNearestEven (a * 2 ^ s) b, k := s }
  else
    let s := (e - 52).toNat
    { num := roundNearestEven a (b * 2 ^ s) * 2 ^ s, k := 0 }

/-- Conversion `float64(n)` of a positive integer: exact below `2 ^ 53`. -/
def F64.ofNat (n : Nat) : F64 :=
  if n < 2 ^ 53 then { num := n, k := 0 } else round53 n 1

/-- Quotient `x / d` of a binary64 value by a positive integer constant that is
itself a binary64 value. -/
def F64.divNat (x : F64) (d : Nat) : F64 := round53 x.num (d * 2 ^ x.k)

/-- Test `math.Mod(x, 1) == 0`: the value is a whole number. -/
def F64.isWhole (x : F64) : Bool := x.num % 2 ^ x.k = 0

/-- Decimal numeral `s` padded on the left with zeros to `width` characters. -/
def padZeros (width : Nat) (s : String) : String :=
  String.mk (List.replicate (width - s.data.length) '0') ++ s

/-- Verb `%.<prec>f` applied to a binary64 value: the exact value rounded to
`prec` fractional digits, ties to even. -/
def fmtFixed (prec : Nat) (x : F64) : String :=
  let scaled := roundNearestEven (x.num * 10 ^ prec) (2 ^ x.k)
  let whole := Nat.repr (scaled / 10 ^ prec)
  if prec = 0 then whole
  else whole ++ "." ++ padZeros prec (Nat.repr (scaled % 10 ^ prec))

/-- Numeral with exactly two digits of a number below one hundred (two
fractional digits of a percentage). -/
def twoDigits (k : Nat) : String := String.mk [Nat.digitChar (k / 10 % 10), Nat.digitChar (k % 10)]

/-! ## Time layouts -/

/-- Layout `2006-01-02`. -/
def Time.formatDate (t : Time) : String :=
  padZeros 4 (Nat.repr t.Year) ++ "-" ++ padZeros 2 (Nat.repr t.Month) ++ "-" ++
    padZeros 2 (Nat.repr t.Day)

/-- Layout `2006-01-02 15:04 UTC`. -/
def Time.formatMinutes (t : Time) : String :=
  t.formatDate ++ " " ++ padZeros 2 (Nat.repr t.Hour) ++ ":" ++ padZeros 2 (Nat.repr t.Minute) ++
    " UTC"

/-- Layout `2006-01-02 15:04:05 UTC`. -/
def Time.formatSeconds (t : Time) : String :=
  t.formatDate ++ " " ++ padZeros 2 (Nat.repr t.Hour) ++ ":" ++ padZeros 2 (Nat.repr t.Minute) ++
    ":" ++ padZeros 2 (Nat.repr t.Second) ++ " UTC"

/-- Layout `time.RFC3339` of a UTC instant. -/
def Time.formatRFC3339 (t : Time) : String :=
  t.formatDate ++ "T" ++ padZeros 2 (Nat.repr t.Hour) ++ ":" ++ padZeros 2 (Nat.repr t.Minute) ++
    ":" ++ padZeros 2 (Nat.repr t.Second) ++ "Z"

/-! ## `discordgo` data read and written by the bot -/

/-- Record `discordgo.Button` (style: 1 primary, 2 secondary, 5 link). -/
structure Button where
  Label : String
  Style : Nat
  Disabled : Bool
  URL : String
  CustomID : String

/-- Interface `discordgo.MessageComponent`, by the dynamic type of the value:
`ActionsRow` and `Button` are values of the struct types
`discordgo.ActionsRow` and `discordgo.Button` (what the bot builds with
composite literals); `ActionsRowPtr` and `ButtonPtr` are values of the pointer
types `*discordgo.ActionsRow` and `*discordgo.Button` (what the library puts
into a decoded message: its decoder stores the address of a fresh
`ActionsRow` or `Button`); `Other` is a component of another kind.  A type
assertion `c.(discordgo.ActionsRow)` succeeds on the first kind only. -/
inductive MessageComponent
  | ActionsRow (Components : List MessageComponent)
  | Button (b : Button)
  | ActionsRowPtr (Components : List MessageComponent)
  | ButtonPtr (b : Button)
  | Other (kind : String)

/-- Record `discordgo.MessageEmbedField`. -/
structure MessageEmbedField where
  Name : String
  Value : String
  Inline : Bool

/-- Record `discordgo.MessageEmbed`; `Footer` holds the footer text. -/
structure MessageEmbed where
  Title : String
  Description : String
  Color : Nat
  Footer : Option String
  Fields : List MessageEmbedField

/-- Record `discordgo.WebhookParams`. -/
structure WebhookParams where
  Content : String
  Flags : Nat
  Embeds : List MessageEmbed
  Components : List MessageComponent

/-- Record `discordgo.User`. -/
structure User where
  ID : String

/-- Record `discordgo.Member`. -/
structure Member where
  User : Option User

/-- Record `discordgo.Message`.  The components of a message that arrives
with an event are pointer-typed (`ActionsRowPtr`, `ButtonPtr`). -/
structure Message where
  ID : String
  ChannelID : String
  Components : List MessageComponent

/-- Kinds of `discordgo.InteractionResponseType` the bot sends. -/
inductive InteractionResponseType
  | ChannelMessageWithSource
  | DeferredChannelMessageWithSource

/-- Kinds of `discordgo.InteractionType` the event handler tells apart. -/
inductive InteractionType
  | ApplicationCommand
  | MessageComponent
  | Other

/-- Value of one `discordgo.ApplicationCommandInteractionDataOption`: a string
option with its value, or an option of another type, with the name of that
type. -/
inductive OptionValue
  | string (value : String)
  | other (typeName : String)

/-- Method `StringValue` of an option: the value of a string option; on an
option of another type the library panics with the text given as the error. -/
def OptionValue.StringValue : OptionValue → Except String String
  | .string value => .ok value
  | .other typeName => .error ("StringValue called on data option of type " ++ typeName)

/-- Inbound event `discordgo.InteractionCreate`.  `Locale` is the locale code
and `LocaleText` the text `fmt.Sprint` prints for it, which is the language
name its `String` method returns; `GuildLocale`, when present, holds the text
`fmt.Sprint` prints for that field; `Kind` is the field `Type`; `CommandName`
and `CommandOptions` are `ApplicationCommandData()` (name and options);
`CustomID` is `MessageComponentData().CustomID`. -/
structure InteractionCreate where
  Kind : InteractionType
  CommandName : String
  CommandOptions : List OptionValue
  Locale : String
  LocaleText : String
  GuildLocale : Option String
  Member : Option Member
  User : Option User
  Message : Option Message
  CustomID : String

/-- Calls the bot makes on its collaborators, in program order.  `ClientCall`
is a call of the named API client method; `GoCleanup` is the start of the
goroutine that cleans a message up after the delay. -/
inductive Effect
  | InteractionRespond (type : InteractionResponseType) (content : String) (flags : Nat)
  | FollowupMessageCreate (params : WebhookParams)
  | ChannelMessageEditComplex (id channel : String) (components : List MessageComponent)
  | ChannelMessageDelete (channel id : String)
  | ClientCall (method : String) (arg : String)
  | Log (level : String) (text : String)
  | GoCleanup (delaySeconds : Int) (channel id : String) (components : List MessageComponent)

/-- Everything outside the bot that one event can observe: the locale table,
the configuration, the API client, and the errors (absent on success) that the
platform returns to the two deferred acknowledgements, and the result (the
message created, or an error) of the follow-up that carries the embed. -/
structure World where
  locales : Locales
  config : Config
  client : Client
  routerAck : Option String
  handlerAck : Option String
  followup : Except String Message

/-! ## `internal/workers`: helpers -/

/-- Function `getTextWithCtx`; `i` is absent for the call `getText(key)`. -/
def getTextWithCtx (w : World) (i : Option InteractionCreate) (key : String) : String :=
  let fromConfig : String :=
    let loc := DetectLocale (strings_ToLower w.config.LOCALE)
    T w.locales (if loc = "" then "en" else loc) key
  match i with
  | some i =>
    let raw : String :=
      if i.Locale ≠ "" then i.LocaleText
      else
        match i.GuildLocale with
        | some g => g
        | none => ""
    if raw ≠ "" then
      let loc := DetectLocale (strings_ToLower raw)
      T w.locales (if loc = "" then "en" else loc) key
    else fromConfig
  | none => fromConfig

/-- Function `getText`. -/
def getText (w : World) (key : String) : String := getTextWithCtx w none key

/-- Function `respondDeferred`: the call made and the error returned, where
`ack` is the platform's answer to the acknowledgement. -/
def respondDeferred (ack : Option String) : List Effect × Option String :=
  let call := Effect.InteractionRespond .DeferredChannelMessageWithSource "" 0
  match ack with
  | some err =>
    if strings_Contains err "already been acknowledged" || strings_Contains err "40060" then
      ([call], none)
    else ([call], some err)
  | none => ([call], none)

/-- Footer text set on every embed. -/
def footerText : String := "üß© Powered by Endorphine Stake"

/-- Function `followupEmbed`. -/
def followupEmbed (w : World) (embed : MessageEmbed) : List Effect :=
  let embed := { embed with Footer := some footerText }
  let embed := if embed.Fields.length > 25 then { embed with Fields := embed.Fields.take 25 } else embed
  let call := Effect.FollowupMessageCreate
    { Content := "", Flags := 0, Embeds := [embed], Components := [] }
  match w.followup with
  | .error err => [call, .Log "error" ("Failed to send followup embed: " ++ err)]
  | .ok _ => [call]

/-- Function `followupEmbedWithComponents`: the calls made, and the message
returned (absent on error). -/
def followupEmbedWithComponents (w : World) (embed : MessageEmbed)
    (components : List MessageComponent) : List Effect × Option Message :=
  let embed := { embed with Footer := some footerText }
  let embed := if embed.Fields.length > 25 then { embed with Fields := embed.Fields.take 25 } else embed
  let params : WebhookParams := { Content := "", Flags := 0, Embeds := [embed], Components := [] }
  let params := if components.length > 0 then { params with Components := components } else params
  match w.followup with
  | .error err =>
    ([.FollowupMessageCreate params, .Log "error" ("Failed to send followup embed: " ++ err)], none)
  | .ok msg => ([.FollowupMessageCreate params], some msg)

/-- Function `disableComponentsCopy`.  Both type assertions name the struct
types, so a pointer-typed row falls into the outer `else` and a pointer-typed
button into the inner one: each is appended as it is. -/
def disableComponentsCopy (components : List MessageComponent) : List MessageComponent :=
  components.map fun c =>
    match c with
    | .ActionsRow rowComponents =>
      .ActionsRow (rowComponents.map fun rc =>
        match rc with
        | .Button b => .Button { b with Disabled := true }
        | rc => rc)
    | c => c

/-- Identifier of the user behind an interaction (`i.Member.User.ID`, else
`i.User.ID`, else empty). -/
def interactionUserID (i : InteractionCreate) : String :=
  match i.Member with
  | some mem =>
    match mem.User with
    | some u => u.ID
    | none =>
      match i.User with
      | some u => u.ID
      | none => ""
  | none =>
    match i.User with
    | some u => u.ID
    | none => ""

/-- The test every asset handler applies to a client error: it is an
`*APIError` whose lower-cased `Detail + " " + Title` names an invalid id. -/
def isInvalidIPIDError : GoError → Bool
  | .api ae =>
    let low := strings_ToLower (ae.Detail ++ " " ++ ae.Title)
    strings_Contains low "invalid ip asset id" || strings_Contains low "invalid ip id"
  | .other _ => false

/-- Composite literal `&discordgo.MessageEmbed{Title: .., Description: .., Color: ..}`. -/
def newEmbed (title description : String) (color : Nat) : MessageEmbed :=
  { Title := title, Description := description, Color := color, Footer := none, Fields := [] }

/-- Statement `embed.Fields = append(embed.Fields, &discordgo.MessageEmbedField{..})`. -/
def MessageEmbed.addField (embed : MessageEmbed) (name value : String) (inline : Bool) :
    MessageEmbed :=
  { embed with Fields := embed.Fields ++ [{ Name := name, Value := value, Inline := inline }] }

/-- Button identifier `fmt.Sprintf("<kind>:<action>:%s:%s", id, uid)`. -/
def customID (kind action id uid : String) : String :=
  kind ++ ":" ++ action ++ ":" ++ id ++ ":" ++ uid

/-- Button carrying an identifier (`discordgo.Button{Label, Style, CustomID}`). -/
def actionButton (label : String) (style : Nat) (cid : String) : MessageComponent :=
  .Button { Label := label, Style := style, Disabled := false, URL := "", CustomID := cid }

/-- Link button (`discordgo.Button{Label, Style: discordgo.LinkButton, URL}`). -/
def linkButton (label url : String) : MessageComponent :=
  .Button { Label := label, Style := 5, Disabled := false, URL := url, CustomID := "" }

/-! ## `internal/workers`: presentation formatters -/

/-- Function `formatRevSharePercent` of `discord_bot.go`. -/
def formatRevSharePercent (n : Int) : String :=
  if n ≤ 0 then "0%"
  else
    let pct := (F64.ofNat n.toNat).divNat 1000000
    if pct.isWhole then fmtFixed 0 pct ++ "%"
    else fmtFixed 2 pct ++ "%"

/-- Loop of `evaluateModeration` over the remaining category values;
`anyPossible` is the flag accumulated so far. -/
def evaluateModerationLoop : List String → Bool → String
  | [], anyPossible => if anyPossible then "Review" else "Safe"
  | v :: rest, anyPossible =>
    let up := strings_ToUpper v
    if strings_Contains up "VERY_LIKELY" || strings_Contains up "LIKELY" then
      "Unsafe"
    else if strings_Contains up "POSSIBLE" || strings_Contains up "POSSIBLY" then
      evaluateModerationLoop rest true
    else
      evaluateModerationLoop rest anyPossible

/-- Function `evaluateModeration` of `discord_bot.go`. -/
def evaluateModeration (m : ModerationStatus) : String :=
  evaluateModerationLoop [m.Adult, m.Spoof, m.Medical, m.Violence, m.Racy] false

/-! ## `internal/workers`: command handlers -/

/-- Content type chosen by `handleLicense` from the media metadata. -/
def licenseContentType (md : NFTMetadata) : String :=
  let mt := strings_ToLower md.MediaType
  let hasAnim : Bool :=
    match md.Animation with
    | some a => a.OriginalUrl ≠ ""
    | none => false
  let hasImg : Bool :=
    match md.Image with
    | some im => im.OriginalUrl ≠ ""
    | none => false
  if mt = "animation" then
    if hasAnim then "Animation" else if hasImg then "Image" else ""
  else if mt = "image" then
    if hasImg then "Image" else if hasAnim then "Animation" else ""
  else
    if hasAnim then "Animation" else if hasImg then "Image" else ""

/-- Play link chosen by `handleLicense` for a content type. -/
def licensePlayLink (md : NFTMetadata) (contentType : String) : String :=
  let viaMetadata : String :=
    if md.OriginalURL ≠ "" then md.OriginalURL
    else if md.ExternalURL ≠ "" then md.ExternalURL
    else ""
  if contentType = "Image" then
    match md.Image with
    | some im => if im.OriginalUrl ≠ "" then im.OriginalUrl else viaMetadata
    | none => viaMetadata
  else if contentType = "Animation" then
    match md.Animation with
    | some a => if a.OriginalUrl ≠ "" then a.OriginalUrl else viaMetadata
    | none => viaMetadata
  else ""

/-- Body of the goroutine started by `handleLicense`, run after the delay;
`deleteErr` and `editErr` are the platform's answers to its two calls. -/
def buttonCleanup (deleteErr editErr : Option String) (channelID messageID : String)
    (comps : List MessageComponent) : List Effect :=
  match deleteErr with
  | some derr =>
    [.ChannelMessageDelete channelID messageID,
     .Log "debug" ("failed to delete message: " ++ derr ++ ", falling back to disabling components"),
     .ChannelMessageEditComplex messageID channelID (disableComponentsCopy comps)] ++
    match editErr with
    | some err => [.Log "debug" ("failed to disable components: " ++ err)]
    | none => []
  | none => [.ChannelMessageDelete channelID messageID]

/-- Function `handleLicense`. -/
def handleLicense (w : World) (i : InteractionCreate) (ipId : String) : List Effect :=
  match respondDeferred w.handlerAck with
  | (acks, some err) => acks ++ [.Log "error" ("defer failed: " ++ err)]
  | (acks, none) =>
    acks ++ [.ClientCall "GetAssetByID" ipId] ++
    match w.client.GetAssetByID ipId with
    | .error err =>
      if isInvalidIPIDError err then
        followupEmbed w (newEmbed "" (getTextWithCtx w (some i) "invalid_ip_id") 0xFFFF00)
      else
        followupEmbed w (newEmbed "Error" err.Error 0xFF0000)
    | .ok none => followupEmbed w (newEmbed "License" (getText w "not_found") 0xFFFF00)
    | .ok (some asset) =>
      let title := if asset.Title ≠ "" then asset.Title else ipId
      let embed := newEmbed title asset.Description 0x00FF00
      let embed := embed.addField (getTextWithCtx w (some i) "embed_id") ipId false
      let embed :=
        if asset.OwnerAddress ≠ "" then
          embed.addField (getTextWithCtx w (some i) "embed_owner") asset.OwnerAddress true
        else embed
      let contentType : String :=
        match asset.NFTMetadata with
        | some md => licenseContentType md
        | none => ""
      let embed :=
        if contentType ≠ "" then
          embed.addField (getTextWithCtx w (some i) "embed_metadata") contentType false
        else embed
      let playLink : String :=
        match asset.NFTMetadata with
        | some md => licensePlayLink md contentType
        | none => ""
      let uid := interactionUserID i
      let locale := DetectLocale w.config.LOCALE
      let collCID : String :=
        match asset.Contract with
        | some ct => if ct.Address ≠ "" then customID "col" "show" ct.Address uid
                     else customID "lic" "coll" ipId uid
        | none => customID "lic" "coll" ipId uid
      let primaryRow : MessageComponent := .ActionsRow [
        actionButton (T w.locales locale "btn_terms") 1 (customID "lic" "terms" ipId uid),
        actionButton (T w.locales locale "btn_infringement") 2 (customID "lic" "infr" ipId uid),
        actionButton (T w.locales locale "btn_moderation") 2 (customID "lic" "mod" ipId uid),
        actionButton (T w.locales locale "btn_mint") 2 (customID "lic" "mint" ipId uid),
        actionButton (T w.locales locale "btn_collection") 2 collCID]
      let components : List MessageComponent := if uid ≠ "" then [primaryRow] else []
      let components : List MessageComponent :=
        if playLink ≠ "" then
          .ActionsRow [linkButton (T w.locales locale "btn_play") playLink] :: components
        else components
      let embed :=
        match asset.CreatedAt with
        | some t => embed.addField (getTextWithCtx w (some i) "embed_created") t.formatDate true
        | none => embed
      let embed :=
        match asset.UpdatedAt with
        | some t => embed.addField (getTextWithCtx w (some i) "embed_updated") t.formatDate true
        | none => embed
      if components.length > 0 then
        match followupEmbedWithComponents w embed components with
        | (calls, some msg) =>
          calls ++ [.GoCleanup w.config.STORY_BUTTON_TIMEOUT_SEC msg.ChannelID msg.ID components]
        | (calls, none) => calls
      else followupEmbed w embed

/-- Glyph map `yes` of `handleLicenseTerms`. -/
def yesNo (b : Bool) : String := if b then "‚úÖ" else "‚ùå"

/-- Function `strings.Join(lines, "\n")`. -/
def joinLines : List String → String
  | [] => ""
  | [l] => l
  | l :: rest => l ++ "\n" ++ joinLines rest

/-- Function `handleLicenseTerms`. -/
def handleLicenseTerms (w : World) (i : InteractionCreate) (ipId : String) : List Effect :=
  match respondDeferred w.handlerAck with
  | (acks, some err) => acks ++ [.Log "error" err]
  | (acks, none) =>
    acks ++ [.ClientCall "GetAssetTerms" ipId] ++
    match w.client.GetAssetTerms ipId with
    | .error err =>
      if isInvalidIPIDError err then
        followupEmbed w (newEmbed "" (getText w "invalid_ip_id") 0xFFFF00)
      else
        followupEmbed w (newEmbed "Error" err.Error 0xFF0000)
    | .ok none =>
      followupEmbed w
        (newEmbed (getTextWithCtx w (some i) "title_terms") (getText w "no_terms") 0xFFFF00)
    | .ok (some t) =>
      let embed := newEmbed (getTextWithCtx w (some i) "title_terms") "" 0x00AAFF
      let embed :=
        if t.LicenseTemplateId ≠ "" then
          embed.addField (getTextWithCtx w (some i) "embed_template") t.LicenseTemplateId false
        else embed
      let embed :=
        if t.TemplateName ≠ "" then
          embed.addField (getTextWithCtx w (some i) "embed_template_name")
            (strings_ToUpper t.TemplateName) false
        else embed
      let embed :=
        if t.TemplateMetadataUri ≠ "" then
          embed.addField (getTextWithCtx w (some i) "embed_template_url") t.TemplateMetadataUri false
        else embed
      let embed :=
        match t.Terms with
        | some terms =>
          let lines : List String := [
            getTextWithCtx w (some i) "embed_id" ++ ": " ++ ipId,
            "",
            getTextWithCtx w (some i) "embed_transferable" ++ ": " ++ yesNo terms.Transferable,
            getTextWithCtx w (some i) "embed_commercial_use" ++ ": " ++ yesNo terms.CommercialUse,
            getTextWithCtx w (some i) "embed_derivatives_allowed" ++ ": " ++
              yesNo terms.DerivativesAllowed,
            getTextWithCtx w (some i) "embed_derivatives_approval" ++ ": " ++
              yesNo terms.DerivativesApproval,
            getTextWithCtx w (some i) "embed_commercial_rev_share" ++ ": " ++
              formatRevSharePercent terms.CommercialRevShare,
            getTextWithCtx w (some i) "embed_attribution" ++ ": " ++ yesNo terms.AttributionRequired]
          { embed with Description := joinLines lines }
        | none => embed
      followupEmbed w embed

/-- Verdict loop of `handleLicenseInfringement` over the remaining records;
`status` and `color` are the values held so far. -/
def infringementLoop : List InfringementStatus → String → Nat → String × Nat
  | [], status, color => (status, color)
  | it :: rest, status, color =>
    if it.IsInfringing then ("‚ùå Infringing", 0xFF0000)
    else if strings_ToLower it.Status ≠ "succeeded" then infringementLoop rest "‚ö†Ô∏è Potential issue" 0xFFAA00
    else infringementLoop rest status color

/-- Status text and colour computed by `handleLicenseInfringement` for a list
of records. -/
def infringementVerdict (arr : List InfringementStatus) : String × Nat :=
  infringementLoop arr "‚úÖ Not infringing" 0x00FF00

/-- Function `handleLicenseInfringement`. -/
def handleLicenseInfringement (w : World) (i : InteractionCreate) (ipId : String) :
    List Effect :=
  match respondDeferred w.handlerAck with
  | (acks, some err) => acks ++ [.Log "error" err]
  | (acks, none) =>
    acks ++ [.ClientCall "GetAssetInfringement" ipId] ++
    match w.client.GetAssetInfringement ipId with
    | .error err =>
      if isInvalidIPIDError err then
        followupEmbed w (newEmbed "" (getTextWithCtx w (some i) "invalid_ip_id") 0xFFFF00)
      else
        followupEmbed w (newEmbed "Error" err.Error 0xFF0000)
    | .ok [] => followupEmbed w (newEmbed "Infringement Status" (getText w "no_checks") 0xFFFF00)
    | .ok (latest :: more) =>
      let verdict := infringementVerdict (latest :: more)
      let embed := newEmbed (getTextWithCtx w (some i) "title_infringement" ++ " ‚Äî " ++ ipId)
        verdict.1 verdict.2
      let embed :=
        if latest.ProviderName ≠ "" then
          embed.addField (getTextWithCtx w (some i) "embed_provider") latest.ProviderName true
        else embed
      let embed :=
        match latest.ResponseTime with
        | some t => embed.addField (getTextWithCtx w (some i) "embed_checked") t.formatMinutes true
        | none => embed
      followupEmbed w embed

/-- Function `handleLicenseModeration`. -/
def handleLicenseModeration (w : World) (i : InteractionCreate) (ipId : String) : List Effect :=
  match respondDeferred w.handlerAck with
  | (acks, some err) => acks ++ [.Log "error" err]
  | (acks, none) =>
    acks ++ [.ClientCall "GetAssetModeration" ipId] ++
    match w.client.GetAssetModeration ipId with
    | .error err =>
      if isInvalidIPIDError err then
        followupEmbed w (newEmbed "" (getTextWithCtx w (some i) "invalid_ip_id") 0xFFFF00)
      else
        followupEmbed w (newEmbed "Error" err.Error 0xFF0000)
    | .ok none => followupEmbed w (newEmbed "Moderation" (getText w "no_moderation") 0xFFFF00)
    | .ok (some m) =>
      let eval := evaluateModeration m
      let color : Nat :=
        if eval = "Unsafe" then 0xFF0000 else if eval = "Review" then 0xFFAA00 else 0x00FF00
      let embed := newEmbed (getTextWithCtx w (some i) "title_moderation" ++ " ‚Äî " ++ ipId)
        eval color
      let embed := embed.addField (getTextWithCtx w (some i) "adult") m.Adult true
      let embed := embed.addField (getTextWithCtx w (some i) "spoof") m.Spoof true
      let embed := embed.addField (getTextWithCtx w (some i) "medical") m.Medical true
      let embed := embed.addField (getTextWithCtx w (some i) "violence") m.Violence true
      let embed := embed.addField (getTextWithCtx w (some i) "racy") m.Racy true
      followupEmbed w embed

/-- Function `handleLicenseMint`. -/
def handleLicenseMint (w : World) (i : InteractionCreate) (ipId : String) : List Effect :=
  match respondDeferred w.handlerAck with
  | (acks, some err) => acks ++ [.Log "error" err]
  | (acks, none) =>
    acks ++ [.ClientCall "GetAssetMint" ipId] ++
    match w.client.GetAssetMint ipId with
    | .error err =>
      if isInvalidIPIDError err then
        followupEmbed w (newEmbed "" (getTextWithCtx w (some i) "invalid_ip_id") 0xFFFF00)
      else
        followupEmbed w (newEmbed "Error" err.Error 0xFF0000)
    | .ok none => followupEmbed w (newEmbed "Mint Info" (getText w "no_mint") 0xFFFF00)
    | .ok (some m) =>
      let embed := newEmbed (getTextWithCtx w (some i) "title_mint" ++ " ‚Äî " ++ ipId) "" 0x0099FF
      let embed := embed.addField (getTextWithCtx w (some i) "mint_address") m.MintAddress false
      let embed :=
        match m.BlockNumber with
        | some bn => embed.addField (getTextWithCtx w (some i) "block_number") bn true
        | none => embed
      let embed :=
        match m.Timestamp with
        | some t => embed.addField (getTextWithCtx w (some i) "mint_timestamp") t.formatSeconds true
        | none => embed
      let embed :=
        if m.TransactionHash ≠ "" then
          embed.addField (getTextWithCtx w (some i) "transaction") m.TransactionHash false
        else embed
      let comps : List MessageComponent :=
        if m.TransactionHash ≠ "" then
          let txUrl := "https://www.storyscan.io/tx/" ++ m.TransactionHash
          let locale := DetectLocale w.config.LOCALE
          [.ActionsRow [linkButton (T w.locales locale "btn_storyscan") txUrl]]
        else []
      let embed :=
        if m.OwnerAddress ≠ "" then
          embed.addField (getTextWithCtx w (some i) "embed_owner") m.OwnerAddress true
        else embed
      let embed :=
        match m.LastUpdatedAt with
        | some t =>
          embed.addField (getTextWithCtx w (some i) "last_updated_metadata") t.formatRFC3339 true
        | none => embed
      let embed :=
        match m.TimeLastUpdated with
        | some t =>
          embed.addField (getTextWithCtx w (some i) "last_updated_system") t.formatRFC3339 true
        | none => embed
      if comps.length > 0 then (followupEmbedWithComponents w embed comps).1
      else followupEmbed w embed

/-- Function `handleLicenseCollection`. -/
def handleLicenseCollection (w : World) (i : InteractionCreate) (ipId : String) : List Effect :=
  match respondDeferred w.handlerAck with
  | (acks, some err) => acks ++ [.Log "error" err]
  | (acks, none) =>
    acks ++ [.ClientCall "GetAssetByID" ipId] ++
    match w.client.GetAssetByID ipId with
    | .error err => followupEmbed w (newEmbed "Error" err.Error 0xFF0000)
    | .ok none => followupEmbed w (newEmbed "Collection" (getText w "no_collection") 0xFFFF00)
    | .ok (some asset) =>
      let embed := newEmbed (getTextWithCtx w (some i) "title_collection") "" 0x00CC99
      let embed := embed.addField (getTextWithCtx w (some i) "embed_id") ipId false
      let nestedContract : Option ContractInfo :=
        match asset.NFTMetadata with
        | some md => md.Contract
        | none => none
      let nestedCollection : Option CollectionInfo :=
        match asset.NFTMetadata with
        | some md => md.Collection
        | none => none
      let contract : Option ContractInfo :=
        match nestedContract with
        | some ct => some ct
        | none => asset.Contract
      let collection : Option CollectionInfo :=
        match nestedCollection with
        | some cl => some cl
        | none => asset.Collection
      let embed :=
        match contract with
        | some ct =>
          let embed := embed.addField (getTextWithCtx w (some i) "contract_name") ct.Name true
          let embed := embed.addField (getTextWithCtx w (some i) "symbol") ct.Symbol true
          let embed :=
            if ct.Address ≠ "" then
              embed.addField (getTextWithCtx w (some i) "contract_address") ct.Address false
            else embed
          match ct.TotalSupply with
          | some ts => embed.addField (getTextWithCtx w (some i) "total_supply") (ts ++ " NFTs") true
          | none => embed
        | none => embed
      let collectionName : String :=
        match collection with
        | some cl => if cl.Name ≠ "" then cl.Name else "‚ùå"
        | none => "‚ùå"
      let embed := embed.addField (getTextWithCtx w (some i) "collection_name") collectionName false
      let uid := interactionUserID i
      let address : String :=
        match contract with
        | some ct => ct.Address
        | none => ""
      if uid ≠ "" ∧ address ≠ "" then
        let locale := DetectLocale w.config.LOCALE
        let actionRow : MessageComponent := .ActionsRow [
          actionButton (T w.locales locale "btn_view_collection") 2 (customID "col" "show" address uid)]
        (followupEmbedWithComponents w embed [actionRow]).1
      else followupEmbed w embed

/-- Function `handleCollection`. -/
def handleCollection (w : World) (i : InteractionCreate) (addr : String) : List Effect :=
  match respondDeferred w.handlerAck with
  | (acks, some err) => acks ++ [.Log "error" err]
  | (acks, none) =>
    acks ++ [.ClientCall "GetCollectionByAddress" addr] ++
    match w.client.GetCollectionByAddress addr with
    | .error err => followupEmbed w (newEmbed "Error" err.Error 0xFF0000)
    | .ok none => followupEmbed w (newEmbed "Collection" (getText w "not_found") 0xFFFF00)
    | .ok (some meta) =>
      let embed := newEmbed (getTextWithCtx w (some i) "title_collection" ++ " " ++ addr) "" 0x0055FF
      let embed := embed.addField (getTextWithCtx w (some i) "name") meta.Name true
      let embed := embed.addField (getTextWithCtx w (some i) "symbol") meta.Symbol true
      let embed :=
        match meta.TotalSupply with
        | some ts => embed.addField (getTextWithCtx w (some i) "total_supply") ts true
        | none => embed
      let embed := embed.addField (getTextWithCtx w (some i) "token_type") meta.TokenType true
      let embed :=
        match meta.CreatedAt with
        | some t => embed.addField (getTextWithCtx w (some i) "embed_created") t.formatDate true
        | none => embed
      let embed :=
        match meta.UpdatedAt with
        | some t => embed.addField (getTextWithCtx w (some i) "embed_updated") t.formatDate true
        | none => embed
      let uid := interactionUserID i
      if uid ≠ "" then
        let locale := DetectLocale w.config.LOCALE
        let actionRow : MessageComponent := .ActionsRow [
          actionButton (T w.locales locale "btn_disputes") 2 (customID "col" "disputes" addr uid)]
        (followupEmbedWithComponents w embed [actionRow]).1
      else followupEmbed w embed

/-- Function `handleCollectionDisputes`. -/
def handleCollectionDisputes (w : World) (i : InteractionCreate) (addr : String) : List Effect :=
  match respondDeferred w.handlerAck with
  | (acks, some err) => acks ++ [.Log "error" err]
  | (acks, none) =>
    acks ++ [.ClientCall "GetCollectionDisputes" addr] ++
    match w.client.GetCollectionDisputes addr with
    | .error err => followupEmbed w (newEmbed "Error" err.Error 0xFF0000)
    | .ok none =>
      followupEmbed w
        (newEmbed (getTextWithCtx w (some i) "title_disputes") (getText w "not_found") 0xFFFF00)
    | .ok (some item) =>
      let embed := newEmbed (getTextWithCtx w (some i) "title_disputes" ++ " ‚Äî " ++ addr) "" 0x00AA00
      let embed := embed.addField "Raised" (fmtInt item.RaisedDisputeCount) true
      let embed := embed.addField "Resolved" (fmtInt item.ResolvedDisputeCount) true
      let embed := embed.addField "Cancelled" (fmtInt item.CancelledDisputeCount) true
      let embed := embed.addField "Judged" (fmtInt item.JudgedDisputeCount) true
      followupEmbed w embed

/-! ## `internal/workers`: the interaction router -/

/-- Index expression `parts[n]`, which stops the program when `n` is out of
range. -/
def indexPart (parts : List String) (n : Nat) : Except String String :=
  match parts.get? n with
  | some part => .ok part
  | none => .error "index out of range"

/-- Token carried by a button identifier. -/
structure InteractionToken where
  kind : String
  action : String
  id : String
  ownerId : String
  deriving DecidableEq

/-- Decoding of a button identifier in `handleComponentInteraction`: absent
when the identifier has fewer than four parts, else `parts[0]`, `parts[1]` and
the target and owner taken from the four-part or the longer format. -/
def decodeCustomID (cid : String) : Except String (Option InteractionToken) :=
  let parts := strings_Split_colon cid
  if parts.length < 4 then .ok none
  else
    match indexPart parts 0 with
    | .error e => .error e
    | .ok kind =>
      match indexPart parts 1 with
      | .error e => .error e
      | .ok action =>
        if parts.length = 4 then
          match indexPart parts 2 with
          | .error e => .error e
          | .ok id =>
            match indexPart parts 3 with
            | .error e => .error e
            | .ok ownerId => .ok (some { kind := kind, action := action, id := id, ownerId := ownerId })
        else if parts.length ≥ 5 then
          match indexPart parts 3 with
          | .error e => .error e
          | .ok id =>
            match indexPart parts 4 with
            | .error e => .error e
            | .ok ownerId => .ok (some { kind := kind, action := action, id := id, ownerId := ownerId })
        else .ok (some { kind := kind, action := action, id := "", ownerId := "" })

/-- Follow-up `s.FollowupMessageCreate(i.Interaction, true, &discordgo.WebhookParams{Content, Flags})`. -/
def followupContent (content : String) (flags : Nat) : Effect :=
  .FollowupMessageCreate { Content := content, Flags := flags, Embeds := [], Components := [] }

/-- Dispatch of an authorised button click to its command handler. -/
def dispatchComponent (w : World) (i : InteractionCreate) (kind action id : String) : List Effect :=
  if kind = "lic" then
    if action = "terms" then handleLicenseTerms w i id
    else if action = "infr" then handleLicenseInfringement w i id
    else if action = "mod" then handleLicenseModeration w i id
    else if action = "mint" then handleLicenseMint w i id
    else if action = "coll" then handleLicenseCollection w i id
    else [followupContent (getText w "unknown_action") 0]
  else if kind = "col" then
    if action = "disputes" then handleCollectionDisputes w i id
    else if action = "show" then handleCollection w i id
    else [followupContent (getText w "unknown_action") 0]
  else [followupContent (getText w "unknown_component") 0]

/-- Calls made by `handleComponentInteraction` to acknowledge the click: the
deferred acknowledgement and, when it fails, the warning and the fallback
ephemeral response. -/
def acknowledgeComponent (w : World) : List Effect :=
  match respondDeferred w.routerAck with
  | (acks, some err) =>
    acks ++ [.Log "warning" ("failed to defer component interaction: " ++ err ++
      "; attempting fallback ACK"), .InteractionRespond .ChannelMessageWithSource "" 64]
  | (acks, none) => acks

/-- Edit made by `handleComponentInteraction` to disable the buttons of the
clicked message. -/
def disableClicked (i : InteractionCreate) : List Effect :=
  match i.Message with
  | some msg =>
    if msg.Components.length > 0 then
      [.ChannelMessageEditComplex msg.ID msg.ChannelID (disableComponentsCopy msg.Components)]
    else []
  | none => []

/-- Function `handleComponentInteraction`: the calls made in program order, or
the run-time error that stops it. -/
def handleComponentInteraction (w : World) (i : InteractionCreate) : Except String (List Effect) :=
  let acks := acknowledgeComponent w
  match decodeCustomID i.CustomID with
  | .error e => .error e
  | .ok none =>
    .ok (acks ++ [followupContent (getTextWithCtx w (some i) "invalid_component") 0])
  | .ok (some tok) =>
    let edit := disableClicked i
    let clicker := interactionUserID i
    if tok.ownerId ≠ "" ∧ clicker ≠ tok.ownerId then
      .ok (acks ++ edit ++ [followupContent (getTextWithCtx w (some i) "unauth_button") 64])
    else
      .ok (acks ++ edit ++ dispatchComponent w i tok.kind tok.action tok.id)

/-- Dispatch of a slash command to its handler (the `switch name` of the event
handler). -/
def dispatchCommand (w : World) (i : InteractionCreate) (name param : String) : List Effect :=
  if name = "license" then handleLicense w i param
  else if name = "license_terms" then handleLicenseTerms w i param
  else if name = "license_infringement" then handleLicenseInfringement w i param
  else if name = "license_moderation" then handleLicenseModeration w i param
  else if name = "license_mint" then handleLicenseMint w i param
  else if name = "license_collection" then handleLicenseCollection w i param
  else if name = "collection" then handleCollection w i param
  else if name = "collection_disputes" then handleCollectionDisputes w i param
  else [.InteractionRespond .ChannelMessageWithSource (getTextWithCtx w (some i) "unknown_command") 0]

/-- Event handler registered by `GoDiscordBot`.  The parameter is read with
`data.Options[0].StringValue()` before the `switch` on the name, so a first
option that is not a string panics (the error) whatever the name is. -/
def onInteractionCreate (w : World) (i : InteractionCreate) : Except String (List Effect) :=
  match i.Kind with
  | .ApplicationCommand =>
    match i.CommandOptions with
    | [] =>
      .ok [.InteractionRespond .ChannelMessageWithSource (getTextWithCtx w (some i) "missing_param") 0]
    | option :: _ =>
      match option.StringValue with
      | .error err => .error err
      | .ok param => .ok (dispatchCommand w i i.CommandName param)
  | .MessageComponent => handleComponentInteraction w i
  | .Other => .ok []

/-! ## `internal/workers`: command registration -/

/-- Record `discordgo.ApplicationCommandOption`; `Kind` is the field `Type`
(3 is `discordgo.ApplicationCommandOptionString`). -/
structure ApplicationCommandOption where
  Kind : Nat
  Name : String
  Description : String
  Required : Bool
  deriving DecidableEq

/-- Record `discordgo.ApplicationCommand`. -/
structure ApplicationCommand where
  ID : String
  Name : String
  Description : String
  Options : List ApplicationCommandOption
  deriving DecidableEq

/-- Command literal of `createCommands`: a name, a description and one
required string option. -/
def commandWithOption (name description optName optDescription : String) : ApplicationCommand :=
  { ID := "", Name := name, Description := description,
    Options := [{ Kind := 3, Name := optName, Description := optDescription, Required := true }] }

/-- The list `cmds` of `createCommands`. -/
def cmds : List ApplicationCommand := [
  commandWithOption "license" "Check license by IP ID" "ip_id" "Intellectual Property ID",
  commandWithOption "license_terms" "Show license terms" "ip_id" "IP ID",
  commandWithOption "license_infringement" "Show infringement status" "ip_id" "IP ID",
  commandWithOption "license_moderation" "Show moderation safety" "ip_id" "IP ID",
  commandWithOption "license_mint" "Show mint info" "ip_id" "IP ID",
  commandWithOption "license_collection" "Show collection/contract info for license" "ip_id" "IP ID",
  commandWithOption "collection" "Get collection info by contract address" "address"
    "Contract address",
  commandWithOption "collection_disputes" "Get collection disputes counters" "address"
    "Contract address"]

/-- Calls `createCommands` makes on the session, and its log lines. -/
inductive RegistryCall
  | ApplicationCommandCreate (appID guildID : String) (cmd : ApplicationCommand)
  | ApplicationCommands (appID guildID : String)
  | ApplicationCommandDelete (appID guildID cmdID : String)
  | Log (level : String) (text : String)
  deriving DecidableEq

/-- The platform's answers to `createCommands`: the error (absent on success)
of each registration, the commands that exist, and the error of each deletion. -/
structure Registry where
  createErr : ApplicationCommand → Option String
  existing : Except String (List ApplicationCommand)
  deleteErr : String → Option String

/-- Registration loop of `createCommands` over the remaining commands. -/
def registerLoop (appID : String) (r : Registry) : List ApplicationCommand → List RegistryCall
  | [] => []
  | cmd :: rest =>
    match r.createErr cmd with
    | some err =>
      .ApplicationCommandCreate appID "" cmd ::
        .Log "error" ("Cannot create command " ++ cmd.Name ++ ": " ++ err) ::
        registerLoop appID r rest
    | none => .ApplicationCommandCreate appID "" cmd :: registerLoop appID r rest

/-- Cleanup loop of `createCommands` over the remaining existing commands. -/
def cleanupLoop (appID : String) (r : Registry) (desired : List String) :
    List ApplicationCommand → List RegistryCall
  | [] => []
  | ec :: rest =>
    if ec.Name ∈ desired then cleanupLoop appID r desired rest
    else
      match r.deleteErr ec.ID with
      | some derr =>
        .ApplicationCommandDelete appID "" ec.ID ::
          .Log "warning" ("Failed to delete legacy command " ++ ec.Name ++ ": " ++ derr) ::
          cleanupLoop appID r desired rest
      | none =>
        .ApplicationCommandDelete appID "" ec.ID ::
          .Log "info" ("Deleted legacy global command: " ++ ec.Name) ::
          cleanupLoop appID r desired rest

/-- Function `createCommands`; `appID` is `dg.State.User.ID`. -/
def createCommands (appID : String) (r : Registry) : List RegistryCall :=
  let desired := cmds.map fun c => c.Name
  registerLoop appID r cmds ++
    .ApplicationCommands appID "" ::
      match r.existing with
      | .error err => [.Log "warning" ("Failed to list application commands for cleanup: " ++ err)]
      | .ok existing => cleanupLoop appID r desired existing

/-- Commands registered in a run of `createCommands`, in order. -/
def registeredCommands : List RegistryCall → List ApplicationCommand
  | [] => []
  | .ApplicationCommandCreate _ _ cmd :: rest => cmd :: registeredCommands rest
  | _ :: rest => registeredCommands rest

/-! ## Observations on traces -/

/-- Whether a call is a call of the API client. -/
def Effect.isClientCall : Effect → Bool
  | .ClientCall _ _ => true
  | _ => false

/-- Whether a call edits a message (the edit that disables buttons). -/
def Effect.isMessageEdit : Effect → Bool
  | .ChannelMessageEditComplex _ _ _ => true
  | _ => false

/-- Whether a call is a follow-up message (a reply to the user). -/
def Effect.isFollowup : Effect → Bool
  | .FollowupMessageCreate _ => true
  | _ => false

/-- The slash command equivalent to a button token, as the interface lists
them: `lic` with `terms`, `infr`, `mod`, `mint`, `coll`, and `col` with
`disputes`, `show`. -/
def equivalentCommand (kind action : String) : Option String :=
  if kind = "lic" then
    if action = "terms" then some "license_terms"
    else if action = "infr" then some "license_infringement"
    else if action = "mod" then some "license_moderation"
    else if action = "mint" then some "license_mint"
    else if action = "coll" then some "license_collection"
    else none
  else if kind = "col" then
    if action = "disputes" then some "collection_disputes"
    else if action = "show" then some "collection"
    else none
  else none

/-- The eight command names of the command surface. -/
def commandNames : List String :=
  ["license", "license_terms", "license_infringement", "license_moderation", "license_mint",
   "license_collection", "collection", "collection_disputes"]

/-- Whether a call starts the cleanup goroutine of a message. -/
def Effect.isCleanup : Effect → Bool
  | .GoCleanup _ _ _ _ => true
  | _ => false

/-- Delay in seconds of a call that starts the cleanup goroutine. -/
def Effect.cleanupDelay : Effect → Option Int
  | .GoCleanup delaySeconds _ _ _ => some delaySeconds
  | _ => none

/-- Whether a component is a button that carries an identifier (a clickable
button, as opposed to a link button). -/
def MessageComponent.isCustomButton : MessageComponent → Bool
  | .Button b => b.CustomID ≠ ""
  | _ => false

/-- Whether a call sends a follow-up with a clickable button in one of its
rows. -/
def Effect.sendsCustomButton : Effect → Bool
  | .FollowupMessageCreate params =>
    params.Components.any fun c =>
      match c with
      | .ActionsRow row => row.any MessageComponent.isCustomButton
      | _ => false
  | _ => false

/-- The animation URL of media metadata, empty when there is no animation
record. -/
def NFTMetadata.animationUrl (md : NFTMetadata) : String :=
  match md.Animation with
  | some a => a.OriginalUrl
  | none => ""

/-- The image URL of media metadata, empty when there is no image record. -/
def NFTMetadata.imageUrl (md : NFTMetadata) : String :=
  match md.Image with
  | some im => im.OriginalUrl
  | none => ""

/-! ## Concrete inputs -/

/-- Remote API that answers every request with an empty result set. -/
def emptyRemote : Remote :=
  { send := fun _ _ _ => .ok { StatusCode := 200, Body := "" }
    unmarshalAPIError := fun _ => .error "unexpected end of JSON input"
    unmarshalAssets := fun _ => .ok []
    unmarshalCollections := fun _ => .ok [] }

/-- Configuration with the English locale. -/
def sampleConfig : Config :=
  { LogLevel := .InfoLevel, LOCALE := "en", DB_DRIVER := "sqlite3", DB_NAME := "data.db",
    DB_USER := "", DB_PASSWORD := "", BOT_TOKEN := "token", STORY_API_KEY := "key",
    STORY_API_BASE_URL := "https://api.example", STORY_BUTTON_TIMEOUT_SEC := 300 }

/-- Environment that sets every required variable and also a variable named
`STORY_BUTTON_TIMEOUT_SEC`. -/
def sampleEnv (name : String) : String :=
  if name = "LOCALE" then "en"
  else if name = "DB_DRIVER" then "sqlite3"
  else if name = "DB_NAME" then "data.db"
  else if name = "BOT_TOKEN" then "token"
  else if name = "STORY_API_KEY" then "key"
  else if name = "STORY_API_BASE_URL" then "https://api.example"
  else if name = "STORY_BUTTON_TIMEOUT_SEC" then "60"
  else ""

/-- Locale table with an English locale holding three texts and an empty
French locale. -/
def sampleLocales : Locales := fun locale =>
  if locale = "en" then
    some fun key =>
      if key = "unauth_button" then some "This button is not for you."
      else if key = "invalid_component" then some "Invalid component."
      else if key = "no_terms" then some "No terms found."
      else none
  else if locale = "fr" then some fun _ => none
  else none

/-- World in which every platform call succeeds and the API finds nothing. -/
def sampleWorld : World :=
  { locales := sampleLocales
    config := sampleConfig
    client := NewClient sampleConfig emptyRemote
    routerAck := none
    handlerAck := some "HTTP 400 Bad Request, Interaction has already been acknowledged."
    followup := .ok { ID := "m2", ChannelID := "c1", Components := [] } }

/-- Button click by the user `uid` on the button with identifier `cid`, on a
message without components. -/
def clickBy (uid cid : String) : InteractionCreate :=
  { Kind := .MessageComponent, CommandName := "", CommandOptions := [],
    Locale := "en-US", LocaleText := "English (United States)",
    GuildLocale := none,
    Member := some { User := some { ID := uid } }, User := none,
    Message := some { ID := "m1", ChannelID := "c1", Components := [] },
    CustomID := cid }

/-- Remote API that answers every asset request with the given assets. -/
def remoteWithAssets (assets : List IPAsset) : Remote :=
  { send := fun _ _ _ => .ok { StatusCode := 200, Body := "" }
    unmarshalAPIError := fun _ => .error "unexpected end of JSON input"
    unmarshalAssets := fun _ => .ok assets
    unmarshalCollections := fun _ => .ok [] }

/-- World of a slash command: every platform call succeeds and the API
returns the given assets. -/
def commandWorld (assets : List IPAsset) : World :=
  { locales := sampleLocales
    config := sampleConfig
    client := NewClient sampleConfig (remoteWithAssets assets)
    routerAck := none
    handlerAck := none
    followup := .ok { ID := "m2", ChannelID := "c1", Components := [] } }

/-- Slash command issued by a user. -/
def commandBy (uid name param : String) : InteractionCreate :=
  { Kind := .ApplicationCommand, CommandName := name, CommandOptions := [.string param],
    Locale := "en-US", LocaleText := "English (United States)",
    GuildLocale := none,
    Member := some { User := some { ID := uid } }, User := none,
    Message := none, CustomID := "" }

/-- Asset with the given infringement records and nothing else. -/
def assetWithChecks (checks : List InfringementStatus) : IPAsset :=
  { IPIDs := [], IpId := "0xabc", Title := "", Description := "", OwnerAddress := "",
    CreatedAt := none, UpdatedAt := none, NFTMetadata := none, LicenseTemplate := none,
    Licenses := [], Infringement := checks, Moderation := none, Mint := none,
    Contract := none, Collection := none, TokenContract := "", TokenId := "" }

/-- Infringement record with a status and a flag. -/
def check (status : String) (isInfringing : Bool) : InfringementStatus :=
  { Status := status, IsInfringing := isInfringing, ProviderName := "", ProviderURL := "",
    InfringementDetails := "", ResponseTime := none, CreatedAt := none, UpdatedAt := none }

/-- Remote API that answers every request with the given status and body;
`parsed` is what `json.Unmarshal` makes of the body as an `APIError`. -/
def remoteWithResponse (status : Int) (body : String) (parsed : Except String APIError) : Remote :=
  { send := fun _ _ _ => .ok { StatusCode := status, Body := body }
    unmarshalAPIError := fun _ => parsed
    unmarshalAssets := fun _ => .error "json: cannot unmarshal"
    unmarshalCollections := fun _ => .error "json: cannot unmarshal" }

/-- Remote API that cannot be reached. -/
def unreachableRemote : Remote :=
  { send := fun _ _ _ => .error "dial tcp: connection refused"
    unmarshalAPIError := fun _ => .error "unexpected end of JSON input"
    unmarshalAssets := fun _ => .ok []
    unmarshalCollections := fun _ => .ok [] }

/-- World of a slash command against the given remote API; every platform
call succeeds. -/
def worldWithRemote (remote : Remote) : World :=
  { locales := sampleLocales
    config := sampleConfig
    client := NewClient sampleConfig remote
    routerAck := none
    handlerAck := none
    followup := .ok { ID := "m2", ChannelID := "c1", Components := [] } }

/-- Request body of `GetAssetByID` for an id. -/
def assetRequest (ipID : String) : RequestBody :=
  { orderBy := "blockNumber", orderDirection := "desc", offset := 0,
    includeLicenses := some true, whereKey := "ipIds", whereValues := [ipID] }

/-- Body `{"status":500}`: a structured error without title and detail. -/
def statusOnlyBody : String := "\x7b\"status\":500\x7d"

/-- Body of the HTTP 400 answer to a malformed id. -/
def invalidIDBody : String :=
  "\x7b\"status\":400,\"title\":\"Bad Request\",\"detail\":\"invalid ip asset id format\"\x7d"

/-- Remote API that answers HTTP 400 with the structured invalid-id error. -/
def invalidIDRemote : Remote :=
  remoteWithResponse 400 invalidIDBody
    (.ok { Status := 400, Title := "Bad Request", Detail := "invalid ip asset id format", Raw := "" })

/-- Button click by the user `uid` on the button with identifier `cid`, on a
message with the given components. -/
def clickOn (uid cid : String) (components : List MessageComponent) : InteractionCreate :=
  { Kind := .MessageComponent, CommandName := "", CommandOptions := [],
    Locale := "en-US", LocaleText := "English (United States)",
    GuildLocale := none,
    Member := some { User := some { ID := uid } }, User := none,
    Message := some { ID := "m1", ChannelID := "c1", Components := components },
    CustomID := cid }

/-- Component list of a message: a row with a button and a component of another
kind, and a top-level component that is not a row. -/
def sampleComponents : List MessageComponent :=
  [.ActionsRow [actionButton "Terms" 1 "lic:terms:abc123:user42", .Other "select"],
   .Other "text"]

/-- Embed with `n` fields named by their index, and a footer already set. -/
def embedWithFields (n : Nat) : MessageEmbed :=
  { Title := "t", Description := "d", Color := 1, Footer := some "old footer",
    Fields := (List.range n).map fun k => { Name := Nat.repr k, Value := "v", Inline := false } }

/-- License terms with the three attribution flags given. -/
def termsWith (attributionRequired derivativesAttribution commercialAttribution : Bool) :
    LicenseTerms :=
  { Transferable := true, CommercialUse := true, DerivativesAllowed := false,
    DerivativesApproval := false, CommercialRevShare := 20000000,
    AttributionRequired := attributionRequired,
    DerivativesAttribution := derivativesAttribution,
    CommercialAttribution := commercialAttribution }

/-- License wrapper with a template id and optional terms. -/
def wrapperWith (templateId : String) (terms : Option LicenseTerms) : LicenseTermsWrapper :=
  { TemplateName := "pil", TemplateMetadataUri := "", LicenseTemplateId := templateId,
    Terms := terms }

/-- Asset with the given primary license template and license list. -/
def assetWithLicenses (template : Option LicenseTermsWrapper)
    (licenses : List LicenseTermsWrapper) : IPAsset :=
  { IPIDs := [], IpId := "0xabc", Title := "", Description := "", OwnerAddress := "",
    CreatedAt := none, UpdatedAt := none, NFTMetadata := none, LicenseTemplate := template,
    Licenses := licenses, Infringement := [], Moderation := none, Mint := none,
    Contract := none, Collection := none, TokenContract := "", TokenId := "" }

/-- Registry in which every call succeeds and one legacy command exists next
to `license`. -/
def sampleRegistry : Registry :=
  { createErr := fun _ => none
    existing := .ok [{ ID := "c1", Name := "license", Description := "", Options := [] },
                     { ID := "c9", Name := "legacy", Description := "", Options := [] }]
    deleteErr := fun _ => none }

/-- Collection record with a name and a symbol. -/
def sampleCollection : CollectionItem :=
  { CollectionMetadata :=
      { Address := "0xc0ffee", Name := "Coffee", Symbol := "COF", TotalSupply := none,
        TokenType := "ERC721", CreatedAt := none, UpdatedAt := none, BannerImageUrl := "",
        Slug := "", ExternalUrl := "", Description := "", TwitterUsername := "",
        DiscordUrl := "" }
    CancelledDisputeCount := 0, ResolvedDisputeCount := 0, RaisedDisputeCount := 0,
    JudgedDisputeCount := 0 }

/-- Remote API that answers every collection request with the sample
collection and every asset request with the given assets. -/
def remoteWithCollection (assets : List IPAsset) : Remote :=
  { send := fun _ _ _ => .ok { StatusCode := 200, Body := "" }
    unmarshalAPIError := fun _ => .error "unexpected end of JSON input"
    unmarshalAssets := fun _ => .ok assets
    unmarshalCollections := fun _ => .ok [sampleCollection] }

/-- Asset whose contract has the given address, and nothing else. -/
def assetWithContract (address : String) : IPAsset :=
  { IPIDs := [], IpId := "0xabc", Title := "", Description := "", OwnerAddress := "",
    CreatedAt := none, UpdatedAt := none, NFTMetadata := none, LicenseTemplate := none,
    Licenses := [], Infringement := [], Moderation := none, Mint := none,
    Contract := some { Name := "Coffee", Symbol := "COF", Address := address, TotalSupply := none },
    Collection := none, TokenContract := "", TokenId := "" }

/-- Media metadata with a declared type and the two media URLs (absent when
empty) and the two metadata-level URLs. -/
def metadataWith (mediaType imageUrl animationUrl originalURL externalURL : String) : NFTMetadata :=
  { MediaType := mediaType,
    Image := if imageUrl = "" then none else some { OriginalUrl := imageUrl },
    Animation := if animationUrl = "" then none else some { OriginalUrl := animationUrl },
    Contract := none, Collection := none, OriginalURL := originalURL, ExternalURL := externalURL,
    Mint := none, TimeLastUpdated := none }

/-- Whether a component is a value of the struct type `discordgo.ActionsRow`,
the one kind of row on which the first type assertion of
`disableComponentsCopy` succeeds. -/
def MessageComponent.isStructRow : MessageComponent → Bool
  | .ActionsRow _ => true
  | _ => false

/-- Component list of a message as it arrives with a click: a pointer-typed
row holding one pointer-typed button, enabled, of the user `user42`. -/
def receivedComponents : List MessageComponent :=
  [.ActionsRowPtr [.ButtonPtr { Label := "Terms", Style := 1, Disabled := false, URL := "",
                                CustomID := "lic:terms:abc123:user42" }]]

/-- Slash command issued by a user with the given options. -/
def commandWithOptions (uid name : String) (options : List OptionValue) : InteractionCreate :=
  { Kind := .ApplicationCommand, CommandName := name, CommandOptions := options,
    Locale := "en-US", LocaleText := "English (United States)",
    GuildLocale := none,
    Member := some { User := some { ID := uid } }, User := none,
    Message := none, CustomID := "" }

/-- Asset with the given media metadata and nothing else. -/
def assetWithMedia (md : NFTMetadata) : IPAsset :=
  { IPIDs := [], IpId := "0xabc", Title := "", Description := "", OwnerAddress := "",
    CreatedAt := none, UpdatedAt := none, NFTMetadata := some md, LicenseTemplate := none,
    Licenses := [], Infringement := [], Moderation := none, Mint := none,
    Contract := none, Collection := none, TokenContract := "", TokenId := "" }

/-! ## Splitting and decoding identifiers -/

theorem splitChars_ne_nil (sep : Char) (cs : List Char) : splitChars sep cs ≠ [] := by
  induction cs with
  | nil => simp [splitChars]
  | cons c cs ih =>
    unfold splitChars
    split
    · simp
    · split <;> simp

theorem splitChars_of_not_mem (sep : Char) (cs : List Char) (h : sep ∉ cs) :
    splitChars sep cs = [cs] := by
  induction cs with
  | nil => rfl
  | cons c cs ih =>
    have hc : c ≠ sep := fun e => h (by simp [e])
    have hcs : sep ∉ cs := fun m => h (List.mem_cons_of_mem _ m)
    simp [splitChars, hc, ih hcs]

theorem splitChars_append_sep (sep : Char) (a rest : List Char) (h : sep ∉ a) :
    splitChars sep (a ++ sep :: rest) = a :: splitChars sep rest := by
  induction a with
  | nil => simp [splitChars]
  | cons c cs ih =>
    have hc : c ≠ sep := fun e => h (by simp [e])
    have hcs : sep ∉ cs := fun m => h (List.mem_cons_of_mem _ m)
    simp [splitChars, hc, ih hcs]

theorem split_customID (kind action id uid : String)
    (hk : ':' ∉ kind.data) (ha : ':' ∉ action.data) (hi : ':' ∉ id.data) (hu : ':' ∉ uid.data) :
    strings_Split_colon (customID kind action id uid) = [kind, action, id, uid] := by
  have hdata : (customID kind action id uid).data =
      kind.data ++ ':' :: (action.data ++ ':' :: (id.data ++ ':' :: uid.data)) := by
    simp [customID, String.data_append]
  unfold strings_Split_colon
  rw [hdata, splitChars_append_sep _ _ _ hk, splitChars_append_sep _ _ _ ha,
    splitChars_append_sep _ _ _ hi, splitChars_of_not_mem _ _ hu]
  rfl

theorem decodeCustomID_of_lt (cid : String) (h : (strings_Split_colon cid).length < 4) :
    decodeCustomID cid = .ok none := by
  simp [decodeCustomID, h]

theorem decodeCustomID_of_ge (cid : String) (h : 4 ≤ (strings_Split_colon cid).length) :
    ∃ tok, decodeCustomID cid = .ok (some tok) := by
  unfold decodeCustomID
  generalize strings_Split_colon cid = parts at h
  match parts, h with
  | [p0, p1, p2, p3], _ => exact ⟨⟨p0, p1, p2, p3⟩, by simp [indexPart]⟩
  | p0 :: p1 :: p2 :: p3 :: p4 :: rest, _ =>
    refine ⟨⟨p0, p1, p3, p4⟩, ?_⟩
    have h1 : ¬ (rest.length + 1 + 1 + 1 + 1 + 1 < 4) := by omega
    simp [indexPart, h1]

/-! ## Traces of the router -/

theorem acknowledgeComponent_cases (w : World) :
    acknowledgeComponent w = [.InteractionRespond .DeferredChannelMessageWithSource "" 0] ∨
    ∃ err, acknowledgeComponent w =
      [.InteractionRespond .DeferredChannelMessageWithSource "" 0,
       .Log "warning" ("failed to defer component interaction: " ++ err ++
         "; attempting fallback ACK"),
       .InteractionRespond .ChannelMessageWithSource "" 64] := by
  unfold acknowledgeComponent respondDeferred
  cases hack : w.routerAck with
  | none => left; rfl
  | some err =>
    by_cases hc : (strings_Contains err "already been acknowledged" ||
        strings_Contains err "40060") = true
    · left; simp [hc]
    · right; exact ⟨err, by simp [hc]⟩

theorem acknowledgeComponent_quiet (w : World) :
    ∀ e ∈ acknowledgeComponent w, e.isClientCall = false ∧ e.isMessageEdit = false := by
  intro e he
  rcases acknowledgeComponent_cases w with h | ⟨err, h⟩
  · rw [h] at he
    simp at he
    subst he
    exact ⟨rfl, rfl⟩
  · rw [h] at he
    simp at he
    rcases he with he | he | he <;> subst he <;> exact ⟨rfl, rfl⟩

/-! ## C1: clicks by a user who is not the owner -/

/-- C1 (as amended): when the identifier of a button click decodes to a token
(it has at least four parts) whose owning-user id is non-empty and differs from
the clicking user's id, `handleComponentInteraction` acknowledges, disables the
buttons of the clicked message and sends the ephemeral `unauth_button`
follow-up, and nothing else: no handler runs and no call in the trace is a call
of the API client. -/
theorem unauthorized_click_stops (w : World) (i : InteractionCreate) (tok : InteractionToken)
    (hdec : decodeCustomID i.CustomID = .ok (some tok))
    (howner : tok.ownerId ≠ "")
    (hclick : interactionUserID i ≠ tok.ownerId) :
    handleComponentInteraction w i =
      .ok (acknowledgeComponent w ++ disableClicked i ++
        [followupContent (getTextWithCtx w (some i) "unauth_button") 64]) ∧
    ∀ e ∈ acknowledgeComponent w ++ disableClicked i ++
        [followupContent (getTextWithCtx w (some i) "unauth_button") 64],
      e.isClientCall = false := by
  constructor
  · simp [handleComponentInteraction, hdec, howner, hclick]
  · intro e he
    simp only [List.mem_append, List.mem_singleton] at he
    rcases he with (he | he) | he
    · exact (acknowledgeComponent_quiet w e he).1
    · unfold disableClicked at he
      split at he
      · split at he
        · simp at he
          subst he
          rfl
        · simp at he
      · simp at he
    · subst he
      rfl

theorem unauthorized_click_stops_witness :
    decodeCustomID (clickBy "user7" "lic:terms:abc123:user42").CustomID =
      .ok (some ⟨"lic", "terms", "abc123", "user42"⟩) ∧
    "user42" ≠ "" ∧
    interactionUserID (clickBy "user7" "lic:terms:abc123:user42") ≠ "user42" ∧
    handleComponentInteraction sampleWorld (clickBy "user7" "lic:terms:abc123:user42") =
      .ok [.InteractionRespond .DeferredChannelMessageWithSource "" 0,
           followupContent "This button is not for you." 64] :=
  ⟨rfl, by decide, by decide,
   (unauthorized_click_stops sampleWorld (clickBy "user7" "lic:terms:abc123:user42")
    ⟨"lic", "terms", "abc123", "user42"⟩ rfl (by decide) (by decide)).1⟩

/-- C1 as stated fails when the decoded owner is empty: the identifier
`lic:terms:abc:` has four parts, the clicking user `u1` differs from the
decoded owner (the empty string), and the click is dispatched to
`handleLicenseTerms`, which calls the API client. -/
theorem ownerless_click_reaches_handler :
    (strings_Split_colon (clickBy "u1" "lic:terms:abc:").CustomID).length = 4 ∧
    decodeCustomID (clickBy "u1" "lic:terms:abc:").CustomID =
      .ok (some ⟨"lic", "terms", "abc", ""⟩) ∧
    interactionUserID (clickBy "u1" "lic:terms:abc:") = "u1" ∧
    handleComponentInteraction sampleWorld (clickBy "u1" "lic:terms:abc:") =
      .ok [.InteractionRespond .DeferredChannelMessageWithSource "" 0,
           .InteractionRespond .DeferredChannelMessageWithSource "" 0,
           .ClientCall "GetAssetTerms" "abc",
           .FollowupMessageCreate
             { Content := "", Flags := 0,
               Embeds := [{ Title := "title_terms", Description := "No terms found.",
                            Color := 0xFFFF00, Footer := some footerText, Fields := [] }],
               Components := [] }] := by
  refine ⟨by decide, rfl, rfl, rfl⟩

/-! ## C2: identifiers with fewer than four parts -/

/-- C2: for every identifier that splits on `:` into fewer than four parts,
`handleComponentInteraction` returns normally (no index is out of range) after
the acknowledgement and the `invalid_component` follow-up only: no call in the
trace edits a message (buttons are not disabled) and none is a call of the API
client (no handler runs). -/
theorem short_identifier_is_invalid_component (w : World) (i : InteractionCreate)
    (h : (strings_Split_colon i.CustomID).length < 4) :
    handleComponentInteraction w i =
      .ok (acknowledgeComponent w ++
        [followupContent (getTextWithCtx w (some i) "invalid_component") 0]) ∧
    ∀ e ∈ acknowledgeComponent w ++
        [followupContent (getTextWithCtx w (some i) "invalid_component") 0],
      e.isClientCall = false ∧ e.isMessageEdit = false := by
  constructor
  · simp [handleComponentInteraction, decodeCustomID_of_lt _ h]
  · intro e he
    simp only [List.mem_append, List.mem_singleton] at he
    rcases he with he | he
    · exact acknowledgeComponent_quiet w e he
    · subst he
      exact ⟨rfl, rfl⟩

theorem short_identifier_is_invalid_component_witness :
    (strings_Split_colon (clickBy "u1" "").CustomID).length < 4 ∧
    handleComponentInteraction sampleWorld (clickBy "u1" "") =
      .ok [.InteractionRespond .DeferredChannelMessageWithSource "" 0,
           followupContent "Invalid component." 0] :=
  ⟨by decide, (short_identifier_is_invalid_component sampleWorld (clickBy "u1" "") (by decide)).1⟩

/-! ## C3: round trip of the button identifier -/

/-- C3: for every namespace, action, target id and owning-user id without a
`:`, the identifier `<namespace>:<action>:<target-id>:<owning-user-id>` splits
on `:` into exactly these four parts and `handleComponentInteraction` decodes
it to the same namespace, action, target and owner. -/
theorem customID_round_trip (kind action id uid : String)
    (hk : ':' ∉ kind.data) (ha : ':' ∉ action.data) (hi : ':' ∉ id.data) (hu : ':' ∉ uid.data) :
    strings_Split_colon (customID kind action id uid) = [kind, action, id, uid] ∧
    decodeCustomID (customID kind action id uid) =
      .ok (some { kind := kind, action := action, id := id, ownerId := uid }) := by
  have hs := split_customID kind action id uid hk ha hi hu
  refine ⟨hs, ?_⟩
  simp [decodeCustomID, hs, indexPart]

theorem customID_round_trip_witness :
    customID "lic" "terms" "abc123" "user42" = "lic:terms:abc123:user42" ∧
    strings_Split_colon "lic:terms:abc123:user42" = ["lic", "terms", "abc123", "user42"] ∧
    decodeCustomID "lic:terms:abc123:user42" =
      .ok (some { kind := "lic", action := "terms", id := "abc123", ownerId := "user42" }) :=
  ⟨by decide, customID_round_trip "lic" "terms" "abc123" "user42"
    (by decide) (by decide) (by decide) (by decide)⟩

/-! ## Substring test -/

theorem hasPrefixChars_iff (p s : List Char) : hasPrefixChars p s = true ↔ p <+: s := by
  induction p generalizing s with
  | nil => simp [hasPrefixChars]
  | cons a p ih =>
    cases s with
    | nil => simp [hasPrefixChars]
    | cons c cs => simp [hasPrefixChars, ih]

theorem containsChars_iff (sub s : List Char) : containsChars sub s = true ↔ sub <:+: s := by
  induction s with
  | nil =>
    simp only [containsChars, hasPrefixChars_iff, List.prefix_nil, List.infix_nil]
  | cons c cs ih =>
    simp only [containsChars, Bool.or_eq_true, hasPrefixChars_iff, ih, List.infix_cons_iff]

theorem strings_Contains_iff (s substr : String) :
    strings_Contains s substr = true ↔ substr.data <:+: s.data := by
  simp [strings_Contains, containsChars_iff]

theorem strings_Contains_trans (s mid sub : String)
    (h1 : strings_Contains mid sub = true) (h2 : strings_Contains s mid = true) :
    strings_Contains s sub = true := by
  rw [strings_Contains_iff] at *
  exact h1.trans h2

theorem strings_Contains_ToUpper (s sub : String) (hsub : strings_ToUpper sub = sub)
    (h : strings_Contains s sub = true) : strings_Contains (strings_ToUpper s) sub = true := by
  rw [strings_Contains_iff] at *
  have := List.IsInfix.map upperChar h
  rw [← hsub]
  simpa [strings_ToUpper] using this

/-! ## C4, C5: the moderation verdict -/

theorem evaluateModerationLoop_unsafe (vs : List String) (anyPossible : Bool)
    (h : ∃ v ∈ vs, strings_Contains (strings_ToUpper v) "LIKELY" = true) :
    evaluateModerationLoop vs anyPossible = "Unsafe" := by
  induction vs generalizing anyPossible with
  | nil => simp at h
  | cons v rest ih =>
    unfold evaluateModerationLoop
    by_cases hv : strings_Contains (strings_ToUpper v) "LIKELY" = true
    · simp [hv]
    · have hrest : ∃ u ∈ rest, strings_Contains (strings_ToUpper u) "LIKELY" = true := by
        obtain ⟨u, hu, hc⟩ := h
        rcases List.mem_cons.1 hu with e | hu
        · exact absurd (e ▸ hc) hv
        · exact ⟨u, hu, hc⟩
      simp only [ih _ hrest]
      split_ifs <;> rfl

theorem evaluateModerationLoop_no_likely (vs : List String) (anyPossible : Bool)
    (h : ∀ v ∈ vs, strings_Contains (strings_ToUpper v) "LIKELY" = false) :
    evaluateModerationLoop vs anyPossible =
      if anyPossible || vs.any (fun v => strings_Contains (strings_ToUpper v) "POSSIBLE" ||
          strings_Contains (strings_ToUpper v) "POSSIBLY") then "Review" else "Safe" := by
  induction vs generalizing anyPossible with
  | nil => simp [evaluateModerationLoop]
  | cons v rest ih =>
    have hv : strings_Contains (strings_ToUpper v) "LIKELY" = false := h v (by simp)
    have hvv : strings_Contains (strings_ToUpper v) "VERY_LIKELY" = false := by
      by_contra hc
      have hc : strings_Contains (strings_ToUpper v) "VERY_LIKELY" = true := by simpa using hc
      have := strings_Contains_trans _ "VERY_LIKELY" "LIKELY" (by decide) hc
      simp [hv] at this
    have hrest : ∀ u ∈ rest, strings_Contains (strings_ToUpper u) "LIKELY" = false :=
      fun u hu => h u (List.mem_cons_of_mem _ hu)
    unfold evaluateModerationLoop
    simp only [hv, hvv, Bool.or_self, Bool.false_eq_true, if_false]
    by_cases hp : (strings_Contains (strings_ToUpper v) "POSSIBLE" ||
        strings_Contains (strings_ToUpper v) "POSSIBLY") = true
    · simp only [hp, if_true, ih true hrest, List.any_cons]
      simp
    · simp only [hp, if_false, ih anyPossible hrest, List.any_cons]
      simp only [Bool.not_eq_true] at hp
      simp [hp]

/-- C4: when at least one of the five categories is `VERY_LIKELY`,
`evaluateModeration` returns `Unsafe`, whatever the other categories are. -/
theorem very_likely_is_unsafe (m : ModerationStatus)
    (h : m.Adult = "VERY_LIKELY" ∨ m.Spoof = "VERY_LIKELY" ∨ m.Medical = "VERY_LIKELY" ∨
      m.Violence = "VERY_LIKELY" ∨ m.Racy = "VERY_LIKELY") :
    evaluateModeration m = "Unsafe" := by
  apply evaluateModerationLoop_unsafe
  refine ⟨"VERY_LIKELY", ?_, by decide⟩
  rcases h with h | h | h | h | h <;> simp [h]

theorem very_likely_is_unsafe_witness :
    evaluateModeration
      { Adult := "POSSIBLE", Spoof := "VERY_UNLIKELY", Medical := "VERY_LIKELY",
        Violence := "POSSIBLE", Racy := "" } = "Unsafe" :=
  very_likely_is_unsafe _ (Or.inr (Or.inr (Or.inl rfl)))

/-- C5 (as amended): when no category contains `LIKELY` after upper-casing and
at least one category contains `POSSIBLE`, `evaluateModeration` returns
`Review`. -/
theorem possible_without_likely_is_review (m : ModerationStatus)
    (hno : ∀ v ∈ [m.Adult, m.Spoof, m.Medical, m.Violence, m.Racy],
      strings_Contains (strings_ToUpper v) "LIKELY" = false)
    (hsome : ∃ v ∈ [m.Adult, m.Spoof, m.Medical, m.Violence, m.Racy],
      strings_Contains v "POSSIBLE" = true) :
    evaluateModeration m = "Review" := by
  unfold evaluateModeration
  rw [evaluateModerationLoop_no_likely _ _ hno]
  obtain ⟨v, hv, hc⟩ := hsome
  have hup := strings_Contains_ToUpper v "POSSIBLE" (by decide) hc
  have : ([m.Adult, m.Spoof, m.Medical, m.Violence, m.Racy].any
      (fun v => strings_Contains (strings_ToUpper v) "POSSIBLE" ||
        strings_Contains (strings_ToUpper v) "POSSIBLY")) = true :=
    List.any_eq_true.2 ⟨v, hv, by simp [hup]⟩
  simp only [this, Bool.or_true, if_true]

theorem possible_without_likely_is_review_witness :
    evaluateModeration
      { Adult := "POSSIBLE", Spoof := "unknown", Medical := "", Violence := "POSSIBLE",
        Racy := "" } = "Review" :=
  possible_without_likely_is_review _ (by decide) ⟨"POSSIBLE", by simp, by decide⟩

/-- Case mapping follows Unicode where it reaches an ASCII letter: the dotless
i and the long s upper-case to `I` and `S`, the dotted capital I and the Kelvin
sign lower-case to `i` and `k`, and the verdict and the content type follow. -/
theorem case_mapping_reaches_ascii :
    strings_ToUpper "l\u0131kely" = "LIKELY" ∧
    strings_ToUpper "po\u017f\u017fible" = "POSSIBLE" ∧
    strings_ToLower "\u0130MAGE" = "image" ∧
    strings_ToLower "LI\u212aE" = "like" ∧
    evaluateModeration
      { Adult := "l\u0131kely", Spoof := "POSSIBLE", Medical := "", Violence := "",
        Racy := "" } = "Unsafe" ∧
    evaluateModeration
      { Adult := "po\u017f\u017fible", Spoof := "", Medical := "", Violence := "",
        Racy := "" } = "Review" ∧
    licenseContentType (metadataWith "\u0130MAGE" "https://img" "https://anim" "" "") =
      "Image" := by
  decide

/-- C5 as stated fails: no category of this score set contains `LIKELY` (one
is the lower-case `likely`), one category is `POSSIBLE`, and the verdict is
`Unsafe`, because categories are upper-cased before the test. -/
theorem lower_case_likely_is_unsafe :
    (∀ v ∈ ["likely", "POSSIBLE", "", "", ""], strings_Contains v "LIKELY" = false) ∧
    (∃ v ∈ ["likely", "POSSIBLE", "", "", ""], strings_Contains v "POSSIBLE" = true) ∧
    evaluateModeration
      { Adult := "likely", Spoof := "POSSIBLE", Medical := "", Violence := "", Racy := "" } =
      "Unsafe" := by
  refine ⟨by decide, ⟨"POSSIBLE", by simp, by decide⟩, by decide⟩

/-! ## C6, C7: the infringement verdict -/

theorem infringementLoop_eq (arr : List InfringementStatus) (status : String) (color : Nat) :
    infringementLoop arr status color =
      if arr.any (fun it => it.IsInfringing) then ("‚ùå Infringing", 0xFF0000)
      else if arr.any (fun it => decide (strings_ToLower it.Status ≠ "succeeded")) then
        ("‚ö†Ô∏è Potential issue", 0xFFAA00)
      else (status, color) := by
  induction arr generalizing status color with
  | nil => simp [infringementLoop]
  | cons it rest ih =>
    unfold infringementLoop
    by_cases h1 : it.IsInfringing = true
    · simp [h1]
    · by_cases h2 : strings_ToLower it.Status = "succeeded"
      · simp [h1, h2, ih]
      · simp [h1, h2, ih]

theorem handleLicenseInfringement_view (w : World) (i : InteractionCreate) (ipId : String)
    (arr : List InfringementStatus)
    (hack : (respondDeferred w.handlerAck).2 = none)
    (harr : w.client.GetAssetInfringement ipId = .ok arr) (hne : arr ≠ []) :
    ∃ embed : MessageEmbed,
      handleLicenseInfringement w i ipId =
        [.InteractionRespond .DeferredChannelMessageWithSource "" 0,
         .ClientCall "GetAssetInfringement" ipId] ++ followupEmbed w embed ∧
      embed.Description = (infringementVerdict arr).1 ∧
      embed.Color = (infringementVerdict arr).2 := by
  have hfst : respondDeferred w.handlerAck =
      ([.InteractionRespond .DeferredChannelMessageWithSource "" 0], none) := by
    unfold respondDeferred at hack ⊢
    split at hack <;> (try split at hack) <;> simp_all
  cases arr with
  | nil => exact absurd rfl hne
  | cons latest more =>
    unfold handleLicenseInfringement
    simp only [hfst, harr]
    refine ⟨_, rfl, ?_, ?_⟩
    · split_ifs <;> split <;> rfl
    · split_ifs <;> split <;> rfl

/-- C6 (as amended): for every non-empty infringement list in which no record
is infringing and every status is `succeeded` ignoring letter case, the embed
sent by `handleLicenseInfringement` carries the verdict `Not infringing` (in
green). -/
theorem all_succeeded_is_not_infringing (w : World) (i : InteractionCreate) (ipId : String)
    (arr : List InfringementStatus)
    (hack : (respondDeferred w.handlerAck).2 = none)
    (harr : w.client.GetAssetInfringement ipId = .ok arr) (hne : arr ≠ [])
    (hflag : ∀ it ∈ arr, it.IsInfringing = false)
    (hstatus : ∀ it ∈ arr, strings_ToLower it.Status = "succeeded") :
    ∃ embed : MessageEmbed,
      handleLicenseInfringement w i ipId =
        [.InteractionRespond .DeferredChannelMessageWithSource "" 0,
         .ClientCall "GetAssetInfringement" ipId] ++ followupEmbed w embed ∧
      embed.Description = "‚úÖ Not infringing" ∧ embed.Color = 0x00FF00 := by
  obtain ⟨embed, htrace, hdesc, hcolor⟩ := handleLicenseInfringement_view w i ipId arr hack harr hne
  have h1 : arr.any (fun it => it.IsInfringing) = false := by
    rw [List.any_eq_false]
    intro it hit
    simp [hflag it hit]
  have h2 : arr.any (fun it => decide (strings_ToLower it.Status ≠ "succeeded")) = false := by
    rw [List.any_eq_false]
    intro it hit
    simp [hstatus it hit]
  have hv : infringementVerdict arr = ("‚úÖ Not infringing", 0x00FF00) := by
    unfold infringementVerdict
    rw [infringementLoop_eq, h1, h2]
    rfl
  exact ⟨embed, htrace, by rw [hdesc, hv], by rw [hcolor, hv]⟩

theorem all_succeeded_is_not_infringing_witness :
    ∃ embed : MessageEmbed,
      handleLicenseInfringement
          (commandWorld [assetWithChecks [check "succeeded" false, check "SUCCEEDED" false]])
          (commandBy "u1" "license_infringement" "0xabc") "0xabc" =
        [.InteractionRespond .DeferredChannelMessageWithSource "" 0,
         .ClientCall "GetAssetInfringement" "0xabc"] ++
          followupEmbed
            (commandWorld [assetWithChecks [check "succeeded" false, check "SUCCEEDED" false]])
            embed ∧
      embed.Description = "‚úÖ Not infringing" ∧ embed.Color = 0x00FF00 :=
  all_succeeded_is_not_infringing _ _ _ [check "succeeded" false, check "SUCCEEDED" false]
    rfl rfl (by simp) (by decide) (by decide)

/-- C6 as stated fails on the empty list: no record is infringing and every
status is `succeeded` (there is none), yet `handleLicenseInfringement` sends the
yellow `no_checks` embed, which carries no verdict. -/
theorem empty_list_has_no_verdict :
    (commandWorld [assetWithChecks []]).client.GetAssetInfringement "0xabc" = .ok [] ∧
    handleLicenseInfringement (commandWorld [assetWithChecks []])
        (commandBy "u1" "license_infringement" "0xabc") "0xabc" =
      [.InteractionRespond .DeferredChannelMessageWithSource "" 0,
       .ClientCall "GetAssetInfringement" "0xabc",
       .FollowupMessageCreate
         { Content := "", Flags := 0,
           Embeds := [{ Title := "Infringement Status", Description := "no_checks",
                        Color := 0xFFFF00, Footer := some footerText, Fields := [] }],
           Components := [] }] :=
  ⟨rfl, rfl⟩

/-- C7: for every non-empty infringement list, the verdict in the embed sent
by `handleLicenseInfringement` is `Infringing` exactly when some record of the
list is infringing; `Potential issue` exactly when none is infringing and some
record has a lower-cased status other than `succeeded`; and `Not infringing`
exactly when none is infringing and every lower-cased status is `succeeded`. -/
theorem infringement_verdict_of_whole_list (w : World) (i : InteractionCreate) (ipId : String)
    (arr : List InfringementStatus)
    (hack : (respondDeferred w.handlerAck).2 = none)
    (harr : w.client.GetAssetInfringement ipId = .ok arr) (hne : arr ≠ []) :
    ∃ embed : MessageEmbed,
      handleLicenseInfringement w i ipId =
        [.InteractionRespond .DeferredChannelMessageWithSource "" 0,
         .ClientCall "GetAssetInfringement" ipId] ++ followupEmbed w embed ∧
      (embed.Description = "‚ùå Infringing" ↔ ∃ it ∈ arr, it.IsInfringing = true) ∧
      (embed.Description = "‚ö†Ô∏è Potential issue" ↔
        (∀ it ∈ arr, it.IsInfringing = false) ∧
          ∃ it ∈ arr, strings_ToLower it.Status ≠ "succeeded") ∧
      (embed.Description = "‚úÖ Not infringing" ↔
        (∀ it ∈ arr, it.IsInfringing = false) ∧
          ∀ it ∈ arr, strings_ToLower it.Status = "succeeded") := by
  obtain ⟨embed, htrace, hdesc, -⟩ := handleLicenseInfringement_view w i ipId arr hack harr hne
  refine ⟨embed, htrace, ?_⟩
  rw [hdesc]
  unfold infringementVerdict
  rw [infringementLoop_eq]
  by_cases h1 : arr.any (fun it => it.IsInfringing) = true
  · have hex : ∃ it ∈ arr, it.IsInfringing = true := by simpa using h1
    have hnall : ¬ ∀ it ∈ arr, it.IsInfringing = false := by
      obtain ⟨it, hit, hb⟩ := hex
      intro hall
      simp [hall it hit] at hb
    simp only [h1, if_true]
    refine ⟨⟨fun _ => hex, fun _ => trivial⟩, ⟨fun h => absurd h (by decide), fun h => absurd h.1 hnall⟩,
      ⟨fun h => absurd h (by decide), fun h => absurd h.1 hnall⟩⟩
  · have hall : ∀ it ∈ arr, it.IsInfringing = false := by simpa using h1
    have hnex : ¬ ∃ it ∈ arr, it.IsInfringing = true := by
      rintro ⟨it, hit, hb⟩
      simp [hall it hit] at hb
    simp only [h1, Bool.false_eq_true, if_false]
    by_cases h2 : arr.any (fun it => decide (strings_ToLower it.Status ≠ "succeeded")) = true
    · have hex2 : ∃ it ∈ arr, strings_ToLower it.Status ≠ "succeeded" := by simpa using h2
      have hnall2 : ¬ ∀ it ∈ arr, strings_ToLower it.Status = "succeeded" := by
        obtain ⟨it, hit, hb⟩ := hex2
        exact fun hall2 => hb (hall2 it hit)
      simp only [h2, if_true]
      refine ⟨⟨fun h => absurd h (by decide), fun h => absurd h hnex⟩,
        ⟨fun _ => ⟨hall, hex2⟩, fun _ => trivial⟩,
        ⟨fun h => absurd h (by decide), fun h => absurd h.2 hnall2⟩⟩
    · have hall2 : ∀ it ∈ arr, strings_ToLower it.Status = "succeeded" := by simpa using h2
      have hnex2 : ¬ ∃ it ∈ arr, strings_ToLower it.Status ≠ "succeeded" := by
        rintro ⟨it, hit, hb⟩
        exact hb (hall2 it hit)
      simp only [h2, Bool.false_eq_true, if_false]
      refine ⟨⟨fun h => absurd h (by decide), fun h => absurd h hnex⟩,
        ⟨fun h => absurd h (by decide), fun h => absurd h.2 hnex2⟩,
        ⟨fun _ => ⟨hall, hall2⟩, fun _ => trivial⟩⟩

theorem infringement_verdict_of_whole_list_witness :
    ∃ embed : MessageEmbed,
      handleLicenseInfringement
          (commandWorld [assetWithChecks [check "failed" false, check "succeeded" true]])
          (commandBy "u1" "license_infringement" "0xabc") "0xabc" =
        [.InteractionRespond .DeferredChannelMessageWithSource "" 0,
         .ClientCall "GetAssetInfringement" "0xabc"] ++
          followupEmbed
            (commandWorld [assetWithChecks [check "failed" false, check "succeeded" true]])
            embed ∧
      embed.Description = "‚ùå Infringing" := by
  obtain ⟨embed, htrace, hinf, -, -⟩ := infringement_verdict_of_whole_list
    (commandWorld [assetWithChecks [check "failed" false, check "succeeded" true]])
    (commandBy "u1" "license_infringement" "0xabc") "0xabc"
    [check "failed" false, check "succeeded" true] rfl rfl (by simp)
  exact ⟨embed, htrace, hinf.2 ⟨check "succeeded" true, by simp, rfl⟩⟩

/-! ## Binary64 rounding -/

theorem bitLenAux_le (fuel n j : Nat) (h : n < 2 ^ j) : bitLenAux fuel n ≤ j := by
  induction fuel generalizing n j with
  | zero => simp [bitLenAux]
  | succ fuel ih =>
    unfold bitLenAux
    split_ifs with h0
    · exact Nat.zero_le _
    · cases j with
      | zero => simp at h; exact absurd h h0
      | succ j =>
        have : n / 2 < 2 ^ j := by
          rw [Nat.div_lt_iff_lt_mul (by decide)]
          rw [pow_succ] at h
          exact h
        exact Nat.succ_le_succ (ih _ _ this)

theorem bitLen_million : bitLen 1000000 = 20 := by decide

theorem binaryExponent_le (a b : Nat) : binaryExponent a b ≤ (bitLen a : Int) - bitLen b := by
  unfold binaryExponent
  simp only
  split_ifs <;> omega

theorem roundNearestEven_bounds (p q : Nat) (hq : 0 < q) :
    2 * (roundNearestEven p q * q) ≤ 2 * p + q ∧ 2 * p ≤ 2 * (roundNearestEven p q * q) + q := by
  have hdm : q * (p / q) + p % q = p := Nat.div_add_mod p q
  have hlt : p % q < q := Nat.mod_lt _ hq
  have hmul : (p / q + 1) * q = q * (p / q) + q := by ring
  have hmul0 : p / q * q = q * (p / q) := by ring
  unfold roundNearestEven
  simp only
  split_ifs <;> simp only [hmul, hmul0] <;> omega

theorem roundNearestEven_of_dvd (p q : Nat) (hq : 0 < q) (h : q ∣ p) :
    roundNearestEven p q = p / q := by
  have : p % q = 0 := Nat.mod_eq_zero_of_dvd h
  simp [roundNearestEven, this, hq]

theorem padZeros_two (k : Nat) (h : k < 100) : padZeros 2 (Nat.repr k) = twoDigits k := by
  revert k
  decide

theorem percent_quotient (N : Nat) (hN : N < 2 ^ 40) :
    ∃ s, 19 ≤ s ∧
      (F64.ofNat N).divNat 1000000 = { num := roundNearestEven (N * 2 ^ s) 1000000, k := s } := by
  have h53 : N < 2 ^ 53 := lt_of_lt_of_le hN (by norm_num)
  have hof : F64.ofNat N = { num := N, k := 0 } := by
    unfold F64.ofNat
    rw [if_pos h53]
  have hla : bitLen N ≤ 40 := bitLenAux_le _ _ _ hN
  have he : binaryExponent N 1000000 ≤ 20 := by
    have := binaryExponent_le N 1000000
    rw [bitLen_million] at this
    omega
  refine ⟨(52 - binaryExponent N 1000000).toNat, by omega, ?_⟩
  have he52 : binaryExponent N 1000000 ≤ 52 := by omega
  simp [hof, F64.divNat, round53, he52]

theorem isWhole_iff (x : F64) : x.isWhole = true ↔ x.num % 2 ^ x.k = 0 := by
  simp [F64.isWhole]

theorem percent_of_multiple (N c : Nat) (hN : N < 2 ^ 40) (hc : N = 1000000 * c) :
    ((F64.ofNat N).divNat 1000000).isWhole = true ∧
    fmtFixed 0 ((F64.ofNat N).divNat 1000000) = Nat.repr c := by
  obtain ⟨s, -, hs⟩ := percent_quotient N hN
  have hdvd : 1000000 ∣ N * 2 ^ s := ⟨c * 2 ^ s, by rw [hc]; ring⟩
  have hq : N * 2 ^ s / 1000000 = c * 2 ^ s := by
    rw [hc, Nat.mul_assoc, Nat.mul_div_cancel_left _ (by norm_num)]
  have hpos : 0 < 2 ^ s := Nat.pow_pos (by norm_num)
  rw [hs, roundNearestEven_of_dvd _ _ (by norm_num) hdvd, hq]
  constructor
  · simp [F64.isWhole]
  · simp only [fmtFixed, pow_zero, Nat.mul_one, Nat.div_one, if_true]
    rw [roundNearestEven_of_dvd _ _ hpos ⟨c, by ring⟩, Nat.mul_div_cancel _ hpos]

theorem whole_quotient_exact (N K j : Nat) (hK : 524288 ≤ K)
    (h1 : 2 * (K * j * 1000000) ≤ 2 * (N * K) + 1000000)
    (h2 : 2 * (N * K) ≤ 2 * (K * j * 1000000) + 1000000) : j * 1000000 = N := by
  rcases Nat.lt_trichotomy (j * 1000000) N with h | h | h
  · exfalso
    have h3 : (j * 1000000 + 1) * K ≤ N * K := Nat.mul_le_mul_right K h
    nlinarith
  · exact h
  · exfalso
    have h3 : (N + 1) * K ≤ j * 1000000 * K := Nat.mul_le_mul_right K h
    nlinarith

theorem hundredths_near (N K m r : Nat) (hK : 524288 ≤ K)
    (hm1 : 2 * (m * 1000000) ≤ 2 * (N * K) + 1000000)
    (hm2 : 2 * (N * K) ≤ 2 * (m * 1000000) + 1000000)
    (hr1 : 2 * (r * K) ≤ 2 * (m * 10 ^ 2) + K)
    (hr2 : 2 * (m * 10 ^ 2) ≤ 2 * (r * K) + K) :
    r * 10000 ≤ N + 5000 ∧ N ≤ r * 10000 + 5000 := by
  constructor
  · by_contra hcon
    have h3 : (N + 5000 + 1) * K ≤ r * 10000 * K := Nat.mul_le_mul_right K (not_le.1 hcon)
    nlinarith
  · by_contra hcon
    have h3 : (r * 10000 + 5000 + 1) * K ≤ N * K := Nat.mul_le_mul_right K (not_le.1 hcon)
    nlinarith

theorem percent_of_non_multiple (N : Nat) (hN : N < 2 ^ 40) (hc : ¬ 1000000 ∣ N) :
    ((F64.ofNat N).divNat 1000000).isWhole = false ∧
    ∃ r : Nat,
      fmtFixed 2 ((F64.ofNat N).divNat 1000000) = Nat.repr (r / 100) ++ "." ++ twoDigits (r % 100) ∧
      r * 10000 ≤ N + 5000 ∧ N ≤ r * 10000 + 5000 := by
  obtain ⟨s, hs19, hs⟩ := percent_quotient N hN
  have hK : 524288 ≤ 2 ^ s := by
    calc 524288 = 2 ^ 19 := by norm_num
      _ ≤ 2 ^ s := Nat.pow_le_pow_right (by norm_num) hs19
  have hpos : 0 < 2 ^ s := by omega
  obtain ⟨hm1, hm2⟩ := roundNearestEven_bounds (N * 2 ^ s) 1000000 (by norm_num)
  rw [hs]
  generalize roundNearestEven (N * 2 ^ s) 1000000 = m at hm1 hm2
  obtain ⟨hr1, hr2⟩ := roundNearestEven_bounds (m * 10 ^ 2) (2 ^ s) hpos
  constructor
  · rw [Bool.eq_false_iff]
    intro hw
    rw [isWhole_iff] at hw
    obtain ⟨j, hj⟩ := Nat.dvd_of_mod_eq_zero hw
    have hj2 : m = 2 ^ s * j := hj
    subst hj2
    exact hc ⟨j, by rw [← whole_quotient_exact N (2 ^ s) j hK hm1 hm2]; ring⟩
  · refine ⟨roundNearestEven (m * 10 ^ 2) (2 ^ s), ?_, hundredths_near N (2 ^ s) m _ hK hm1 hm2 hr1 hr2⟩
    have h100 : (10 : Nat) ^ 2 = 100 := by norm_num
    simp only [fmtFixed, h100]
    rw [if_neg (by norm_num), padZeros_two _ (Nat.mod_lt _ (by norm_num))]

theorem fmtInt_natCast (k : Nat) : fmtInt (k : Int) = Nat.repr k := rfl

/-! ## C8, C9: the revenue-share percentage -/

/-- C8: for every integer `n ≤ 0`, `formatRevSharePercent n` is exactly `0%`. -/
theorem formatRevSharePercent_of_nonpos (n : Int) (h : n ≤ 0) : formatRevSharePercent n = "0%" := by
  simp [formatRevSharePercent, h]

theorem formatRevSharePercent_of_nonpos_witness :
    formatRevSharePercent 0 = "0%" ∧ formatRevSharePercent (-20000000) = "0%" :=
  ⟨formatRevSharePercent_of_nonpos 0 (by decide),
   formatRevSharePercent_of_nonpos (-20000000) (by decide)⟩

/-- C9: for every integer `n` with `0 < n ≤ 10 ^ 12`: when `n` is a multiple
of `1000000`, `formatRevSharePercent n` is the decimal numeral of
`n / 1000000` followed by `%`, without a decimal point; otherwise it is
`<whole>.<two digits>%` for a number `r` of hundredths nearest to
`n / 1000000`, that is, with `|n / 1000000 - r / 100| ≤ 1 / 200`. -/
theorem formatRevSharePercent_of_pos (n : Int) (hpos : 0 < n) (hle : n ≤ 10 ^ 12) :
    ((1000000 : Int) ∣ n → formatRevSharePercent n = fmtInt (n / 1000000) ++ "%") ∧
    (¬ (1000000 : Int) ∣ n →
      ∃ r : Nat,
        formatRevSharePercent n = Nat.repr (r / 100) ++ "." ++ twoDigits (r % 100) ++ "%" ∧
        (r : Int) * 10000 ≤ n + 5000 ∧ n ≤ (r : Int) * 10000 + 5000) := by
  obtain ⟨N, rfl⟩ := Int.eq_ofNat_of_zero_le (le_of_lt hpos)
  have hN : N < 2 ^ 40 := by
    have : (N : Int) ≤ 10 ^ 12 := hle
    have h2 : N ≤ 10 ^ 12 := by exact_mod_cast this
    exact lt_of_le_of_lt h2 (by norm_num)
  have hform : formatRevSharePercent (N : Int) =
      if ((F64.ofNat N).divNat 1000000).isWhole then fmtFixed 0 ((F64.ofNat N).divNat 1000000) ++ "%"
      else fmtFixed 2 ((F64.ofNat N).divNat 1000000) ++ "%" := by
    unfold formatRevSharePercent
    rw [if_neg (not_le.2 hpos)]
    rfl
  have hdvd : (1000000 : Int) ∣ (N : Int) ↔ 1000000 ∣ N := by
    exact_mod_cast (Int.natCast_dvd_natCast (m := 1000000) (n := N))
  constructor
  · intro h
    obtain ⟨c, hc⟩ := hdvd.1 h
    obtain ⟨hw, hfmt⟩ := percent_of_multiple N c hN hc
    have hq : ((N : Int) / 1000000) = ((N / 1000000 : Nat) : Int) := by norm_cast
    rw [hform, hw, if_pos rfl, hfmt, hq, fmtInt_natCast, hc,
      Nat.mul_div_cancel_left _ (by norm_num)]
  · intro h
    obtain ⟨hw, r, hfmt, h1, h2⟩ := percent_of_non_multiple N hN (fun hd => h (hdvd.2 hd))
    refine ⟨r, ?_, by exact_mod_cast h1, by exact_mod_cast h2⟩
    rw [hform, hw, hfmt]
    rfl

theorem formatRevSharePercent_of_pos_witness :
    formatRevSharePercent 20000000 = "20%" ∧
    ∃ r : Nat, formatRevSharePercent 12345678 = Nat.repr (r / 100) ++ "." ++ twoDigits (r % 100) ++ "%" ∧
      (r : Int) * 10000 ≤ 12345678 + 5000 ∧ (12345678 : Int) ≤ (r : Int) * 10000 + 5000 :=
  ⟨(formatRevSharePercent_of_pos 20000000 (by decide) (by decide)).1 (by decide),
   (formatRevSharePercent_of_pos 12345678 (by decide) (by decide)).2 (by decide)⟩

theorem formatRevSharePercent_examples :
    formatRevSharePercent 12345678 = "12.35%" ∧ formatRevSharePercent 1015000 = "1.01%" ∧
    formatRevSharePercent 1005000 = "1.00%" := by
  decide

/-! ## C10: text lookup -/

/-- C10: for every locale table, locale code and key, `T` returns the text of
the key in the requested locale when the code is non-empty and that locale
exists and has the key; when the code is empty, or the locale is unknown, or it
lacks the key, `T` returns the text of the key in the `en` locale when `en` has
it, and the key itself otherwise. -/
theorem T_fallback_chain (locales : Locales) (locale key : String) :
    (∀ m v, locale ≠ "" → locales locale = some m → m key = some v →
      T locales locale key = v) ∧
    ((locale = "" ∨ locales locale = none ∨ ∃ m, locales locale = some m ∧ m key = none) →
      (∀ en v, locales "en" = some en → en key = some v → T locales locale key = v) ∧
      ((locales "en" = none ∨ ∃ en, locales "en" = some en ∧ en key = none) →
        T locales locale key = key)) := by
  constructor
  · intro m v hne hm hv
    simp [T, hne, hm, hv]
  · intro hlack
    have hT : T locales locale key =
        match locales "en" with
        | some m =>
          match m key with
          | some v => v
          | none => key
        | none => key := by
      rcases hlack with h | h | ⟨m, hm, hk⟩
      · simp [T, h]
      · by_cases hne : locale = ""
        · simp [T, hne]
        · simp [T, hne, h]
      · by_cases hne : locale = ""
        · simp [T, hne]
        · simp [T, hne, hm, hk]
    rw [hT]
    constructor
    · intro en v hen hv
      simp [hen, hv]
    · rintro (h | ⟨en, hen, hv⟩)
      · simp [h]
      · simp [hen, hv]

theorem T_fallback_chain_witness :
    T sampleLocales "fr" "nonexistent_key" = "nonexistent_key" ∧
    T sampleLocales "fr" "no_terms" = "No terms found." ∧
    T sampleLocales "" "no_terms" = "No terms found." ∧
    T sampleLocales "de" "no_terms" = "No terms found." :=
  ⟨((T_fallback_chain sampleLocales "fr" "nonexistent_key").2
      (Or.inr (Or.inr ⟨fun _ => none, rfl, rfl⟩))).2 (Or.inr ⟨_, rfl, rfl⟩),
   ((T_fallback_chain sampleLocales "fr" "no_terms").2
      (Or.inr (Or.inr ⟨fun _ => none, rfl, rfl⟩))).1 _ _ rfl rfl,
   ((T_fallback_chain sampleLocales "" "no_terms").2 (Or.inl rfl)).1 _ _ rfl rfl,
   ((T_fallback_chain sampleLocales "de" "no_terms").2 (Or.inr (Or.inl rfl))).1 _ _ rfl rfl⟩

/-! ## C11: not found and errors of the derived lookups -/

/-- C11: when `GetAssetByID` returns no asset and no error, each of
`GetAssetTerms`, `GetAssetInfringement`, `GetAssetModeration`, `GetAssetMint`
and `GetAssetCollection` returns no value and no error; and when
`GetAssetByID` returns an error, each of them returns that same error. -/
theorem derived_lookups_follow_fetch (c : Client) (ipID : String) :
    (c.GetAssetByID ipID = .ok none →
      c.GetAssetTerms ipID = .ok none ∧ c.GetAssetInfringement ipID = .ok [] ∧
      c.GetAssetModeration ipID = .ok none ∧ c.GetAssetMint ipID = .ok none ∧
      c.GetAssetCollection ipID = .ok none) ∧
    (∀ err, c.GetAssetByID ipID = .error err →
      c.GetAssetTerms ipID = .error err ∧ c.GetAssetInfringement ipID = .error err ∧
      c.GetAssetModeration ipID = .error err ∧ c.GetAssetMint ipID = .error err ∧
      c.GetAssetCollection ipID = .error err) := by
  constructor
  · intro h
    simp [Client.GetAssetTerms, Client.GetAssetInfringement, Client.GetAssetModeration,
      Client.GetAssetMint, Client.GetAssetCollection, h]
  · intro err h
    simp [Client.GetAssetTerms, Client.GetAssetInfringement, Client.GetAssetModeration,
      Client.GetAssetMint, Client.GetAssetCollection, h]

theorem derived_lookups_follow_fetch_witness :
    (NewClient sampleConfig emptyRemote).GetAssetByID "0xabc" = .ok none ∧
    (NewClient sampleConfig emptyRemote).GetAssetTerms "0xabc" = .ok none ∧
    (NewClient sampleConfig emptyRemote).GetAssetMint "0xabc" = .ok none ∧
    (NewClient sampleConfig unreachableRemote).GetAssetByID "0xabc" =
      .error (.other "dial tcp: connection refused") ∧
    (NewClient sampleConfig unreachableRemote).GetAssetTerms "0xabc" =
      .error (.other "dial tcp: connection refused") :=
  ⟨rfl,
   ((derived_lookups_follow_fetch (NewClient sampleConfig emptyRemote) "0xabc").1 rfl).1,
   ((derived_lookups_follow_fetch (NewClient sampleConfig emptyRemote) "0xabc").1 rfl).2.2.2.1,
   rfl,
   ((derived_lookups_follow_fetch (NewClient sampleConfig unreachableRemote) "0xabc").2 _ rfl).1⟩

/-! ## C12: classification of HTTP responses by `doPost` -/

/-- C12 (as amended): for every HTTP response received by `doPost`: outside
`[200,300)` the call returns an error that does not depend on the decoder of
the output record: the `APIError` with the parsed status, title and detail and
the raw body when the body parses into the structured form with a non-zero
status (title and detail may be empty), and otherwise the error whose text
carries the HTTP status and the body; within `[200,300)` the result is the
decoded body, or the decoding error. -/
theorem doPost_classifies {α : Type} (c : Client) (path : String) (body : RequestBody)
    (unmarshal : String → Except String α) (resp : HttpResponse)
    (hsend : c.remote.send (c.baseURL ++ path) c.apiKey body = .ok resp) :
    ((resp.StatusCode < 200 ∨ 300 ≤ resp.StatusCode) →
      (∀ se, c.remote.unmarshalAPIError resp.Body = .ok se → se.Status ≠ 0 →
        c.doPost path body unmarshal =
          .error (.api { Status := se.Status, Title := se.Title, Detail := se.Detail,
                         Raw := resp.Body })) ∧
      (∀ se, c.remote.unmarshalAPIError resp.Body = .ok se → se.Status = 0 →
        c.doPost path body unmarshal =
          .error (.other ("story api error: status=" ++ fmtInt resp.StatusCode ++ " body=" ++
            resp.Body))) ∧
      (∀ e, c.remote.unmarshalAPIError resp.Body = .error e →
        c.doPost path body unmarshal =
          .error (.other ("story api error: status=" ++ fmtInt resp.StatusCode ++ " body=" ++
            resp.Body)))) ∧
    ((200 ≤ resp.StatusCode ∧ resp.StatusCode < 300) →
      (∀ out, unmarshal resp.Body = .ok out → c.doPost path body unmarshal = .ok out) ∧
      (∀ e, unmarshal resp.Body = .error e → c.doPost path body unmarshal = .error (.other e))) := by
  constructor
  · intro hout
    have hcond : resp.StatusCode < 200 ∨ resp.StatusCode ≥ 300 := hout
    refine ⟨?_, ?_, ?_⟩
    · intro se hse hne
      simp [Client.doPost, hsend, hcond, hse, hne]
    · intro se hse h0
      simp [Client.doPost, hsend, hcond, hse, h0]
    · intro e he
      simp [Client.doPost, hsend, hcond, he]
  · intro hin
    have hcond : ¬ (resp.StatusCode < 200 ∨ resp.StatusCode ≥ 300) := by omega
    constructor
    · intro out hok
      simp [Client.doPost, hsend, hcond, hok]
    · intro e he
      simp [Client.doPost, hsend, hcond, he]

theorem doPost_classifies_witness :
    (NewClient sampleConfig invalidIDRemote).doPost "/assets" (assetRequest "xyz")
        invalidIDRemote.unmarshalAssets =
      .error (.api { Status := 400, Title := "Bad Request",
                     Detail := "invalid ip asset id format", Raw := invalidIDBody }) :=
  ((doPost_classifies (NewClient sampleConfig invalidIDRemote) "/assets" (assetRequest "xyz")
    invalidIDRemote.unmarshalAssets { StatusCode := 400, Body := invalidIDBody } rfl).1
      (Or.inr (by decide))).1 _ rfl (by decide)

/-- C12 as stated fails for a structured body without title and detail: the
answer HTTP 500 with body `{"status":500}` parses into the structured form with
status 500 and empty title and detail, and `doPost` returns the `APIError`, not
the error carrying the raw status and body. -/
theorem status_only_body_is_api_error :
    (NewClient sampleConfig
        (remoteWithResponse 500 statusOnlyBody
          (.ok { Status := 500, Title := "", Detail := "", Raw := "" }))).doPost "/assets"
        (assetRequest "0xabc") (fun _ => Except.ok ([] : List IPAsset)) =
      .error (.api { Status := 500, Title := "", Detail := "", Raw := statusOnlyBody }) ∧
    GoError.Error (.api { Status := 500, Title := "", Detail := "", Raw := statusOnlyBody }) =
      "story api error: status=500" :=
  ⟨rfl, by decide⟩

/-! ## C13: rendering of client errors by the asset handlers -/

theorem respondDeferred_of_no_error (ack : Option String) (h : (respondDeferred ack).2 = none) :
    respondDeferred ack = ([.InteractionRespond .DeferredChannelMessageWithSource "" 0], none) := by
  unfold respondDeferred at h ⊢
  split at h <;> (try split at h) <;> simp_all

theorem asset_handlers_classify_errors (w : World) (i : InteractionCreate) (ipId : String)
    (err : GoError) (hack : (respondDeferred w.handlerAck).2 = none) :
    (w.client.GetAssetByID ipId = .error err →
      handleLicense w i ipId =
        [.InteractionRespond .DeferredChannelMessageWithSource "" 0,
         .ClientCall "GetAssetByID" ipId] ++
        followupEmbed w (if isInvalidIPIDError err
          then newEmbed "" (getTextWithCtx w (some i) "invalid_ip_id") 0xFFFF00
          else newEmbed "Error" err.Error 0xFF0000)) ∧
    (w.client.GetAssetTerms ipId = .error err →
      handleLicenseTerms w i ipId =
        [.InteractionRespond .DeferredChannelMessageWithSource "" 0,
         .ClientCall "GetAssetTerms" ipId] ++
        followupEmbed w (if isInvalidIPIDError err
          then newEmbed "" (getText w "invalid_ip_id") 0xFFFF00
          else newEmbed "Error" err.Error 0xFF0000)) ∧
    (w.client.GetAssetInfringement ipId = .error err →
      handleLicenseInfringement w i ipId =
        [.InteractionRespond .DeferredChannelMessageWithSource "" 0,
         .ClientCall "GetAssetInfringement" ipId] ++
        followupEmbed w (if isInvalidIPIDError err
          then newEmbed "" (getTextWithCtx w (some i) "invalid_ip_id") 0xFFFF00
          else newEmbed "Error" err.Error 0xFF0000)) ∧
    (w.client.GetAssetModeration ipId = .error err →
      handleLicenseModeration w i ipId =
        [.InteractionRespond .DeferredChannelMessageWithSource "" 0,
         .ClientCall "GetAssetModeration" ipId] ++
        followupEmbed w (if isInvalidIPIDError err
          then newEmbed "" (getTextWithCtx w (some i) "invalid_ip_id") 0xFFFF00
          else newEmbed "Error" err.Error 0xFF0000)) ∧
    (w.client.GetAssetMint ipId = .error err →
      handleLicenseMint w i ipId =
        [.InteractionRespond .DeferredChannelMessageWithSource "" 0,
         .ClientCall "GetAssetMint" ipId] ++
        followupEmbed w (if isInvalidIPIDError err
          then newEmbed "" (getTextWithCtx w (some i) "invalid_ip_id") 0xFFFF00
          else newEmbed "Error" err.Error 0xFF0000)) ∧
    (w.client.GetAssetByID ipId = .error err →
      handleLicenseCollection w i ipId =
        [.InteractionRespond .DeferredChannelMessageWithSource "" 0,
         .ClientCall "GetAssetByID" ipId] ++
        followupEmbed w (newEmbed "Error" err.Error 0xFF0000)) := by
  have hfst := respondDeferred_of_no_error _ hack
  refine ⟨?_, ?_, ?_, ?_, ?_, ?_⟩
  · intro h
    unfold handleLicense
    simp only [hfst, h]
    split_ifs <;> rfl
  · intro h
    unfold handleLicenseTerms
    simp only [hfst, h]
    split_ifs <;> rfl
  · intro h
    unfold handleLicenseInfringement
    simp only [hfst, h]
    split_ifs <;> rfl
  · intro h
    unfold handleLicenseModeration
    simp only [hfst, h]
    split_ifs <;> rfl
  · intro h
    unfold handleLicenseMint
    simp only [hfst, h]
    split_ifs <;> rfl
  · intro h
    unfold handleLicenseCollection
    simp only [hfst, h]
    rfl

/-- C13 fails for `license_collection`: when the API answers HTTP 400 with
the structured error whose detail is `invalid ip asset id format`, the client
returns the `APIError`, `handleLicense` sends the yellow `invalid_ip_id`
message, and `handleLicenseCollection` sends the red `Error` embed with the raw
error text. -/
theorem license_collection_shows_raw_error :
    (worldWithRemote invalidIDRemote).client.GetAssetByID "xyz" =
      .error (.api { Status := 400, Title := "Bad Request",
                     Detail := "invalid ip asset id format", Raw := invalidIDBody }) ∧
    handleLicense (worldWithRemote invalidIDRemote) (commandBy "u1" "license" "xyz") "xyz" =
      [.InteractionRespond .DeferredChannelMessageWithSource "" 0,
       .ClientCall "GetAssetByID" "xyz",
       .FollowupMessageCreate
         { Content := "", Flags := 0,
           Embeds := [{ Title := "", Description := "invalid_ip_id", Color := 0xFFFF00,
                        Footer := some footerText, Fields := [] }],
           Components := [] }] ∧
    handleLicenseCollection (worldWithRemote invalidIDRemote)
        (commandBy "u1" "license_collection" "xyz") "xyz" =
      [.InteractionRespond .DeferredChannelMessageWithSource "" 0,
       .ClientCall "GetAssetByID" "xyz",
       .FollowupMessageCreate
         { Content := "", Flags := 0,
           Embeds := [{ Title := "Error",
                        Description := "story api error: status=400 title=Bad Request " ++
                          "detail=invalid ip asset id format",
                        Color := 0xFF0000, Footer := some footerText, Fields := [] }],
           Components := [] }] :=
  ⟨rfl, rfl, rfl⟩

/-! ## The edit of the clicked message comes first -/

theorem acknowledgeComponent_no_followup (w : World) :
    ∀ e ∈ acknowledgeComponent w, e.isFollowup = false := by
  intro e he
  rcases acknowledgeComponent_cases w with h | ⟨err, h⟩
  · rw [h] at he
    simp at he
    subst he
    rfl
  · rw [h] at he
    simp at he
    rcases he with he | he | he <;> subst he <;> rfl

/-- Order of the calls of `handleComponentInteraction`: for a click whose
identifier decodes to a token (at least four parts) on a message that has
components, the trace is the acknowledgement, then the edit of the clicked
message with the list `disableComponentsCopy` returns for its components, then
either the `unauth_button` reply or the calls of the dispatched handler; the
acknowledgement holds no reply and no API client call. -/
theorem edit_precedes_reply_and_handlers (w : World) (i : InteractionCreate) (tok : InteractionToken)
    (msg : Message)
    (hdec : decodeCustomID i.CustomID = .ok (some tok))
    (hmsg : i.Message = some msg) (hcomp : msg.Components ≠ []) :
    ∃ rest,
      handleComponentInteraction w i =
        .ok (acknowledgeComponent w ++
          .ChannelMessageEditComplex msg.ID msg.ChannelID (disableComponentsCopy msg.Components) ::
            rest) ∧
      (∀ e ∈ acknowledgeComponent w, e.isClientCall = false ∧ e.isFollowup = false) ∧
      (rest = [followupContent (getTextWithCtx w (some i) "unauth_button") 64] ∨
        rest = dispatchComponent w i tok.kind tok.action tok.id) := by
  have hlen : msg.Components.length > 0 := List.length_pos.2 hcomp
  have hedit : disableClicked i =
      [.ChannelMessageEditComplex msg.ID msg.ChannelID (disableComponentsCopy msg.Components)] := by
    simp [disableClicked, hmsg, hlen]
  have hquiet : ∀ e ∈ acknowledgeComponent w, e.isClientCall = false ∧ e.isFollowup = false :=
    fun e he => ⟨(acknowledgeComponent_quiet w e he).1, acknowledgeComponent_no_followup w e he⟩
  by_cases hun : tok.ownerId ≠ "" ∧ interactionUserID i ≠ tok.ownerId
  · refine ⟨_, ?_, hquiet, Or.inl rfl⟩
    simp [handleComponentInteraction, hdec, hun, hedit]
  · refine ⟨_, ?_, hquiet, Or.inr rfl⟩
    simp only [handleComponentInteraction, hdec, hedit]
    rw [if_neg hun]
    simp

theorem edit_precedes_reply_and_handlers_witness :
    decodeCustomID (clickOn "user7" "lic:terms:abc123:user42" sampleComponents).CustomID =
      .ok (some ⟨"lic", "terms", "abc123", "user42"⟩) ∧
    sampleComponents ≠ [] ∧
    ∃ rest,
      handleComponentInteraction sampleWorld
          (clickOn "user7" "lic:terms:abc123:user42" sampleComponents) =
        .ok (acknowledgeComponent sampleWorld ++
          .ChannelMessageEditComplex "m1" "c1" (disableComponentsCopy sampleComponents) :: rest) ∧
      (∀ e ∈ acknowledgeComponent sampleWorld, e.isClientCall = false ∧ e.isFollowup = false) ∧
      (rest = [followupContent (getTextWithCtx sampleWorld
          (some (clickOn "user7" "lic:terms:abc123:user42" sampleComponents))
          "unauth_button") 64] ∨
        rest = dispatchComponent sampleWorld
          (clickOn "user7" "lic:terms:abc123:user42" sampleComponents) "lic" "terms" "abc123") :=
  ⟨rfl, by simp [sampleComponents],
   edit_precedes_reply_and_handlers sampleWorld
     (clickOn "user7" "lic:terms:abc123:user42" sampleComponents)
     ⟨"lic", "terms", "abc123", "user42"⟩
     { ID := "m1", ChannelID := "c1", Components := sampleComponents } rfl rfl
     (by simp [sampleComponents])⟩

/-! ## `disableComponentsCopy` on rows of the struct type -/

theorem disableComponentsCopy_getElem? (components : List MessageComponent) (k : Nat) :
    (disableComponentsCopy components)[k]? =
      (components[k]?).map (fun c => match c with
        | .ActionsRow rowComponents =>
          .ActionsRow (rowComponents.map fun rc =>
            match rc with
            | .Button b => .Button { b with Disabled := true }
            | rc => rc)
        | c => c) := by
  simp [disableComponentsCopy, List.getElem?_map]

/-- Rows of the struct type: for every component list, `disableComponentsCopy`
returns a list of the same length in which, position by position, a row of the
struct type becomes a row of the same length whose buttons of the struct type
are the input buttons with `Disabled = true` and every other field unchanged
and whose other components are unchanged, and a component that is not such a
row is unchanged; every button of the struct type in such a row of the result
is disabled, and applying the function twice gives the same as applying it
once. -/
theorem disableComponentsCopy_struct_rows (components : List MessageComponent) :
    (disableComponentsCopy components).length = components.length ∧
    (∀ (k : Nat) (row : List MessageComponent), components[k]? = some (.ActionsRow row) →
      ∃ row' : List MessageComponent,
        (disableComponentsCopy components)[k]? = some (.ActionsRow row') ∧
        row'.length = row.length ∧
        (∀ (j : Nat) (b : Button), row[j]? = some (.Button b) →
          row'[j]? = some (.Button { b with Disabled := true })) ∧
        (∀ (j : Nat) (rc : MessageComponent), row[j]? = some rc →
          (∀ b : Button, rc ≠ .Button b) → row'[j]? = some rc) ∧
        (∀ b : Button, MessageComponent.Button b ∈ row' → b.Disabled = true)) ∧
    (∀ (k : Nat) (c : MessageComponent), components[k]? = some c →
      (∀ row : List MessageComponent, c ≠ .ActionsRow row) →
      (disableComponentsCopy components)[k]? = some c) ∧
    disableComponentsCopy (disableComponentsCopy components) =
      disableComponentsCopy components := by
  refine ⟨by simp [disableComponentsCopy], ?_, ?_, ?_⟩
  · intro k row hk
    refine ⟨_, by rw [disableComponentsCopy_getElem?, hk]; rfl, by simp, ?_, ?_, ?_⟩
    · intro j b hj
      simp [List.getElem?_map, hj]
    · intro j rc hj hrc
      cases rc with
      | Button b => exact absurd rfl (hrc b)
      | ActionsRow r => simp [List.getElem?_map, hj]
      | ActionsRowPtr r => simp [List.getElem?_map, hj]
      | ButtonPtr b => simp [List.getElem?_map, hj]
      | Other kind => simp [List.getElem?_map, hj]
    · intro b hb
      rw [List.mem_map] at hb
      obtain ⟨rc, -, hrc⟩ := hb
      cases rc with
      | Button b0 =>
        simp only [MessageComponent.Button.injEq] at hrc
        rw [← hrc]
      | ActionsRow r => simp at hrc
      | ActionsRowPtr r => simp at hrc
      | ButtonPtr b1 => simp at hrc
      | Other kind => simp at hrc
  · intro k c hk hc
    rw [disableComponentsCopy_getElem?, hk]
    cases c with
    | ActionsRow r => exact absurd rfl (hc r)
    | Button b => rfl
    | ActionsRowPtr r => rfl
    | ButtonPtr b => rfl
    | Other kind => rfl
  · unfold disableComponentsCopy
    rw [List.map_map]
    apply List.map_congr_left
    intro c _
    cases c with
    | ActionsRow r =>
      simp only [Function.comp, List.map_map, MessageComponent.ActionsRow.injEq]
      apply List.map_congr_left
      intro rc _
      cases rc with
      | Button b => rfl
      | ActionsRow r2 => rfl
      | ActionsRowPtr r2 => rfl
      | ButtonPtr b => rfl
      | Other kind => rfl
    | Button b => rfl
    | ActionsRowPtr r => rfl
    | ButtonPtr b => rfl
    | Other kind => rfl

theorem disableComponentsCopy_struct_rows_witness :
    disableComponentsCopy sampleComponents =
      [.ActionsRow [.Button { Label := "Terms", Style := 1, Disabled := true, URL := "",
                              CustomID := "lic:terms:abc123:user42" }, .Other "select"],
       .Other "text"] ∧
    disableComponentsCopy (disableComponentsCopy sampleComponents) =
      disableComponentsCopy sampleComponents :=
  ⟨rfl, (disableComponentsCopy_struct_rows sampleComponents).2.2.2⟩

/-! ## C14, C15, C26: the components of a received message are pointer-typed -/

theorem disableComponentsCopy_eq_self (components : List MessageComponent)
    (h : ∀ c ∈ components, c.isStructRow = false) :
    disableComponentsCopy components = components := by
  unfold disableComponentsCopy
  conv_rhs => rw [← List.map_id components]
  apply List.map_congr_left
  intro c hc
  have := h c hc
  cases c with
  | ActionsRow r => simp [MessageComponent.isStructRow] at this
  | Button b => rfl
  | ActionsRowPtr r => rfl
  | ButtonPtr b => rfl
  | Other kind => rfl

theorem disableClicked_eq_self (i : InteractionCreate) (msg : Message)
    (hmsg : i.Message = some msg) (hcomp : msg.Components ≠ [])
    (hptr : ∀ c ∈ msg.Components, c.isStructRow = false) :
    disableClicked i = [.ChannelMessageEditComplex msg.ID msg.ChannelID msg.Components] := by
  have hlen : msg.Components.length > 0 := List.length_pos.2 hcomp
  simp [disableClicked, hmsg, hlen, disableComponentsCopy_eq_self _ hptr]

/-- C15 fails on pointer-typed rows, which is what the rows of a message that
arrives with a click are: `disableComponentsCopy` returns such a row at its
position exactly as it was put in, with the buttons it holds as enabled as
they were. -/
theorem pointer_rows_are_not_disabled (components : List MessageComponent) (k : Nat)
    (row : List MessageComponent) (h : components[k]? = some (.ActionsRowPtr row)) :
    (disableComponentsCopy components)[k]? = some (.ActionsRowPtr row) := by
  rw [disableComponentsCopy_getElem?, h]
  rfl

theorem pointer_rows_are_not_disabled_witness :
    receivedComponents[0]? =
      some (.ActionsRowPtr [.ButtonPtr { Label := "Terms", Style := 1, Disabled := false,
                                         URL := "", CustomID := "lic:terms:abc123:user42" }]) ∧
    (disableComponentsCopy receivedComponents)[0]? =
      some (.ActionsRowPtr [.ButtonPtr { Label := "Terms", Style := 1, Disabled := false,
                                         URL := "", CustomID := "lic:terms:abc123:user42" }]) :=
  ⟨rfl, pointer_rows_are_not_disabled receivedComponents 0 _ rfl⟩

/-- C14 fails on a message whose rows are pointer-typed: for a click whose
identifier decodes to a token, the edit is the first call after the
acknowledgement and precedes the `unauth_button` reply and the calls of the
dispatched handler, but what it sends is the component list of the message
unchanged, so no button is disabled by it. -/
theorem first_edit_resends_components (w : World) (i : InteractionCreate)
    (tok : InteractionToken) (msg : Message)
    (hdec : decodeCustomID i.CustomID = .ok (some tok))
    (hmsg : i.Message = some msg) (hcomp : msg.Components ≠ [])
    (hptr : ∀ c ∈ msg.Components, c.isStructRow = false) :
    handleComponentInteraction w i =
      .ok (acknowledgeComponent w ++
        .ChannelMessageEditComplex msg.ID msg.ChannelID msg.Components ::
          (if tok.ownerId ≠ "" ∧ interactionUserID i ≠ tok.ownerId then
            [followupContent (getTextWithCtx w (some i) "unauth_button") 64]
           else dispatchComponent w i tok.kind tok.action tok.id)) := by
  have hedit := disableClicked_eq_self i msg hmsg hcomp hptr
  by_cases hun : tok.ownerId ≠ "" ∧ interactionUserID i ≠ tok.ownerId
  · simp [handleComponentInteraction, hdec, hun, hedit]
  · simp only [handleComponentInteraction, hdec, hedit]
    rw [if_neg hun, if_neg hun]
    simp

theorem first_edit_resends_components_witness :
    handleComponentInteraction sampleWorld
        (clickOn "user42" "lic:terms:abc123:user42" receivedComponents) =
      .ok (.InteractionRespond .DeferredChannelMessageWithSource "" 0 ::
        .ChannelMessageEditComplex "m1" "c1"
          [.ActionsRowPtr [.ButtonPtr { Label := "Terms", Style := 1, Disabled := false,
                                        URL := "", CustomID := "lic:terms:abc123:user42" }]] ::
        handleLicenseTerms sampleWorld
          (clickOn "user42" "lic:terms:abc123:user42" receivedComponents) "abc123") := by
  rw [first_edit_resends_components sampleWorld
      (clickOn "user42" "lic:terms:abc123:user42" receivedComponents)
      ⟨"lic", "terms", "abc123", "user42"⟩
      { ID := "m1", ChannelID := "c1", Components := receivedComponents } rfl rfl
      (by simp [receivedComponents]) (by simp [receivedComponents, MessageComponent.isStructRow])]
  rfl

/-- C26 fails on a message whose rows are pointer-typed: for a click whose
identifier decodes to a token with an owner, made by another user, the trace of
`handleComponentInteraction` is the acknowledgement, the edit that sends the
component list of the message unchanged, and the `unauth_button` reply, so the
buttons of the owner stay enabled. -/
theorem rejected_click_leaves_buttons_enabled (w : World) (i : InteractionCreate)
    (tok : InteractionToken) (msg : Message)
    (hdec : decodeCustomID i.CustomID = .ok (some tok))
    (hmsg : i.Message = some msg) (hcomp : msg.Components ≠ [])
    (hptr : ∀ c ∈ msg.Components, c.isStructRow = false)
    (howner : tok.ownerId ≠ "") (hclick : interactionUserID i ≠ tok.ownerId) :
    handleComponentInteraction w i =
      .ok (acknowledgeComponent w ++
        [.ChannelMessageEditComplex msg.ID msg.ChannelID msg.Components,
         followupContent (getTextWithCtx w (some i) "unauth_button") 64]) := by
  have hedit := disableClicked_eq_self i msg hmsg hcomp hptr
  simp [handleComponentInteraction, hdec, hedit, howner, hclick]

theorem rejected_click_leaves_buttons_enabled_witness :
    handleComponentInteraction sampleWorld
        (clickOn "user7" "lic:terms:abc123:user42" receivedComponents) =
      .ok [.InteractionRespond .DeferredChannelMessageWithSource "" 0,
           .ChannelMessageEditComplex "m1" "c1"
             [.ActionsRowPtr [.ButtonPtr { Label := "Terms", Style := 1, Disabled := false,
                                           URL := "", CustomID := "lic:terms:abc123:user42" }]],
           followupContent "This button is not for you." 64] :=
  rejected_click_leaves_buttons_enabled sampleWorld
    (clickOn "user7" "lic:terms:abc123:user42" receivedComponents)
    ⟨"lic", "terms", "abc123", "user42"⟩
    { ID := "m1", ChannelID := "c1", Components := receivedComponents } rfl rfl
    (by simp [receivedComponents]) (by simp [receivedComponents, MessageComponent.isStructRow])
    (by decide) (by decide)

/-! ## C18: truncation and footer of sent embeds -/

/-- C18: the embed sent by `followupEmbed` and by
`followupEmbedWithComponents` is the input embed with the fixed footer in place
of any footer and with its field list cut to the first 25 entries; that list
has `min len 25` entries and is the whole list when there are at most 25; both
functions return normally for every embed. -/
theorem sent_embed_is_truncated_and_branded (w : World) (embed : MessageEmbed)
    (components : List MessageComponent) :
    (∃ logs, followupEmbed w embed =
      .FollowupMessageCreate
        { Content := "", Flags := 0,
          Embeds := [{ embed with Footer := some footerText, Fields := embed.Fields.take 25 }],
          Components := [] } :: logs) ∧
    (∃ logs, (followupEmbedWithComponents w embed components).1 =
      .FollowupMessageCreate
        { Content := "", Flags := 0,
          Embeds := [{ embed with Footer := some footerText, Fields := embed.Fields.take 25 }],
          Components := components } :: logs) ∧
    (embed.Fields.take 25).length = min embed.Fields.length 25 ∧
    (embed.Fields.length ≤ 25 → embed.Fields.take 25 = embed.Fields) ∧
    (∀ k, k < 25 → (embed.Fields.take 25)[k]? = embed.Fields[k]?) := by
  have hfields : (if embed.Fields.length > 25
      then { embed with Footer := some footerText, Fields := embed.Fields.take 25 }
      else { embed with Footer := some footerText }) =
      ({ embed with Footer := some footerText, Fields := embed.Fields.take 25 } : MessageEmbed) := by
    split_ifs with h
    · rfl
    · rw [List.take_of_length_le (by omega)]
  have hcomps : (if components.length > 0 then components else []) = components := by
    cases components <;> simp
  refine ⟨?_, ?_, ?_, ?_, ?_⟩
  · unfold followupEmbed
    simp only [hfields]
    cases w.followup <;> exact ⟨_, rfl⟩
  · unfold followupEmbedWithComponents
    simp only [hfields]
    cases w.followup <;> cases components <;> simp
  · simp [List.length_take, Nat.min_comm]
  · intro h
    exact List.take_of_length_le h
  · intro k hk
    simp [List.getElem?_take, hk]

theorem sent_embed_is_truncated_and_branded_witness :
    followupEmbed sampleWorld (embedWithFields 30) =
      [.FollowupMessageCreate
        { Content := "", Flags := 0,
          Embeds := [{ Title := "t", Description := "d", Color := 1, Footer := some footerText,
                       Fields := (embedWithFields 25).Fields }],
          Components := [] }] ∧
    ((embedWithFields 30).Fields.take 25).length = min (embedWithFields 30).Fields.length 25 ∧
    ((embedWithFields 20).Fields.length ≤ 25 →
      (embedWithFields 20).Fields.take 25 = (embedWithFields 20).Fields) :=
  ⟨rfl, (sent_embed_is_truncated_and_branded sampleWorld (embedWithFields 30) []).2.2.1,
   (sent_embed_is_truncated_and_branded sampleWorld (embedWithFields 20) []).2.2.2.1⟩

/-! ## C16: buttons dispatch like the equivalent command -/

/-- C16: for every authorized click whose identifier decodes to the token
`(kind, action, target)`, the calls of `handleComponentInteraction` after the
acknowledgement and the disabling edit are those of the slash command
equivalent to `kind:action`, dispatched on the target: `lic:terms` is
`license_terms`, `lic:infr` is `license_infringement`, `lic:mod` is
`license_moderation`, `lic:mint` is `license_mint`, `lic:coll` is
`license_collection`, `col:disputes` is `collection_disputes` and `col:show` is
`collection`; any other action under `lic` or `col` gives only the
`unknown_action` reply and any other namespace only the `unknown_component`
reply. -/
theorem authorized_click_dispatches_like_command (w : World) (i : InteractionCreate)
    (tok : InteractionToken)
    (hdec : decodeCustomID i.CustomID = .ok (some tok))
    (hauth : tok.ownerId = "" ∨ interactionUserID i = tok.ownerId) :
    handleComponentInteraction w i =
      .ok (acknowledgeComponent w ++ disableClicked i ++
        match equivalentCommand tok.kind tok.action with
        | some name => dispatchCommand w i name tok.id
        | none =>
          if tok.kind = "lic" ∨ tok.kind = "col" then
            [followupContent (getText w "unknown_action") 0]
          else [followupContent (getText w "unknown_component") 0]) ∧
    dispatchCommand w i "license_terms" tok.id = handleLicenseTerms w i tok.id ∧
    dispatchCommand w i "license_infringement" tok.id = handleLicenseInfringement w i tok.id ∧
    dispatchCommand w i "license_moderation" tok.id = handleLicenseModeration w i tok.id ∧
    dispatchCommand w i "license_mint" tok.id = handleLicenseMint w i tok.id ∧
    dispatchCommand w i "license_collection" tok.id = handleLicenseCollection w i tok.id ∧
    dispatchCommand w i "collection_disputes" tok.id = handleCollectionDisputes w i tok.id ∧
    dispatchCommand w i "collection" tok.id = handleCollection w i tok.id := by
  have hnot : ¬ (tok.ownerId ≠ "" ∧ interactionUserID i ≠ tok.ownerId) := by
    rintro ⟨h1, h2⟩
    rcases hauth with h | h
    · exact h1 h
    · exact h2 h
  refine ⟨?_, rfl, rfl, rfl, rfl, rfl, rfl, rfl⟩
  simp only [handleComponentInteraction, hdec]
  rw [if_neg hnot]
  congr 2
  unfold dispatchComponent equivalentCommand
  by_cases hk : tok.kind = "lic"
  · simp only [hk, if_true]
    split_ifs <;> first | rfl | simp_all [dispatchCommand]
  · by_cases hc : tok.kind = "col"
    · simp only [hc]
      split_ifs <;> first | rfl | simp_all [dispatchCommand]
    · simp [hk, hc]

theorem authorized_click_dispatches_like_command_witness :
    handleComponentInteraction sampleWorld (clickBy "user42" "lic:infr:abc123:user42") =
      .ok (acknowledgeComponent sampleWorld ++
        disableClicked (clickBy "user42" "lic:infr:abc123:user42") ++
        dispatchCommand sampleWorld (clickBy "user42" "lic:infr:abc123:user42")
          "license_infringement" "abc123") ∧
    handleComponentInteraction sampleWorld (clickBy "user42" "lic:zap:abc123:user42") =
      .ok (acknowledgeComponent sampleWorld ++
        disableClicked (clickBy "user42" "lic:zap:abc123:user42") ++
        [followupContent "unknown_action" 0]) :=
  ⟨(authorized_click_dispatches_like_command sampleWorld
      (clickBy "user42" "lic:infr:abc123:user42") ⟨"lic", "infr", "abc123", "user42"⟩ rfl
      (Or.inr rfl)).1,
   (authorized_click_dispatches_like_command sampleWorld
      (clickBy "user42" "lic:zap:abc123:user42") ⟨"lic", "zap", "abc123", "user42"⟩ rfl
      (Or.inr rfl)).1⟩

/-! ## C17: the command surface and the dispatch table -/

theorem registeredCommands_append (a b : List RegistryCall) :
    registeredCommands (a ++ b) = registeredCommands a ++ registeredCommands b := by
  induction a with
  | nil => rfl
  | cons c a ih =>
    cases c <;> simp [registeredCommands, ih]

theorem registeredCommands_registerLoop (appID : String) (r : Registry)
    (l : List ApplicationCommand) : registeredCommands (registerLoop appID r l) = l := by
  induction l with
  | nil => rfl
  | cons cmd rest ih =>
    unfold registerLoop
    split <;> simp [registeredCommands, ih]

theorem registeredCommands_cleanupLoop (appID : String) (r : Registry) (desired : List String)
    (l : List ApplicationCommand) : registeredCommands (cleanupLoop appID r desired l) = [] := by
  induction l with
  | nil => rfl
  | cons ec rest ih =>
    unfold cleanupLoop
    split_ifs
    · exact ih
    · split <;> simp [registeredCommands, ih]

theorem registeredCommands_createCommands (appID : String) (r : Registry) :
    registeredCommands (createCommands appID r) = cmds := by
  unfold createCommands
  simp only [registeredCommands_append, registeredCommands_registerLoop]
  cases r.existing with
  | error e => simp [registeredCommands]
  | ok existing => simp [registeredCommands, registeredCommands_cleanupLoop]

/-- C17 (as amended): `createCommands` registers exactly the eight commands
`license`, `license_terms`, `license_infringement`, `license_moderation`,
`license_mint`, `license_collection`, `collection`, `collection_disputes`, each
with exactly one option, a required string; and a slash command whose first
option is a string option runs, on the value of that option, the handler of its
name when the name is one of the eight, and otherwise only sends the
`unknown_command` response. -/
theorem command_surface_matches_dispatch (appID : String) (r : Registry) (w : World)
    (i : InteractionCreate) (param : String) (more : List OptionValue)
    (hkind : i.Kind = .ApplicationCommand) (hopts : i.CommandOptions = .string param :: more) :
    (registeredCommands (createCommands appID r)).map (fun c => c.Name) = commandNames ∧
    (∀ cmd ∈ registeredCommands (createCommands appID r),
      ∃ opt : ApplicationCommandOption, cmd.Options = [opt] ∧ opt.Kind = 3 ∧ opt.Required = true) ∧
    (i.CommandName = "license" → onInteractionCreate w i = .ok (handleLicense w i param)) ∧
    (i.CommandName = "license_terms" →
      onInteractionCreate w i = .ok (handleLicenseTerms w i param)) ∧
    (i.CommandName = "license_infringement" →
      onInteractionCreate w i = .ok (handleLicenseInfringement w i param)) ∧
    (i.CommandName = "license_moderation" →
      onInteractionCreate w i = .ok (handleLicenseModeration w i param)) ∧
    (i.CommandName = "license_mint" → onInteractionCreate w i = .ok (handleLicenseMint w i param)) ∧
    (i.CommandName = "license_collection" →
      onInteractionCreate w i = .ok (handleLicenseCollection w i param)) ∧
    (i.CommandName = "collection" → onInteractionCreate w i = .ok (handleCollection w i param)) ∧
    (i.CommandName = "collection_disputes" →
      onInteractionCreate w i = .ok (handleCollectionDisputes w i param)) ∧
    (i.CommandName ∉ commandNames →
      onInteractionCreate w i =
        .ok [.InteractionRespond .ChannelMessageWithSource
          (getTextWithCtx w (some i) "unknown_command") 0]) := by
  have hrun : onInteractionCreate w i = .ok (dispatchCommand w i i.CommandName param) := by
    simp [onInteractionCreate, hkind, hopts, OptionValue.StringValue]
  rw [hrun, registeredCommands_createCommands]
  refine ⟨by decide, ?_, ?_, ?_, ?_, ?_, ?_, ?_, ?_, ?_, ?_⟩
  · intro cmd hcmd
    simp only [cmds, List.mem_cons, List.mem_singleton, List.not_mem_nil, or_false] at hcmd
    rcases hcmd with h | h | h | h | h | h | h | h <;> subst h <;> exact ⟨_, rfl, rfl, rfl⟩
  · intro h; rw [h]; rfl
  · intro h; rw [h]; rfl
  · intro h; rw [h]; rfl
  · intro h; rw [h]; rfl
  · intro h; rw [h]; rfl
  · intro h; rw [h]; rfl
  · intro h; rw [h]; rfl
  · intro h; rw [h]; rfl
  · intro h
    simp only [commandNames, List.mem_cons, List.mem_singleton, not_or, List.not_mem_nil,
      or_false] at h
    obtain ⟨h1, h2, h3, h4, h5, h6, h7, h8⟩ := h
    simp [dispatchCommand, h1, h2, h3, h4, h5, h6, h7, h8]

theorem command_surface_matches_dispatch_witness :
    (registeredCommands (createCommands "app" sampleRegistry)).map (fun c => c.Name) =
      commandNames ∧
    onInteractionCreate (commandWorld []) (commandBy "u1" "license_mint" "0xabc") =
      .ok (handleLicenseMint (commandWorld []) (commandBy "u1" "license_mint" "0xabc") "0xabc") ∧
    onInteractionCreate (commandWorld []) (commandBy "u1" "licence" "0xabc") =
      .ok [.InteractionRespond .ChannelMessageWithSource "unknown_command" 0] :=
  ⟨(command_surface_matches_dispatch "app" sampleRegistry (commandWorld [])
      (commandBy "u1" "license_mint" "0xabc") "0xabc" [] rfl rfl).1,
   (command_surface_matches_dispatch "app" sampleRegistry (commandWorld [])
      (commandBy "u1" "license_mint" "0xabc") "0xabc" [] rfl rfl).2.2.2.2.2.2.1 rfl,
   (command_surface_matches_dispatch "app" sampleRegistry (commandWorld [])
      (commandBy "u1" "licence" "0xabc") "0xabc" [] rfl rfl).2.2.2.2.2.2.2.2.2.2 (by decide)⟩

/-- C17 as stated fails: a slash command named outside the eight whose first
option is not a string option stops with the panic of `StringValue`, before
the name is looked at, and sends no `unknown_command` response. -/
theorem non_string_option_panics :
    onInteractionCreate (commandWorld []) (commandWithOptions "u1" "legacy" [.other "Integer"]) =
      .error "StringValue called on data option of type Integer" := rfl

/-! ## C19, C20: the terms returned by `GetAssetTerms` -/

/-- C19: for every fetched asset, `GetAssetTerms` returns the asset's primary
`LicenseTemplate` when it is present, whatever the `Licenses` list holds;
otherwise the first item of `Licenses` when the list is non-empty; otherwise
no value and no error.  The wrapper returned is the chosen one with
`AttributionRequired` of its terms, when present, set from the two
attribution flags. -/
theorem getAssetTerms_selection (c : Client) (ipID : String) (asset : IPAsset)
    (h : c.GetAssetByID ipID = .ok (some asset)) :
    (∀ t, asset.LicenseTemplate = some t →
      c.GetAssetTerms ipID = .ok (some { t with Terms := t.Terms.map fun terms =>
        { terms with AttributionRequired :=
            terms.DerivativesAttribution || terms.CommercialAttribution } })) ∧
    (∀ l more, asset.LicenseTemplate = none → asset.Licenses = l :: more →
      c.GetAssetTerms ipID = .ok (some { l with Terms := l.Terms.map fun terms =>
        { terms with AttributionRequired :=
            terms.DerivativesAttribution || terms.CommercialAttribution } })) ∧
    (asset.LicenseTemplate = none → asset.Licenses = [] → c.GetAssetTerms ipID = .ok none) := by
  refine ⟨?_, ?_, ?_⟩
  · intro t ht
    unfold Client.GetAssetTerms
    simp only [h, ht]
    cases t with
    | mk name uri tid terms => cases terms <;> rfl
  · intro l more ht hl
    unfold Client.GetAssetTerms
    simp only [h, ht, hl]
    cases l with
    | mk name uri tid terms => cases terms <;> rfl
  · intro ht hl
    unfold Client.GetAssetTerms
    simp only [h, ht, hl]

theorem getAssetTerms_selection_witness :
    (NewClient sampleConfig (remoteWithAssets
        [assetWithLicenses (some (wrapperWith "primary" none)) [wrapperWith "first" none]])).GetAssetTerms
        "0xabc" = .ok (some (wrapperWith "primary" none)) ∧
    (NewClient sampleConfig (remoteWithAssets
        [assetWithLicenses none [wrapperWith "first" none, wrapperWith "second" none]])).GetAssetTerms
        "0xabc" = .ok (some (wrapperWith "first" none)) ∧
    (NewClient sampleConfig (remoteWithAssets [assetWithLicenses none []])).GetAssetTerms
        "0xabc" = .ok none :=
  ⟨(getAssetTerms_selection
      (NewClient sampleConfig (remoteWithAssets
        [assetWithLicenses (some (wrapperWith "primary" none)) [wrapperWith "first" none]]))
      "0xabc"
      (assetWithLicenses (some (wrapperWith "primary" none)) [wrapperWith "first" none]) rfl).1
      _ rfl,
   (getAssetTerms_selection
      (NewClient sampleConfig (remoteWithAssets
        [assetWithLicenses none [wrapperWith "first" none, wrapperWith "second" none]]))
      "0xabc"
      (assetWithLicenses none [wrapperWith "first" none, wrapperWith "second" none]) rfl).2.1
      _ _ rfl rfl,
   (getAssetTerms_selection (NewClient sampleConfig (remoteWithAssets [assetWithLicenses none []]))
      "0xabc" (assetWithLicenses none []) rfl).2.2 rfl rfl⟩

/-- C20: whenever `GetAssetTerms` returns a wrapper whose terms are present,
these terms are the terms fetched for the chosen wrapper (the primary template,
else the first license) with every field unchanged except
`AttributionRequired`, which is `DerivativesAttribution || CommercialAttribution`
whatever value was fetched for it. -/
theorem getAssetTerms_attribution (c : Client) (ipID : String) (lt : LicenseTermsWrapper)
    (terms : LicenseTerms)
    (h : c.GetAssetTerms ipID = .ok (some lt)) (hterms : lt.Terms = some terms) :
    terms.AttributionRequired = (terms.DerivativesAttribution || terms.CommercialAttribution) ∧
    ∃ (asset : IPAsset) (src : LicenseTermsWrapper) (fetched : LicenseTerms),
      c.GetAssetByID ipID = .ok (some asset) ∧
      (asset.LicenseTemplate = some src ∨
        (asset.LicenseTemplate = none ∧ asset.Licenses.head? = some src)) ∧
      src.Terms = some fetched ∧
      terms.Transferable = fetched.Transferable ∧
      terms.CommercialUse = fetched.CommercialUse ∧
      terms.DerivativesAllowed = fetched.DerivativesAllowed ∧
      terms.DerivativesApproval = fetched.DerivativesApproval ∧
      terms.CommercialRevShare = fetched.CommercialRevShare ∧
      terms.DerivativesAttribution = fetched.DerivativesAttribution ∧
      terms.CommercialAttribution = fetched.CommercialAttribution ∧
      terms.AttributionRequired =
        (fetched.DerivativesAttribution || fetched.CommercialAttribution) := by
  cases hget : c.GetAssetByID ipID with
  | error e => simp [Client.GetAssetTerms, hget] at h
  | ok oa =>
    cases oa with
    | none => simp [Client.GetAssetTerms, hget] at h
    | some asset =>
      obtain ⟨h1, h2, h3⟩ := getAssetTerms_selection c ipID asset hget
      have key : ∀ src : LicenseTermsWrapper,
          c.GetAssetTerms ipID = .ok (some { src with Terms := src.Terms.map fun terms =>
            { terms with AttributionRequired :=
                terms.DerivativesAttribution || terms.CommercialAttribution } }) →
          ∃ fetched, src.Terms = some fetched ∧
            terms = { fetched with AttributionRequired :=
              fetched.DerivativesAttribution || fetched.CommercialAttribution } := by
        intro src hsrc
        rw [h] at hsrc
        simp only [Except.ok.injEq, Option.some.injEq] at hsrc
        rw [hsrc] at hterms
        cases hs : src.Terms with
        | none => simp [hs] at hterms
        | some fetched =>
          refine ⟨fetched, rfl, ?_⟩
          simp [hs] at hterms
          exact hterms.symm
      cases htmpl : asset.LicenseTemplate with
      | some src =>
        obtain ⟨fetched, hf, ht⟩ := key src (h1 src htmpl)
        subst ht
        exact ⟨rfl, asset, src, fetched, rfl, Or.inl htmpl, hf, rfl, rfl, rfl, rfl, rfl, rfl, rfl,
          rfl⟩
      | none =>
        cases hl : asset.Licenses with
        | nil => rw [h3 htmpl hl] at h; simp at h
        | cons l more =>
          obtain ⟨fetched, hf, ht⟩ := key l (h2 l more htmpl hl)
          subst ht
          exact ⟨rfl, asset, l, fetched, rfl, Or.inr ⟨htmpl, by simp [hl]⟩, hf, rfl, rfl, rfl,
            rfl, rfl, rfl, rfl, rfl⟩

theorem getAssetTerms_attribution_witness :
    (NewClient sampleConfig (remoteWithAssets
        [assetWithLicenses (some (wrapperWith "primary" (some (termsWith true false false))))
          []])).GetAssetTerms "0xabc" =
      .ok (some (wrapperWith "primary" (some (termsWith false false false)))) ∧
    (termsWith false false false).AttributionRequired =
      ((termsWith false false false).DerivativesAttribution ||
        (termsWith false false false).CommercialAttribution) :=
  ⟨rfl,
   (getAssetTerms_attribution
      (NewClient sampleConfig (remoteWithAssets
        [assetWithLicenses (some (wrapperWith "primary" (some (termsWith true false false))))
          []]))
      "0xabc" (wrapperWith "primary" (some (termsWith false false false)))
      (termsWith false false false) rfl rfl).1⟩

/-! ## C21: scheduled cleanup of messages with buttons -/

theorem respondDeferred_fst (ack : Option String) :
    (respondDeferred ack).1 = [.InteractionRespond .DeferredChannelMessageWithSource "" 0] := by
  unfold respondDeferred
  cases ack with
  | none => rfl
  | some err => dsimp only; split_ifs <;> rfl

theorem followupEmbed_no_cleanup (w : World) (embed : MessageEmbed) :
    (followupEmbed w embed).all (fun e => !e.isCleanup) = true := by
  unfold followupEmbed
  cases w.followup <;> rfl

theorem followupEmbedWithComponents_no_cleanup (w : World) (embed : MessageEmbed)
    (components : List MessageComponent) :
    (followupEmbedWithComponents w embed components).1.all (fun e => !e.isCleanup) = true := by
  unfold followupEmbedWithComponents
  cases w.followup <;> rfl

theorem handleCollection_no_cleanup (w : World) (i : InteractionCreate) (addr : String) :
    (handleCollection w i addr).all (fun e => !e.isCleanup) = true := by
  have hfst := respondDeferred_fst w.handlerAck
  unfold handleCollection
  split
  · rename_i acks err heq
    rw [heq] at hfst
    simp only at hfst
    subst hfst
    rfl
  · rename_i acks heq
    rw [heq] at hfst
    simp only at hfst
    subst hfst
    simp only [List.all_append, Bool.and_eq_true]
    refine ⟨by simp [Effect.isCleanup], ?_⟩
    split
    · exact followupEmbed_no_cleanup _ _
    · exact followupEmbed_no_cleanup _ _
    · split_ifs
      · exact followupEmbedWithComponents_no_cleanup _ _ _
      · exact followupEmbed_no_cleanup _ _

theorem handleLicenseCollection_no_cleanup (w : World) (i : InteractionCreate) (ipId : String) :
    (handleLicenseCollection w i ipId).all (fun e => !e.isCleanup) = true := by
  have hfst := respondDeferred_fst w.handlerAck
  unfold handleLicenseCollection
  split
  · rename_i acks err heq
    rw [heq] at hfst
    simp only at hfst
    subst hfst
    rfl
  · rename_i acks heq
    rw [heq] at hfst
    simp only at hfst
    subst hfst
    simp only [List.all_append, Bool.and_eq_true]
    refine ⟨by simp [Effect.isCleanup], ?_⟩
    split
    · exact followupEmbed_no_cleanup _ _
    · exact followupEmbed_no_cleanup _ _
    · split_ifs
      · exact followupEmbedWithComponents_no_cleanup _ _ _
      · exact followupEmbed_no_cleanup _ _

theorem cleanupDelay_of_no_cleanup (tr : List Effect)
    (h : tr.all (fun e => !e.isCleanup) = true) (e : Effect) (he : e ∈ tr) :
    e.cleanupDelay = none := by
  have := List.all_eq_true.1 h e he
  cases e <;> simp_all [Effect.isCleanup, Effect.cleanupDelay]

theorem handleLicense_view (w : World) (i : InteractionCreate) (ipId : String) (asset : IPAsset)
    (hack : (respondDeferred w.handlerAck).2 = none)
    (hget : w.client.GetAssetByID ipId = .ok (some asset)) :
    ∃ (embed : MessageEmbed) (components : List MessageComponent),
      handleLicense w i ipId =
        [.InteractionRespond .DeferredChannelMessageWithSource "" 0,
         .ClientCall "GetAssetByID" ipId] ++
        (if components.length > 0 then
          match followupEmbedWithComponents w embed components with
          | (calls, some msg) =>
            calls ++ [.GoCleanup w.config.STORY_BUTTON_TIMEOUT_SEC msg.ChannelID msg.ID components]
          | (calls, none) => calls
        else followupEmbed w embed) := by
  have hfst := respondDeferred_of_no_error _ hack
  unfold handleLicense
  simp only [hfst, hget]
  exact ⟨_, _, rfl⟩

theorem handleLicense_shape (w : World) (i : InteractionCreate) (ipId : String) :
    (handleLicense w i ipId).all (fun e => !e.isCleanup) = true ∨
    ∃ (embed : MessageEmbed) (components : List MessageComponent) (msg : Message)
      (quiet : List Effect),
      quiet.all (fun e => !e.isCleanup) = true ∧
      components ≠ [] ∧
      followupEmbedWithComponents w embed components = (quiet, some msg) ∧
      handleLicense w i ipId =
        [.InteractionRespond .DeferredChannelMessageWithSource "" 0,
         .ClientCall "GetAssetByID" ipId] ++ quiet ++
        [.GoCleanup w.config.STORY_BUTTON_TIMEOUT_SEC msg.ChannelID msg.ID components] := by
  by_cases hack : (respondDeferred w.handlerAck).2 = none
  · have hfst := respondDeferred_of_no_error _ hack
    cases hget : w.client.GetAssetByID ipId with
    | error err =>
      left
      unfold handleLicense
      simp only [hfst, hget, List.all_append, Bool.and_eq_true]
      refine ⟨by simp [Effect.isCleanup], ?_⟩
      split_ifs <;> exact followupEmbed_no_cleanup _ _
    | ok oa =>
      cases oa with
      | none =>
        left
        unfold handleLicense
        simp only [hfst, hget, List.all_append, Bool.and_eq_true]
        exact ⟨by simp [Effect.isCleanup], followupEmbed_no_cleanup _ _⟩
      | some asset =>
        obtain ⟨embed, components, hview⟩ := handleLicense_view w i ipId asset hack hget
        rw [hview]
        by_cases hlen : components.length > 0
        · rw [if_pos hlen]
          cases hfo : followupEmbedWithComponents w embed components with
          | mk calls omsg =>
            have hcalls : calls.all (fun e => !e.isCleanup) = true := by
              have := followupEmbedWithComponents_no_cleanup w embed components
              rw [hfo] at this
              exact this
            cases omsg with
            | none =>
              left
              simp only [List.all_append, Bool.and_eq_true]
              exact ⟨by simp [Effect.isCleanup], hcalls⟩
            | some msg =>
              right
              refine ⟨embed, components, msg, calls, hcalls, ?_, hfo, ?_⟩
              · exact List.ne_nil_of_length_pos hlen
              · simp
        · rw [if_neg hlen]
          left
          simp only [List.all_append, Bool.and_eq_true]
          exact ⟨by simp [Effect.isCleanup], followupEmbed_no_cleanup _ _⟩
  · left
    have hfst := respondDeferred_fst w.handlerAck
    unfold handleLicense
    split
    · rename_i acks err heq
      rw [heq] at hfst
      simp only at hfst
      subst hfst
      rfl
    · rename_i acks heq
      rw [heq] at hack
      exact absurd rfl hack

theorem handleLicense_cleanup_delay (w : World) (i : InteractionCreate) (ipId : String)
    (e : Effect) (he : e ∈ handleLicense w i ipId) (d : Int) (hd : e.cleanupDelay = some d) :
    d = w.config.STORY_BUTTON_TIMEOUT_SEC := by
  rcases handleLicense_shape w i ipId with h | ⟨embed, components, msg, quiet, hq, -, -, h⟩
  · rw [cleanupDelay_of_no_cleanup _ h e he] at hd
    exact Option.noConfusion hd
  · rw [h] at he
    rcases List.mem_append.1 he with h1 | h1
    · have hall : ([Effect.InteractionRespond .DeferredChannelMessageWithSource "" 0,
          Effect.ClientCall "GetAssetByID" ipId] ++ quiet).all (fun e => !e.isCleanup) = true := by
        simp only [List.all_append, Bool.and_eq_true]
        exact ⟨by simp [Effect.isCleanup], hq⟩
      rw [cleanupDelay_of_no_cleanup _ hall e h1] at hd
      exact Option.noConfusion hd
    · simp only [List.mem_singleton] at h1
      subst h1
      simp only [Effect.cleanupDelay, Option.some.injEq] at hd
      exact hd.symm

/-- C21 fails for `handleCollection` and `handleLicenseCollection`: each sends
its embed with a clickable button (`col:disputes:..`, `col:show:..`) and starts
no cleanup, while `handleLicense`, in the same world, ends with the start of
the cleanup of its message after 300 seconds. -/
theorem collection_buttons_have_no_expiry :
    (∃ params : WebhookParams,
      handleCollection (worldWithRemote (remoteWithCollection []))
          (commandBy "u1" "collection" "0xc0ffee") "0xc0ffee" =
        [.InteractionRespond .DeferredChannelMessageWithSource "" 0,
         .ClientCall "GetCollectionByAddress" "0xc0ffee",
         .FollowupMessageCreate params] ∧
      params.Components =
        [.ActionsRow [actionButton "btn_disputes" 2 "col:disputes:0xc0ffee:u1"]]) ∧
    (∃ params : WebhookParams,
      handleLicenseCollection (worldWithRemote (remoteWithCollection [assetWithContract "0xc0ffee"]))
          (commandBy "u1" "license_collection" "0xabc") "0xabc" =
        [.InteractionRespond .DeferredChannelMessageWithSource "" 0,
         .ClientCall "GetAssetByID" "0xabc",
         .FollowupMessageCreate params] ∧
      params.Components =
        [.ActionsRow [actionButton "btn_view_collection" 2 "col:show:0xc0ffee:u1"]]) ∧
    (∃ (params : WebhookParams) (components : List MessageComponent),
      handleLicense (worldWithRemote (remoteWithCollection [assetWithContract "0xc0ffee"]))
          (commandBy "u1" "license" "0xabc") "0xabc" =
        [.InteractionRespond .DeferredChannelMessageWithSource "" 0,
         .ClientCall "GetAssetByID" "0xabc",
         .FollowupMessageCreate params,
         .GoCleanup 300 "c1" "m2" components] ∧
      params.Components = components) ∧
    (handleCollection (worldWithRemote (remoteWithCollection []))
        (commandBy "u1" "collection" "0xc0ffee") "0xc0ffee").any Effect.sendsCustomButton = true ∧
    (handleCollection (worldWithRemote (remoteWithCollection []))
        (commandBy "u1" "collection" "0xc0ffee") "0xc0ffee").any Effect.isCleanup = false ∧
    (handleLicenseCollection (worldWithRemote (remoteWithCollection [assetWithContract "0xc0ffee"]))
        (commandBy "u1" "license_collection" "0xabc") "0xabc").any Effect.sendsCustomButton =
      true ∧
    (handleLicenseCollection (worldWithRemote (remoteWithCollection [assetWithContract "0xc0ffee"]))
        (commandBy "u1" "license_collection" "0xabc") "0xabc").any Effect.isCleanup = false :=
  ⟨⟨_, rfl, rfl⟩, ⟨_, rfl, rfl⟩, ⟨_, _, rfl, rfl⟩, by decide, by decide, by decide, by decide⟩

/-! ## C27: the button timeout -/

/-- C27: whenever `GetEnvConfig` returns a configuration, whatever the
environment holds, its `STORY_BUTTON_TIMEOUT_SEC` is 300, and every cleanup
that `handleLicense` starts under that configuration has the delay 300
seconds. -/
theorem button_timeout_is_300 (getenv : String → String) (cfg : Config)
    (h : GetEnvConfig getenv = some cfg) :
    cfg.STORY_BUTTON_TIMEOUT_SEC = 300 ∧
    ∀ (w : World) (i : InteractionCreate) (ipId : String) (e : Effect) (d : Int),
      w.config = cfg → e ∈ handleLicense w i ipId → e.cleanupDelay = some d → d = 300 := by
  have h300 : cfg.STORY_BUTTON_TIMEOUT_SEC = 300 := by
    unfold GetEnvConfig at h
    simp only at h
    split_ifs at h <;> (simp only [Option.some.injEq] at h; rw [← h])
  refine ⟨h300, ?_⟩
  intro w i ipId e d hw he hd
  rw [handleLicense_cleanup_delay w i ipId e he d hd, hw, h300]

theorem button_timeout_is_300_witness :
    sampleEnv "STORY_BUTTON_TIMEOUT_SEC" = "60" ∧
    GetEnvConfig sampleEnv = some sampleConfig ∧
    sampleConfig.STORY_BUTTON_TIMEOUT_SEC = 300 :=
  ⟨by decide, rfl, (button_timeout_is_300 sampleEnv sampleConfig rfl).1⟩

/-! ## C22, C24: content type and play link of the license view -/

theorem licenseContentType_eq (md : NFTMetadata) :
    licenseContentType md =
      if strings_ToLower md.MediaType = "animation" then
        if md.animationUrl ≠ "" then "Animation" else if md.imageUrl ≠ "" then "Image" else ""
      else if strings_ToLower md.MediaType = "image" then
        if md.imageUrl ≠ "" then "Image" else if md.animationUrl ≠ "" then "Animation" else ""
      else
        if md.animationUrl ≠ "" then "Animation" else if md.imageUrl ≠ "" then "Image" else "" := by
  unfold licenseContentType NFTMetadata.animationUrl NFTMetadata.imageUrl
  cases md.Animation <;> cases md.Image <;> simp

/-- Precedence of `licenseContentType`: the declared type first, when its URL
is populated, else the animation URL, else the image URL, else nothing. -/
theorem licenseContentType_precedence (md : NFTMetadata) :
    (strings_ToLower md.MediaType = "animation" → md.animationUrl ≠ "" →
      licenseContentType md = "Animation") ∧
    (strings_ToLower md.MediaType = "image" → md.imageUrl ≠ "" →
      licenseContentType md = "Image") ∧
    (¬ (strings_ToLower md.MediaType = "animation" ∧ md.animationUrl ≠ "") →
      ¬ (strings_ToLower md.MediaType = "image" ∧ md.imageUrl ≠ "") →
      licenseContentType md =
        if md.animationUrl ≠ "" then "Animation" else if md.imageUrl ≠ "" then "Image" else "") ∧
    (licenseContentType md ≠ "" ↔ md.animationUrl ≠ "" ∨ md.imageUrl ≠ "") ∧
    (licenseContentType md = "Animation" → md.animationUrl ≠ "") ∧
    (licenseContentType md = "Image" → md.imageUrl ≠ "") := by
  rw [licenseContentType_eq]
  by_cases ha : md.animationUrl = "" <;> by_cases hi : md.imageUrl = "" <;>
    by_cases h1 : strings_ToLower md.MediaType = "animation" <;>
    by_cases h2 : strings_ToLower md.MediaType = "image" <;>
    simp_all

theorem licenseContentType_precedence_witness :
    licenseContentType (metadataWith "IMAGE" "https://img" "https://anim" "" "") = "Image" ∧
    licenseContentType (metadataWith "Animation" "https://img" "https://anim" "" "") =
      "Animation" ∧
    licenseContentType (metadataWith "image" "" "https://anim" "" "") = "Animation" ∧
    licenseContentType (metadataWith "video" "https://img" "" "" "") = "Image" ∧
    licenseContentType (metadataWith "image" "" "" "https://o" "https://x") = "" :=
  ⟨(licenseContentType_precedence (metadataWith "IMAGE" "https://img" "https://anim" "" "")).2.1
      (by decide) (by decide),
   (licenseContentType_precedence (metadataWith "Animation" "https://img" "https://anim" "" "")).1
      (by decide) (by decide),
   (licenseContentType_precedence (metadataWith "image" "" "https://anim" "" "")).2.2.1
      (by decide) (by decide),
   (licenseContentType_precedence (metadataWith "video" "https://img" "" "" "")).2.2.1
      (by decide) (by decide),
   (licenseContentType_precedence (metadataWith "image" "" "" "https://o" "https://x")).2.2.1
      (by decide) (by decide)⟩

theorem licensePlayLink_eq (md : NFTMetadata) :
    licensePlayLink md (licenseContentType md) =
      if licenseContentType md = "Image" then md.imageUrl
      else if licenseContentType md = "Animation" then md.animationUrl else "" := by
  obtain ⟨-, -, -, -, hA, hI⟩ := licenseContentType_precedence md
  unfold licensePlayLink
  by_cases h1 : licenseContentType md = "Image"
  · have := hI h1
    simp only [h1, if_true]
    unfold NFTMetadata.imageUrl at this ⊢
    cases hm : md.Image with
    | none => simp [hm] at this
    | some im => simp only [hm] at this ⊢; simp [this]
  · by_cases h2 : licenseContentType md = "Animation"
    · have := hA h2
      simp only [h2, if_true]
      unfold NFTMetadata.animationUrl at this ⊢
      cases hm : md.Animation with
      | none => simp [hm] at this
      | some a => simp only [hm] at this ⊢; simp [this]
    · simp [h1, h2]

theorem licenseContentType_values (md : NFTMetadata) :
    licenseContentType md = "" ∨ licenseContentType md = "Animation" ∨
      licenseContentType md = "Image" := by
  rw [licenseContentType_eq]
  split_ifs <;> simp

theorem addField_Fields (embed : MessageEmbed) (name value : String) (inline : Bool) :
    (embed.addField name value inline).Fields =
      embed.Fields ++ [{ Name := name, Value := value, Inline := inline }] := rfl

set_option maxHeartbeats 2000000 in
theorem handleLicense_view_parts (w : World) (i : InteractionCreate) (ipId : String)
    (asset : IPAsset)
    (hack : (respondDeferred w.handlerAck).2 = none)
    (hget : w.client.GetAssetByID ipId = .ok (some asset)) :
    ∃ (embed : MessageEmbed) (components : List MessageComponent),
      handleLicense w i ipId =
        [.InteractionRespond .DeferredChannelMessageWithSource "" 0,
         .ClientCall "GetAssetByID" ipId] ++
        (if components.length > 0 then
          match followupEmbedWithComponents w embed components with
          | (calls, some msg) =>
            calls ++ [.GoCleanup w.config.STORY_BUTTON_TIMEOUT_SEC msg.ChannelID msg.ID components]
          | (calls, none) => calls
        else followupEmbed w embed) ∧
      embed.Title = (if asset.Title ≠ "" then asset.Title else ipId) ∧
      embed.Description = asset.Description ∧
      embed.Color = 0x00FF00 ∧
      embed.Fields =
        [{ Name := getTextWithCtx w (some i) "embed_id", Value := ipId, Inline := false }] ++
        (if asset.OwnerAddress ≠ "" then
          [{ Name := getTextWithCtx w (some i) "embed_owner", Value := asset.OwnerAddress,
             Inline := true }]
         else []) ++
        (if (match asset.NFTMetadata with
              | some md => licenseContentType md
              | none => "") ≠ "" then
          [{ Name := getTextWithCtx w (some i) "embed_metadata",
             Value := (match asset.NFTMetadata with
              | some md => licenseContentType md
              | none => ""), Inline := false }]
         else []) ++
        (match asset.CreatedAt with
         | some t => [{ Name := getTextWithCtx w (some i) "embed_created", Value := t.formatDate,
                        Inline := true }]
         | none => []) ++
        (match asset.UpdatedAt with
         | some t => [{ Name := getTextWithCtx w (some i) "embed_updated", Value := t.formatDate,
                        Inline := true }]
         | none => []) ∧
      components =
        (if (match asset.NFTMetadata with
              | some md => licensePlayLink md (licenseContentType md)
              | none => "") ≠ "" then
          [.ActionsRow [linkButton (T w.locales (DetectLocale w.config.LOCALE) "btn_play")
            (match asset.NFTMetadata with
              | some md => licensePlayLink md (licenseContentType md)
              | none => "")]]
         else []) ++
        (if interactionUserID i ≠ "" then
          [.ActionsRow [
            actionButton (T w.locales (DetectLocale w.config.LOCALE) "btn_terms") 1
              (customID "lic" "terms" ipId (interactionUserID i)),
            actionButton (T w.locales (DetectLocale w.config.LOCALE) "btn_infringement") 2
              (customID "lic" "infr" ipId (interactionUserID i)),
            actionButton (T w.locales (DetectLocale w.config.LOCALE) "btn_moderation") 2
              (customID "lic" "mod" ipId (interactionUserID i)),
            actionButton (T w.locales (DetectLocale w.config.LOCALE) "btn_mint") 2
              (customID "lic" "mint" ipId (interactionUserID i)),
            actionButton (T w.locales (DetectLocale w.config.LOCALE) "btn_collection") 2
              (match asset.Contract with
               | some ct => if ct.Address ≠ "" then
                   customID "col" "show" ct.Address (interactionUserID i)
                 else customID "lic" "coll" ipId (interactionUserID i)
               | none => customID "lic" "coll" ipId (interactionUserID i))]]
         else []) := by
  have hfst := respondDeferred_of_no_error _ hack
  unfold handleLicense
  simp only [hfst, hget]
  refine ⟨_, _, rfl, ?_, ?_, ?_, ?_, ?_⟩
  · cases asset.CreatedAt <;> cases asset.UpdatedAt <;> split_ifs <;> rfl
  · cases asset.CreatedAt <;> cases asset.UpdatedAt <;> split_ifs <;> rfl
  · cases asset.CreatedAt <;> cases asset.UpdatedAt <;> split_ifs <;> rfl
  · cases asset.CreatedAt <;> cases asset.UpdatedAt <;> split_ifs <;>
      simp [addField_Fields, newEmbed]
  · cases asset.NFTMetadata <;> split_ifs <;> rfl

theorem followup_of_view (w : World) (embed : MessageEmbed)
    (components : List MessageComponent) (hlen : embed.Fields.length ≤ 25) :
    (if components.length > 0 then
      match followupEmbedWithComponents w embed components with
      | (calls, some msg) =>
        calls ++ [.GoCleanup w.config.STORY_BUTTON_TIMEOUT_SEC msg.ChannelID msg.ID components]
      | (calls, none) => calls
    else followupEmbed w embed) =
      .FollowupMessageCreate
        { Content := "", Flags := 0, Embeds := [{ embed with Footer := some footerText }],
          Components := components } ::
      (match w.followup with
       | .error err => [.Log "error" ("Failed to send followup embed: " ++ err)]
       | .ok msg =>
         if components.length > 0 then
           [.GoCleanup w.config.STORY_BUTTON_TIMEOUT_SEC msg.ChannelID msg.ID components]
         else []) := by
  have hnot : ¬ embed.Fields.length > 25 := by omega
  by_cases hc : components.length > 0
  · unfold followupEmbedWithComponents
    cases w.followup <;> simp [hc, hnot]
  · have hnil : components = [] := by
      cases components with
      | nil => rfl
      | cons c cs => simp at hc
    unfold followupEmbed
    cases w.followup <;> simp [hnil, hnot]

theorem handleLicense_sent (w : World) (i : InteractionCreate) (ipId : String)
    (asset : IPAsset)
    (hack : (respondDeferred w.handlerAck).2 = none)
    (hget : w.client.GetAssetByID ipId = .ok (some asset)) :
    handleLicense w i ipId =
      [.InteractionRespond .DeferredChannelMessageWithSource "" 0,
       .ClientCall "GetAssetByID" ipId,
       .FollowupMessageCreate
         { Content := "", Flags := 0,
           Embeds := [{
             Title := if asset.Title ≠ "" then asset.Title else ipId,
             Description := asset.Description,
             Color := 0x00FF00,
             Footer := some footerText,
             Fields :=
               [{ Name := getTextWithCtx w (some i) "embed_id", Value := ipId, Inline := false }] ++
               (if asset.OwnerAddress ≠ "" then
                 [{ Name := getTextWithCtx w (some i) "embed_owner", Value := asset.OwnerAddress,
                    Inline := true }]
                else []) ++
               (if (match asset.NFTMetadata with
                     | some md => licenseContentType md
                     | none => "") ≠ "" then
                 [{ Name := getTextWithCtx w (some i) "embed_metadata",
                    Value := (match asset.NFTMetadata with
                     | some md => licenseContentType md
                     | none => ""), Inline := false }]
                else []) ++
               (match asset.CreatedAt with
                | some t => [{ Name := getTextWithCtx w (some i) "embed_created",
                               Value := t.formatDate, Inline := true }]
                | none => []) ++
               (match asset.UpdatedAt with
                | some t => [{ Name := getTextWithCtx w (some i) "embed_updated",
                               Value := t.formatDate, Inline := true }]
                | none => []) }],
           Components :=
             (if (match asset.NFTMetadata with
                   | some md => licensePlayLink md (licenseContentType md)
                   | none => "") ≠ "" then
               [.ActionsRow [linkButton (T w.locales (DetectLocale w.config.LOCALE) "btn_play")
                 (match asset.NFTMetadata with
                   | some md => licensePlayLink md (licenseContentType md)
                   | none => "")]]
              else []) ++
             (if interactionUserID i ≠ "" then
               [.ActionsRow [
                 actionButton (T w.locales (DetectLocale w.config.LOCALE) "btn_terms") 1
                   (customID "lic" "terms" ipId (interactionUserID i)),
                 actionButton (T w.locales (DetectLocale w.config.LOCALE) "btn_infringement") 2
                   (customID "lic" "infr" ipId (interactionUserID i)),
                 actionButton (T w.locales (DetectLocale w.config.LOCALE) "btn_moderation") 2
                   (customID "lic" "mod" ipId (interactionUserID i)),
                 actionButton (T w.locales (DetectLocale w.config.LOCALE) "btn_mint") 2
                   (customID "lic" "mint" ipId (interactionUserID i)),
                 actionButton (T w.locales (DetectLocale w.config.LOCALE) "btn_collection") 2
                   (match asset.Contract with
                    | some ct => if ct.Address ≠ "" then
                        customID "col" "show" ct.Address (interactionUserID i)
                      else customID "lic" "coll" ipId (interactionUserID i)
                    | none => customID "lic" "coll" ipId (interactionUserID i))]]
              else []) }] ++
      (match w.followup with
       | .error err => [.Log "error" ("Failed to send followup embed: " ++ err)]
       | .ok msg =>
         if interactionUserID i ≠ "" ∨
             (match asset.NFTMetadata with
               | some md => licensePlayLink md (licenseContentType md)
               | none => "") ≠ "" then
           [.GoCleanup w.config.STORY_BUTTON_TIMEOUT_SEC msg.ChannelID msg.ID
             ((if (match asset.NFTMetadata with
                   | some md => licensePlayLink md (licenseContentType md)
                   | none => "") ≠ "" then
               [.ActionsRow [linkButton (T w.locales (DetectLocale w.config.LOCALE) "btn_play")
                 (match asset.NFTMetadata with
                   | some md => licensePlayLink md (licenseContentType md)
                   | none => "")]]
              else []) ++
             (if interactionUserID i ≠ "" then
               [.ActionsRow [
                 actionButton (T w.locales (DetectLocale w.config.LOCALE) "btn_terms") 1
                   (customID "lic" "terms" ipId (interactionUserID i)),
                 actionButton (T w.locales (DetectLocale w.config.LOCALE) "btn_infringement") 2
                   (customID "lic" "infr" ipId (interactionUserID i)),
                 actionButton (T w.locales (DetectLocale w.config.LOCALE) "btn_moderation") 2
                   (customID "lic" "mod" ipId (interactionUserID i)),
                 actionButton (T w.locales (DetectLocale w.config.LOCALE) "btn_mint") 2
                   (customID "lic" "mint" ipId (interactionUserID i)),
                 actionButton (T w.locales (DetectLocale w.config.LOCALE) "btn_collection") 2
                   (match asset.Contract with
                    | some ct => if ct.Address ≠ "" then
                        customID "col" "show" ct.Address (interactionUserID i)
                      else customID "lic" "coll" ipId (interactionUserID i)
                    | none => customID "lic" "coll" ipId (interactionUserID i))]]
              else []))]
         else []) := by
  obtain ⟨embed, components, hview, hT, hD, hC, hF, hcomps⟩ :=
    handleLicense_view_parts w i ipId asset hack hget
  have hlen : embed.Fields.length ≤ 25 := by
    rw [hF]
    cases asset.CreatedAt <;> cases asset.UpdatedAt <;> split_ifs <;> simp
  rw [hview, followup_of_view w embed components hlen]
  have hembed : ({ embed with Footer := some footerText } : MessageEmbed) =
      { Title := if asset.Title ≠ "" then asset.Title else ipId,
        Description := asset.Description, Color := 0x00FF00, Footer := some footerText,
        Fields := embed.Fields } := by
    rw [← hT, ← hD, ← hC]
  rw [hembed, hF]
  have hpos : components.length > 0 ↔ (interactionUserID i ≠ "" ∨
      (match asset.NFTMetadata with
        | some md => licensePlayLink md (licenseContentType md)
        | none => "") ≠ "") := by
    rw [hcomps]
    by_cases h1 : interactionUserID i = "" <;>
      by_cases h2 : (match asset.NFTMetadata with
        | some md => licensePlayLink md (licenseContentType md)
        | none => "") = "" <;> simp [h1, h2]
  simp only [hpos]
  rw [hcomps]
  rfl

/-- C22: when `handleLicense` has fetched an asset with media metadata, the
embed it sends carries, between the owner field and the date fields, the
`embed_metadata` field with the content type as its value exactly when the
content type is non-empty, and that content type is `Animation` when the
declared type is `animation` ignoring case and the animation URL is populated,
`Image` when the declared type is `image` ignoring case and the image URL is
populated, and in every other case `Animation` if the animation URL is
populated, else `Image` if the image URL is populated, else empty; it is
non-empty exactly when one of the two URLs is populated and never names a
kind whose URL is missing. -/
theorem license_view_content_type (w : World) (i : InteractionCreate) (ipId : String)
    (asset : IPAsset) (md : NFTMetadata)
    (hack : (respondDeferred w.handlerAck).2 = none)
    (hget : w.client.GetAssetByID ipId = .ok (some asset))
    (hmd : asset.NFTMetadata = some md) :
    ∃ (contentType : String) (components : List MessageComponent) (rest : List Effect),
      handleLicense w i ipId =
        [.InteractionRespond .DeferredChannelMessageWithSource "" 0,
         .ClientCall "GetAssetByID" ipId,
         .FollowupMessageCreate
           { Content := "", Flags := 0,
             Embeds := [{
               Title := if asset.Title ≠ "" then asset.Title else ipId,
               Description := asset.Description,
               Color := 0x00FF00,
               Footer := some footerText,
               Fields :=
                 [{ Name := getTextWithCtx w (some i) "embed_id", Value := ipId,
                    Inline := false }] ++
                 (if asset.OwnerAddress ≠ "" then
                   [{ Name := getTextWithCtx w (some i) "embed_owner",
                      Value := asset.OwnerAddress, Inline := true }]
                  else []) ++
                 (if contentType ≠ "" then
                   [{ Name := getTextWithCtx w (some i) "embed_metadata", Value := contentType,
                      Inline := false }]
                  else []) ++
                 (match asset.CreatedAt with
                  | some t => [{ Name := getTextWithCtx w (some i) "embed_created",
                                 Value := t.formatDate, Inline := true }]
                  | none => []) ++
                 (match asset.UpdatedAt with
                  | some t => [{ Name := getTextWithCtx w (some i) "embed_updated",
                                 Value := t.formatDate, Inline := true }]
                  | none => []) }],
             Components := components }] ++ rest ∧
      (strings_ToLower md.MediaType = "animation" → md.animationUrl ≠ "" →
        contentType = "Animation") ∧
      (strings_ToLower md.MediaType = "image" → md.imageUrl ≠ "" → contentType = "Image") ∧
      (¬ (strings_ToLower md.MediaType = "animation" ∧ md.animationUrl ≠ "") →
        ¬ (strings_ToLower md.MediaType = "image" ∧ md.imageUrl ≠ "") →
        contentType =
          if md.animationUrl ≠ "" then "Animation"
          else if md.imageUrl ≠ "" then "Image" else "") ∧
      (contentType ≠ "" ↔ md.animationUrl ≠ "" ∨ md.imageUrl ≠ "") ∧
      (contentType = "Animation" → md.animationUrl ≠ "") ∧
      (contentType = "Image" → md.imageUrl ≠ "") := by
  have hsent := handleLicense_sent w i ipId asset hack hget
  simp only [hmd] at hsent
  exact ⟨licenseContentType md, _, _, hsent, licenseContentType_precedence md⟩

theorem license_view_content_type_witness :
    ∃ (components : List MessageComponent) (rest : List Effect),
      handleLicense
          (commandWorld [assetWithMedia
            (metadataWith "IMAGE" "https://img" "https://anim" "https://o" "https://x")])
          (commandBy "u1" "license" "0xabc") "0xabc" =
        [.InteractionRespond .DeferredChannelMessageWithSource "" 0,
         .ClientCall "GetAssetByID" "0xabc",
         .FollowupMessageCreate
           { Content := "", Flags := 0,
             Embeds := [{
               Title := "0xabc", Description := "", Color := 0x00FF00,
               Footer := some footerText,
               Fields := [{ Name := "embed_id", Value := "0xabc", Inline := false },
                          { Name := "embed_metadata", Value := "Image", Inline := false }] }],
             Components := components }] ++ rest := by
  obtain ⟨contentType, components, rest, htrace, -, himg, -⟩ :=
    license_view_content_type
      (commandWorld [assetWithMedia
        (metadataWith "IMAGE" "https://img" "https://anim" "https://o" "https://x")])
      (commandBy "u1" "license" "0xabc") "0xabc"
      (assetWithMedia (metadataWith "IMAGE" "https://img" "https://anim" "https://o" "https://x"))
      (metadataWith "IMAGE" "https://img" "https://anim" "https://o" "https://x") rfl rfl rfl
  have hct : contentType = "Image" := himg (by decide) (by decide)
  subst hct
  exact ⟨components, rest, htrace⟩

/-- C24: when `handleLicense` has fetched an asset, the components it sends are
the row of the link button, present exactly when the play link is non-empty,
followed by the rows of the action buttons, none of which carries a URL; the
play link is non-empty exactly when the content type shown in the
`embed_metadata` field is non-empty, it is the image URL when the content type
is `Image` and the animation URL when it is `Animation`; and the whole trace is
the same for every value of the metadata-level `OriginalURL` and `ExternalURL`,
which are never selected. -/
theorem license_view_play_link (w : World) (i : InteractionCreate) (ipId : String)
    (asset : IPAsset)
    (hack : (respondDeferred w.handlerAck).2 = none)
    (hget : w.client.GetAssetByID ipId = .ok (some asset)) :
    ∃ (contentType playLink : String) (actionRows : List MessageComponent)
      (rest : List Effect),
      handleLicense w i ipId =
        [.InteractionRespond .DeferredChannelMessageWithSource "" 0,
         .ClientCall "GetAssetByID" ipId,
         .FollowupMessageCreate
           { Content := "", Flags := 0,
             Embeds := [{
               Title := if asset.Title ≠ "" then asset.Title else ipId,
               Description := asset.Description,
               Color := 0x00FF00,
               Footer := some footerText,
               Fields :=
                 [{ Name := getTextWithCtx w (some i) "embed_id", Value := ipId,
                    Inline := false }] ++
                 (if asset.OwnerAddress ≠ "" then
                   [{ Name := getTextWithCtx w (some i) "embed_owner",
                      Value := asset.OwnerAddress, Inline := true }]
                  else []) ++
                 (if contentType ≠ "" then
                   [{ Name := getTextWithCtx w (some i) "embed_metadata", Value := contentType,
                      Inline := false }]
                  else []) ++
                 (match asset.CreatedAt with
                  | some t => [{ Name := getTextWithCtx w (some i) "embed_created",
                                 Value := t.formatDate, Inline := true }]
                  | none => []) ++
                 (match asset.UpdatedAt with
                  | some t => [{ Name := getTextWithCtx w (some i) "embed_updated",
                                 Value := t.formatDate, Inline := true }]
                  | none => []) }],
             Components :=
               (if playLink ≠ "" then
                 [.ActionsRow [linkButton (T w.locales (DetectLocale w.config.LOCALE) "btn_play")
                   playLink]]
                else []) ++ actionRows }] ++ rest ∧
      (∀ c ∈ actionRows, ∃ row : List MessageComponent, c = .ActionsRow row ∧
        ∀ rc ∈ row, ∃ b : Button, rc = .Button b ∧ b.URL = "") ∧
      (contentType = match asset.NFTMetadata with
        | some md => licenseContentType md
        | none => "") ∧
      (playLink ≠ "" ↔ contentType ≠ "") ∧
      (contentType = "Image" →
        ∃ md : NFTMetadata, asset.NFTMetadata = some md ∧ playLink = md.imageUrl) ∧
      (contentType = "Animation" →
        ∃ md : NFTMetadata, asset.NFTMetadata = some md ∧ playLink = md.animationUrl) ∧
      (contentType = "" ∨ contentType = "Image" ∨ contentType = "Animation") ∧
      (∀ (md : NFTMetadata) (c : Client) (originalURL externalURL : String),
        asset.NFTMetadata = some md →
        c.GetAssetByID ipId =
          .ok (some { asset with
            NFTMetadata := some { md with OriginalURL := originalURL,
                                          ExternalURL := externalURL } }) →
        handleLicense { w with client := c } i ipId = handleLicense w i ipId) := by
  have hsent := handleLicense_sent w i ipId asset hack hget
  cases hmd : asset.NFTMetadata with
  | none =>
    simp only [hmd] at hsent
    refine ⟨"", "", _, _, hsent, ?_, rfl, by simp, by simp, by simp, by simp, ?_⟩
    · intro c hc
      split_ifs at hc with huid
      · simp only [List.mem_singleton] at hc
        refine ⟨_, hc, ?_⟩
        intro rc hrc
        simp only [List.mem_cons, List.mem_singleton, List.not_mem_nil, or_false] at hrc
        rcases hrc with h | h | h | h | h <;> exact ⟨_, h, rfl⟩
      · simp at hc
    · intro md c o x h
      simp at h
  | some md =>
    simp only [hmd] at hsent
    have hlink := licensePlayLink_eq md
    obtain ⟨-, -, -, -, hA, hI⟩ := licenseContentType_precedence md
    refine ⟨licenseContentType md, licensePlayLink md (licenseContentType md), _, _, hsent,
      ?_, rfl, ?_, ?_, ?_, ?_, ?_⟩
    · intro c hc
      split_ifs at hc with huid
      · simp only [List.mem_singleton] at hc
        refine ⟨_, hc, ?_⟩
        intro rc hrc
        simp only [List.mem_cons, List.mem_singleton, List.not_mem_nil, or_false] at hrc
        rcases hrc with h | h | h | h | h <;> exact ⟨_, h, rfl⟩
      · simp at hc
    · rw [hlink]
      rcases licenseContentType_values md with h | h | h
      · simp [h]
      · simp [h, hA h]
      · simp [h, hI h]
    · intro h
      exact ⟨md, rfl, by rw [hlink, if_pos h]⟩
    · intro h
      exact ⟨md, rfl, by rw [hlink, if_neg (by rw [h]; decide), if_pos h]⟩
    · rcases licenseContentType_values md with h | h | h
      · exact Or.inl h
      · exact Or.inr (Or.inr h)
      · exact Or.inr (Or.inl h)
    · intro md2 c o x h hget2
      have hmd2 : md2 = md := by
        simpa using h.symm
      subst hmd2
      have hsent2 := handleLicense_sent { w with client := c } i ipId _ hack hget2
      have hl2 : licensePlayLink { md2 with OriginalURL := o, ExternalURL := x }
          (licenseContentType { md2 with OriginalURL := o, ExternalURL := x }) =
          licensePlayLink md2 (licenseContentType md2) := by
        rw [licensePlayLink_eq, licensePlayLink_eq]
        rfl
      have hc2 : licenseContentType { md2 with OriginalURL := o, ExternalURL := x } =
          licenseContentType md2 := rfl
      have hl3 : licensePlayLink { md2 with OriginalURL := o, ExternalURL := x }
          (licenseContentType md2) = licensePlayLink md2 (licenseContentType md2) := hl2
      simp only [hl3, hc2] at hsent2
      rw [hsent2, hsent]
      rfl

theorem license_view_play_link_witness :
    ∃ (actionRows : List MessageComponent) (rest : List Effect),
      handleLicense
          (commandWorld [assetWithMedia
            (metadataWith "image" "https://img" "" "https://o" "https://x")])
          (commandBy "u1" "license" "0xabc") "0xabc" =
        [.InteractionRespond .DeferredChannelMessageWithSource "" 0,
         .ClientCall "GetAssetByID" "0xabc",
         .FollowupMessageCreate
           { Content := "", Flags := 0,
             Embeds := [{
               Title := "0xabc", Description := "", Color := 0x00FF00,
               Footer := some footerText,
               Fields := [{ Name := "embed_id", Value := "0xabc", Inline := false },
                          { Name := "embed_metadata", Value := "Image", Inline := false }] }],
             Components :=
               .ActionsRow [linkButton "btn_play" "https://img"] :: actionRows }] ++ rest := by
  obtain ⟨contentType, playLink, actionRows, rest, htrace, -, hct, -, himg, -⟩ :=
    license_view_play_link
      (commandWorld [assetWithMedia
        (metadataWith "image" "https://img" "" "https://o" "https://x")])
      (commandBy "u1" "license" "0xabc") "0xabc"
      (assetWithMedia (metadataWith "image" "https://img" "" "https://o" "https://x"))
      rfl rfl
  have hImage : contentType = "Image" := by
    rw [hct]
    decide
  obtain ⟨md, hmd, hlink⟩ := himg hImage
  have hmd2 : md = metadataWith "image" "https://img" "" "https://o" "https://x" := by
    simpa [assetWithMedia] using hmd.symm
  have hurl : playLink = "https://img" := by
    rw [hlink, hmd2]
    decide
  subst hImage
  subst hurl
  exact ⟨actionRows, rest, htrace⟩

/-! ## C23: `UNLIKELY` counts as unsafe -/

/-- C23: `evaluateModeration` returns `Unsafe` whenever some category is
`UNLIKELY` or `VERY_UNLIKELY` in any letter case; the verdict is `Unsafe`
exactly when some category contains `LIKELY` after upper-casing, and `Safe`
exactly when no category contains `LIKELY`, `POSSIBLE` or `POSSIBLY` after
upper-casing. -/
theorem unlikely_verdict (m : ModerationStatus) :
    ((∃ v ∈ [m.Adult, m.Spoof, m.Medical, m.Violence, m.Racy],
        strings_ToUpper v = "UNLIKELY" ∨ strings_ToUpper v = "VERY_UNLIKELY") →
      evaluateModeration m = "Unsafe") ∧
    (evaluateModeration m = "Unsafe" ↔
      ∃ v ∈ [m.Adult, m.Spoof, m.Medical, m.Violence, m.Racy],
        strings_Contains (strings_ToUpper v) "LIKELY" = true) ∧
    (evaluateModeration m = "Safe" ↔
      ∀ v ∈ [m.Adult, m.Spoof, m.Medical, m.Violence, m.Racy],
        strings_Contains (strings_ToUpper v) "LIKELY" = false ∧
        strings_Contains (strings_ToUpper v) "POSSIBLE" = false ∧
        strings_Contains (strings_ToUpper v) "POSSIBLY" = false) := by
  have hiff : evaluateModeration m = "Unsafe" ↔
      ∃ v ∈ [m.Adult, m.Spoof, m.Medical, m.Violence, m.Racy],
        strings_Contains (strings_ToUpper v) "LIKELY" = true := by
    constructor
    · intro h
      by_contra hno
      have hall : ∀ v ∈ [m.Adult, m.Spoof, m.Medical, m.Violence, m.Racy],
          strings_Contains (strings_ToUpper v) "LIKELY" = false := by
        intro v hv
        by_contra hc
        exact hno ⟨v, hv, by simpa using hc⟩
      unfold evaluateModeration at h
      rw [evaluateModerationLoop_no_likely _ _ hall] at h
      split_ifs at h <;> exact absurd h (by decide)
    · exact evaluateModerationLoop_unsafe _ _
  refine ⟨?_, hiff, ?_⟩
  · rintro ⟨v, hv, hu⟩
    refine hiff.2 ⟨v, hv, ?_⟩
    rcases hu with hu | hu <;> rw [hu] <;> decide
  · constructor
    · intro h
      have hno : ∀ v ∈ [m.Adult, m.Spoof, m.Medical, m.Violence, m.Racy],
          strings_Contains (strings_ToUpper v) "LIKELY" = false := by
        intro v hv
        by_contra hc
        have hun := hiff.2 ⟨v, hv, by simpa using hc⟩
        rw [hun] at h
        exact absurd h (by decide)
      unfold evaluateModeration at h
      rw [evaluateModerationLoop_no_likely _ _ hno] at h
      have hany : ([m.Adult, m.Spoof, m.Medical, m.Violence, m.Racy].any
          (fun v => strings_Contains (strings_ToUpper v) "POSSIBLE" ||
            strings_Contains (strings_ToUpper v) "POSSIBLY")) = false := by
        cases hb : ([m.Adult, m.Spoof, m.Medical, m.Violence, m.Racy].any
          (fun v => strings_Contains (strings_ToUpper v) "POSSIBLE" ||
            strings_Contains (strings_ToUpper v) "POSSIBLY")) with
        | false => rfl
        | true =>
          rw [hb] at h
          exact absurd h (by decide)
      intro v hv
      have := List.any_eq_false.1 hany v hv
      simp only [Bool.or_eq_true, not_or, Bool.not_eq_true] at this
      exact ⟨hno v hv, this.1, this.2⟩
    · intro h
      unfold evaluateModeration
      rw [evaluateModerationLoop_no_likely _ _ (fun v hv => (h v hv).1)]
      have hany : ([m.Adult, m.Spoof, m.Medical, m.Violence, m.Racy].any
          (fun v => strings_Contains (strings_ToUpper v) "POSSIBLE" ||
            strings_Contains (strings_ToUpper v) "POSSIBLY")) = false := by
        rw [List.any_eq_false]
        intro v hv
        simp [(h v hv).2.1, (h v hv).2.2]
      rw [hany]
      rfl

theorem unlikely_verdict_witness :
    evaluateModeration
      { Adult := "VERY_UNLIKELY", Spoof := "VERY_UNLIKELY", Medical := "VERY_UNLIKELY",
        Violence := "VERY_UNLIKELY", Racy := "Unlikely" } = "Unsafe" :=
  (unlikely_verdict _).1 ⟨"Unlikely", by simp, Or.inl (by decide)⟩

/-! ## C25: identifiers with five or more parts -/

theorem splitChars_length (sep : Char) (cs : List Char) :
    (splitChars sep cs).length = cs.count sep + 1 := by
  induction cs with
  | nil => rfl
  | cons c cs ih =>
    unfold splitChars
    by_cases hc : c = sep
    · subst hc
      simp [ih]
    · have hne : (c == sep) = false := by simpa using hc
      rw [if_neg hc, List.count_cons, hne]
      cases hs : splitChars sep cs with
      | nil => exact absurd hs (splitChars_ne_nil sep cs)
      | cons p ps =>
        rw [hs] at ih
        simpa using ih

theorem splitChars_parts_free (sep : Char) (cs : List Char) :
    ∀ p ∈ splitChars sep cs, sep ∉ p := by
  induction cs with
  | nil =>
    intro p hp
    simp [splitChars] at hp
    subst hp
    simp
  | cons c cs ih =>
    intro p hp
    unfold splitChars at hp
    by_cases hc : c = sep
    · rw [if_pos hc] at hp
      rcases List.mem_cons.1 hp with h | h
      · subst h
        simp
      · exact ih p h
    · rw [if_neg hc] at hp
      cases hs : splitChars sep cs with
      | nil => exact absurd hs (splitChars_ne_nil sep cs)
      | cons q qs =>
        rw [hs] at hp ih
        rcases List.mem_cons.1 hp with h | h
        · subst h
          intro hmem
          rcases List.mem_cons.1 hmem with h1 | h1
          · exact hc h1.symm
          · exact ih q (by simp) h1
        · exact ih p (List.mem_cons_of_mem _ h)

theorem decodeCustomID_of_five (cid : String) (p0 p1 p2 p3 p4 : String) (more : List String)
    (h : strings_Split_colon cid = p0 :: p1 :: p2 :: p3 :: p4 :: more) :
    decodeCustomID cid = .ok (some { kind := p0, action := p1, id := p3, ownerId := p4 }) := by
  have h1 : ¬ (more.length + 1 + 1 + 1 + 1 + 1 < 4) := by omega
  simp [decodeCustomID, h, indexPart, h1]

/-- C25: an identifier that splits into five or more parts decodes to the
target at part index 3 and the owner at part index 4, whatever part index 2 and
the parts after index 4 are; and the identifier built from a target id that
contains `:` has at least five parts and decodes to a target that differs from
the original one. -/
theorem long_identifier_takes_parts_3_and_4 :
    (∀ (cid p0 p1 p2 p3 p4 : String) (more : List String),
      strings_Split_colon cid = p0 :: p1 :: p2 :: p3 :: p4 :: more →
      decodeCustomID cid = .ok (some { kind := p0, action := p1, id := p3, ownerId := p4 })) ∧
    (∀ kind action id uid : String, ':' ∈ id.data →
      5 ≤ (strings_Split_colon (customID kind action id uid)).length ∧
      ∃ tok, decodeCustomID (customID kind action id uid) = .ok (some tok) ∧ tok.id ≠ id) := by
  refine ⟨decodeCustomID_of_five, ?_⟩
  intro kind action id uid hid
  have hdata : (customID kind action id uid).data =
      kind.data ++ ':' :: (action.data ++ ':' :: (id.data ++ ':' :: uid.data)) := by
    simp [customID, String.data_append]
  have hcount : 1 ≤ id.data.count ':' := List.count_pos_iff.2 hid
  have hlen : 5 ≤ (strings_Split_colon (customID kind action id uid)).length := by
    unfold strings_Split_colon
    rw [List.length_map, splitChars_length, hdata]
    simp only [List.count_append, List.count_cons_self]
    omega
  refine ⟨hlen, ?_⟩
  match hs : strings_Split_colon (customID kind action id uid), hlen with
  | p0 :: p1 :: p2 :: p3 :: p4 :: more, _ =>
    refine ⟨_, decodeCustomID_of_five _ p0 p1 p2 p3 p4 more hs, ?_⟩
    intro heq
    have hmem : p3 ∈ strings_Split_colon (customID kind action id uid) := by
      rw [hs]
      simp
    unfold strings_Split_colon at hmem
    obtain ⟨p, hp, hpe⟩ := List.mem_map.1 hmem
    have hfree := splitChars_parts_free ':' _ p hp
    have hp3 : p3 = id := heq
    rw [← hp3, ← hpe] at hid
    exact hfree hid

theorem long_identifier_takes_parts_3_and_4_witness :
    customID "lic" "terms" "a:b" "u1" = "lic:terms:a:b:u1" ∧
    decodeCustomID "lic:terms:a:b:u1" =
      .ok (some { kind := "lic", action := "terms", id := "b", ownerId := "u1" }) :=
  ⟨by decide,
   long_identifier_takes_parts_3_and_4.1 "lic:terms:a:b:u1" "lic" "terms" "a" "b" "u1" []
     (by decide)⟩

/-! ## The edit on a click by another user -/

theorem disableComponentsCopy_rows_disabled (components : List MessageComponent)
    (row : List MessageComponent)
    (hrow : MessageComponent.ActionsRow row ∈ disableComponentsCopy components)
    (b : Button) (hb : MessageComponent.Button b ∈ row) : b.Disabled = true := by
  unfold disableComponentsCopy at hrow
  obtain ⟨c, -, hc⟩ := List.mem_map.1 hrow
  cases c with
  | ActionsRow r =>
    simp only [MessageComponent.ActionsRow.injEq] at hc
    rw [← hc] at hb
    obtain ⟨rc, -, hrc⟩ := List.mem_map.1 hb
    cases rc with
    | Button b0 =>
      simp only [MessageComponent.Button.injEq] at hrc
      rw [← hrc]
    | ActionsRow r2 => simp at hrc
    | ActionsRowPtr r2 => simp at hrc
    | ButtonPtr b1 => simp at hrc
    | Other kind => simp at hrc
  | Button b0 => simp at hc
  | ActionsRowPtr r => simp at hc
  | ButtonPtr b0 => simp at hc
  | Other kind => simp at hc

/-- Click by another user: for every click whose identifier decodes to a token
(at least four parts) on a message that has components, made by a user whose
id differs from the token's owner id, `handleComponentInteraction` issues,
right after the acknowledgement and before any reply, the edit of the clicked
message with the list `disableComponentsCopy` returns for its components, in
which every button of the struct type in a row of the struct type is disabled;
and when the click is rejected (the owner id is non-empty) the `unauth_button`
reply follows the edit and ends the trace. -/
theorem non_owner_click_edit (w : World) (i : InteractionCreate)
    (tok : InteractionToken) (msg : Message)
    (hdec : decodeCustomID i.CustomID = .ok (some tok))
    (hmsg : i.Message = some msg) (hcomp : msg.Components ≠ [])
    (hclick : interactionUserID i ≠ tok.ownerId) :
    ∃ (edited : List MessageComponent) (rest : List Effect),
      handleComponentInteraction w i =
        .ok (acknowledgeComponent w ++
          .ChannelMessageEditComplex msg.ID msg.ChannelID edited :: rest) ∧
      edited = disableComponentsCopy msg.Components ∧
      edited.length = msg.Components.length ∧
      (∀ row, MessageComponent.ActionsRow row ∈ edited →
        ∀ b, MessageComponent.Button b ∈ row → b.Disabled = true) ∧
      (∀ e ∈ acknowledgeComponent w, e.isFollowup = false) ∧
      (tok.ownerId ≠ "" →
        rest = [followupContent (getTextWithCtx w (some i) "unauth_button") 64]) := by
  have hlen : msg.Components.length > 0 := List.length_pos.2 hcomp
  have hedit : disableClicked i =
      [.ChannelMessageEditComplex msg.ID msg.ChannelID (disableComponentsCopy msg.Components)] := by
    simp [disableClicked, hmsg, hlen]
  by_cases howner : tok.ownerId = ""
  · refine ⟨_, dispatchComponent w i tok.kind tok.action tok.id, ?_, rfl,
      by simp [disableComponentsCopy],
      fun row hrow b hb => disableComponentsCopy_rows_disabled _ row hrow b hb,
      acknowledgeComponent_no_followup w, fun h => absurd howner h⟩
    simp [handleComponentInteraction, hdec, hedit, howner]
  · refine ⟨_, [followupContent (getTextWithCtx w (some i) "unauth_button") 64], ?_, rfl,
      by simp [disableComponentsCopy],
      fun row hrow b hb => disableComponentsCopy_rows_disabled _ row hrow b hb,
      acknowledgeComponent_no_followup w, fun _ => rfl⟩
    simp [handleComponentInteraction, hdec, hedit, howner, hclick]

theorem non_owner_click_edit_witness :
    interactionUserID (clickOn "user7" "lic:terms:abc123:user42" sampleComponents) ≠ "user42" ∧
    handleComponentInteraction sampleWorld
        (clickOn "user7" "lic:terms:abc123:user42" sampleComponents) =
      .ok [.InteractionRespond .DeferredChannelMessageWithSource "" 0,
           .ChannelMessageEditComplex "m1" "c1"
             [.ActionsRow [.Button { Label := "Terms", Style := 1, Disabled := true, URL := "",
                                     CustomID := "lic:terms:abc123:user42" }, .Other "select"],
              .Other "text"],
           followupContent "This button is not for you." 64] := by
  obtain ⟨edited, rest, htrace, hedited, -, -, -, hrest⟩ :=
    non_owner_click_edit sampleWorld
      (clickOn "user7" "lic:terms:abc123:user42" sampleComponents)
      ⟨"lic", "terms", "abc123", "user42"⟩
      { ID := "m1", ChannelID := "c1", Components := sampleComponents } rfl rfl
      (by simp [sampleComponents]) (by decide)
  refine ⟨by decide, ?_⟩
  rw [htrace, hedited, hrest (by decide)]
  rfl

end LicenseChecker
